import Mathlib

/-!
The go-flashbots bundle protocol client.

A shallow embedding of `flashbots.go` and theorems about it.

Conventions of the embedding.

* A Go `string` and a Go `[]byte` are both a `List Byte`, so the conversions
  `[]byte(s)` and `string(b)` are the identity and `len` is `List.length`. A string
  literal of the source is written `S "..."`, its UTF-8 bytes.
* A Go function with several results returns a tuple in the same order; an `error`
  result is an `Option GoError` (`none` is the nil error).
* A call that can panic returns an `Outcome`.
* A slice or pointer whose being nil can be observed is an `Option` (`none` is nil).
* The network is a `Transport` parameter; the requests handed to it so far are a state
  that the request functions take and return.
* Services the repository imports and does not implement (Keccak-256, ECDSA signing,
  the transaction codec, the JSON decoder) are parameters of the functions that call
  them. Library routines whose exact output the program depends on (`encoding/hex`,
  `strconv`, the `%s` verb of `fmt`, `json.Marshal` on the repository's structs) are
  written out.
-/

namespace Flashbots

/-! ## Bytes, strings and errors -/

/-- One byte. -/
abbrev Byte := Fin 256

/-- A Go string: a sequence of bytes. -/
abbrev GoString := List Byte

/-- A string literal of the source: the UTF-8 bytes of the text. -/
def S (s : String) : GoString :=
  s.toList.flatMap fun c => (String.utf8EncodeChar c).map fun u => u.val

/-- A Go `error`: a message, possibly wrapping an inner error (the `%w` verb). -/
inductive GoError where
  | new (msg : GoString)
  | wrap (msg : GoString) (inner : GoError)
  deriving DecidableEq, Repr

/-- The `Error()` method: the message of an error. -/
def GoError.Error : GoError → GoString
  | .new msg => msg
  | .wrap msg _ => msg

/-- The `errors.Unwrap` view of an error. -/
def GoError.Unwrap : GoError → Option GoError
  | .new _ => none
  | .wrap _ inner => some inner

/-- The result of a call that may panic: a normal return or the panic value. -/
inductive Outcome (α : Type) where
  | ret (a : α)
  | panic (v : GoError)
  deriving DecidableEq

/-! ## encoding/hex, hexutil, strconv -/

/-- The digit table of `encoding/hex`. -/
def hextable : GoString := S "0123456789abcdef"

/-- One hex digit, `hextable[n]`. -/
def hexChar (n : Nat) : Byte := hextable.getD n 0

/-- The two digits `hextable[v>>4]`, `hextable[v&0x0f]` of one byte. -/
def hexOfByte (v : Byte) : GoString := [hexChar (v.val / 16), hexChar (v.val % 16)]

/-- Function `hex.EncodeToString`. -/
def EncodeToString (src : List Byte) : GoString := src.flatMap hexOfByte

/-- Function `common.Bytes2Hex`. -/
def Bytes2Hex (d : List Byte) : GoString := EncodeToString d

/-- Function `hexutil.Encode`: the digits behind a leading "0x". -/
def hexutilEncode (b : List Byte) : GoString := S "0x" ++ EncodeToString b

/-- The digit table of `strconv`. -/
def digits : GoString := S "0123456789abcdefghijklmnopqrstuvwxyz"

/-- The digit loop of `strconv.formatBits`: digits are produced from the least
significant one and written right to left into a 65-byte buffer, so the loop body runs
at most 64 times. -/
def formatLoop (base : Nat) : Nat → Nat → GoString → GoString
  | 0, u, acc => digits.getD u 0 :: acc
  | fuel + 1, u, acc =>
    if base ≤ u then formatLoop base fuel (u / base) (digits.getD (u % base) 0 :: acc)
    else digits.getD u 0 :: acc

/-- Function `strconv.FormatUint` on a 64-bit unsigned value. -/
def FormatUint (u : Nat) (base : Nat) : GoString := formatLoop base 64 u []

/-- Function `strconv.FormatInt` on a 64-bit signed value. -/
def FormatInt (i : Int) (base : Nat) : GoString :=
  if i < 0 then S "-" ++ formatLoop base 64 i.natAbs []
  else formatLoop base 64 i.natAbs []

/-- Function `strconv.Itoa`. -/
def Itoa (i : Int) : GoString := FormatInt i 10

/-! ## go-ethereum values -/

/-- Type `common.Hash`, a 32-byte array. -/
abbrev Hash := { l : List Byte // l.length = 32 }

/-- Type `common.Address`, a 20-byte array. -/
abbrev Address := { l : List Byte // l.length = 20 }

/-- Method `Hash.Hex`. -/
def Hash.Hex (h : Hash) : GoString := hexutilEncode h.val

/-! ## Bundle -/

/-- Builtin `len` on a slice that may be nil (`none`). -/
def sliceLen {α : Type} : Option (List α) → Nat
  | none => 0
  | some l => l.length

/-- The struct `Bundle`. `Tx` is the type of a non-nil `*types.Transaction`; a slice
field that JSON tells apart when nil is an `Option`, and a `*int` is an `Option Int`. -/
structure Bundle (Tx : Type) where
  Transactions : List Tx
  TxsByteString : Option (List GoString)
  BlockNumber : GoString
  StateBlockNumber : GoString
  MinTimestamp : Option Int
  MaxTimestamp : Option Int
  RevertingTxHashes : Option (List GoString)

/-- The zero value of `Bundle`, the initial value of the named result `b`. -/
def Bundle.zero (Tx : Type) : Bundle Tx :=
  { Transactions := [], TxsByteString := none, BlockNumber := [], StateBlockNumber := [],
    MinTimestamp := none, MaxTimestamp := none, RevertingTxHashes := none }

/-- The first loop of `NewBundle`, from index `i` on: encode each transaction and store
the hex text at its index; stop at the first encoding error. -/
def encodeLoop {Tx : Type} (MarshalBinary : Tx → List Byte × Option GoError)
    (TxHash : Tx → Hash) : List Tx → Nat → List GoString → List GoString × Option GoError
  | [], _, out => (out, none)
  | tx :: rest, i, out =>
    match MarshalBinary tx with
    | (_, some err) =>
      (out, some (GoError.wrap (S "failed tx.MarshalBinary() for tx: " ++ (TxHash tx).Hex ++
        S "\nerrors: " ++ err.Error) err))
    | (txBytes, none) =>
      encodeLoop MarshalBinary TxHash rest (i + 1) (out.set i (S "0x" ++ Bytes2Hex txBytes))

/-- The second loop of `NewBundle`, from index `i` on: store the hex form of each hash. -/
def hashLoop : List Hash → Nat → List GoString → List GoString
  | [], _, out => out
  | tx :: rest, i, out => hashLoop rest (i + 1) (out.set i tx.Hex)

/-- Function `NewBundle`. `MarshalBinary` and `TxHash` are the methods of
`types.Transaction`; `blockNumber` and `stateBlockNumber` are `uint64` values. -/
def NewBundle {Tx : Type} (MarshalBinary : Tx → List Byte × Option GoError)
    (TxHash : Tx → Hash) (transactions : List Tx) (blockNumber stateBlockNumber : Nat)
    (minTimestamp maxTimestamp : Option Int) (revertingTxHashes : List Hash) :
    Bundle Tx × Option GoError :=
  let b : Bundle Tx := { Bundle.zero Tx with Transactions := transactions }
  match encodeLoop MarshalBinary TxHash b.Transactions 0
      (List.replicate b.Transactions.length []) with
  | (txs, some retErr) => ({ b with TxsByteString := some txs }, some retErr)
  | (txs, none) =>
    ({ b with
        TxsByteString := some txs
        BlockNumber := S "0x" ++ FormatUint blockNumber 16
        StateBlockNumber :=
          if stateBlockNumber = 0 then S "latest"
          else S "0x" ++ FormatUint stateBlockNumber 16
        MinTimestamp := minTimestamp
        MaxTimestamp := maxTimestamp
        RevertingTxHashes :=
          some (hashLoop revertingTxHashes 0 (List.replicate revertingTxHashes.length [])) },
      none)

/-- Method `Bundle.AddTransaction`. -/
def Bundle.AddTransaction {Tx : Type} (b : Bundle Tx) (tx : Tx) : Bundle Tx :=
  { b with Transactions := b.Transactions ++ [tx] }

/-! ## encoding/json: marshalling -/

/-- The values `json.Marshal` writes for the repository's types. -/
inductive JSON where
  | null
  | int (i : Int)
  | str (s : GoString)
  | arr (elems : List JSON)
  | obj (members : List (GoString × JSON))

/-- Join texts with a separator. -/
def join (sep : GoString) : List GoString → GoString
  | [] => []
  | [x] => x
  | x :: y :: rest => x ++ sep ++ join sep (y :: rest)

/-- Function `utf8.DecodeRuneInString`: the rune at the head of the text and its width;
the pair (0xFFFD, 1) reports an invalid encoding. -/
def DecodeRune (s : GoString) : Nat × Nat :=
  match s with
  | [] => (0xFFFD, 0)
  | s0 :: t =>
    if s0.val < 0x80 then (s0.val, 1)
    else if s0.val < 0xC2 ∨ 0xF4 < s0.val then (0xFFFD, 1)
    else
      let sz := if s0.val < 0xE0 then 2 else if s0.val < 0xF0 then 3 else 4
      let lo := if s0.val = 0xE0 then 0xA0 else if s0.val = 0xF0 then 0x90 else 0x80
      let hi := if s0.val = 0xED then 0x9F else if s0.val = 0xF4 then 0x8F else 0xBF
      if s.length < sz then (0xFFFD, 1)
      else
        let s1 := (t.getD 0 0).val
        let s2 := (t.getD 1 0).val
        let s3 := (t.getD 2 0).val
        if s1 < lo ∨ hi < s1 then (0xFFFD, 1)
        else if sz ≤ 2 then ((s0.val % 32) * 64 + s1 % 64, 2)
        else if s2 < 0x80 ∨ 0xBF < s2 then (0xFFFD, 1)
        else if sz ≤ 3 then ((s0.val % 16) * 4096 + (s1 % 64) * 64 + s2 % 64, 3)
        else if s3 < 0x80 ∨ 0xBF < s3 then (0xFFFD, 1)
        else ((s0.val % 8) * 262144 + (s1 % 64) * 4096 + (s2 % 64) * 64 + s3 % 64, 4)

/-- The escape `encoding/json` writes for a byte below 0x80 that is not copied as it
is (HTML escaping on, the default of `json.Marshal`); the bytes 0x08 and 0x0c get the
six-character form, as in the Go releases before 1.22. -/
def escapeByte (b : Byte) : GoString :=
  if b = 0x5c ∨ b = 0x22 then [0x5c, b]
  else if b = 0x0a then S "\\n"
  else if b = 0x0d then S "\\r"
  else if b = 0x09 then S "\\t"
  else S "\\u00" ++ [hexChar (b.val / 16), hexChar (b.val % 16)]

/-- The table `htmlSafeSet`: the bytes below 0x80 that are copied as they are. -/
def htmlSafe (b : Byte) : Bool :=
  0x20 ≤ b.val && b.val < 0x80 && b != 0x22 && b != 0x5c && b != 0x3c && b != 0x3e && b != 0x26

/-- The body of the string encoder of `encoding/json`; `skip` counts the bytes of the
current rune that are already written. -/
def quoteFrom : Nat → GoString → GoString
  | _, [] => []
  | skip + 1, _ :: rest => quoteFrom skip rest
  | 0, b :: rest =>
    if b.val < 0x80 then
      (if htmlSafe b then [b] else escapeByte b) ++ quoteFrom 0 rest
    else
      let (c, size) := DecodeRune (b :: rest)
      if c = 0xFFFD ∧ size = 1 then S "\\ufffd" ++ quoteFrom 0 rest
      else if c = 0x2028 ∨ c = 0x2029 then
        S "\\u202" ++ [hexChar (c % 16)] ++ quoteFrom (size - 1) rest
      else (b :: rest).take size ++ quoteFrom (size - 1) rest

/-- A JSON string literal as `encoding/json` writes it. -/
def quote (s : GoString) : GoString := S "\"" ++ quoteFrom 0 s ++ S "\""

mutual
/-- The compact text of a value, as `json.Marshal` returns it. -/
def JSON.render : JSON → GoString
  | .null => S "null"
  | .int i => FormatInt i 10
  | .str s => quote s
  | .arr elems => S "[" ++ join (S ",") (renderElems elems) ++ S "]"
  | .obj members => S "\x7b" ++ join (S ",") (renderMembers members) ++ S "\x7d"
/-- The texts of the elements of an array. -/
def renderElems : List JSON → List GoString
  | [] => []
  | x :: rest => x.render :: renderElems rest
/-- The texts of the members of an object. -/
def renderMembers : List (GoString × JSON) → List GoString
  | [] => []
  | (k, v) :: rest => (quote k ++ S ":" ++ v.render) :: renderMembers rest
end

/-- A `[]string` value in JSON: `null` for the nil slice, else an array of strings. -/
def marshalStrings : Option (List GoString) → JSON
  | none => .null
  | some l => .arr (l.map JSON.str)

/-- What `json.Marshal` writes for a `Bundle`, field by field in declaration order under
the struct tags: `Transactions` is skipped, `omitempty` drops an empty string, a nil
pointer and a slice of length 0. -/
def marshalBundle {Tx : Type} (b : Bundle Tx) : JSON :=
  .obj ([(S "txs", marshalStrings b.TxsByteString), (S "blockNumber", .str b.BlockNumber)]
    ++ (if b.StateBlockNumber = [] then [] else [(S "stateBlockNumber", .str b.StateBlockNumber)])
    ++ (match b.MinTimestamp with
        | none => []
        | some t => [(S "minTimestamp", .int t)])
    ++ (match b.MaxTimestamp with
        | none => []
        | some t => [(S "maxTimestamp", .int t)])
    ++ (if sliceLen b.RevertingTxHashes = 0 then []
        else [(S "revertingTxHashes", marshalStrings b.RevertingTxHashes)]))

/-- The struct `rpcPaylod`; `Params` holds the JSON value of the dynamic `interface{}`. -/
structure rpcPaylod where
  JsonRPC : GoString
  Method : GoString
  Params : JSON
  ID : Int

/-- What `json.Marshal` writes for an `rpcPaylod`. -/
def marshalRpcPaylod (p : rpcPaylod) : JSON :=
  .obj [(S "jsonrpc", .str p.JsonRPC), (S "method", .str p.Method), (S "params", p.Params),
    (S "id", .int p.ID)]

/-! ## Relay client -/

/-- The relay client; `Key` is the type of a non-nil `*ecdsa.PrivateKey`. -/
structure RelayClient (Key : Type) where
  name : GoString
  signingPrivateKey : Key
  signingPublicAddress : Address
  mainEndpoint : GoString
  simulationEndpoint : GoString

/-- Method `RelayClient.prepareBundlePayload`; `Params` is the one-element slice
`[]Bundle{b}`. Marshalling these types cannot fail, so the error is nil. -/
def prepareBundlePayload {Key Tx : Type} (_r : RelayClient Key) (b : Bundle Tx)
    (method : GoString) : List Byte × Option GoError :=
  let payload : rpcPaylod :=
    { JsonRPC := S "2.0", Method := method, Params := .arr [marshalBundle b], ID := 1 }
  ((marshalRpcPaylod payload).render, none)

/-- Method `RelayClient.signPayload`. The hash `keccak` stands for both
`crypto.Keccak256Hash` and `crypto.Keccak256` (the same digest as an array and as a
slice); `Sign` is `crypto.Sign`. -/
def signPayload {Key : Type} (keccak : List Byte → Hash)
    (Sign : List Byte → Key → List Byte × Option GoError)
    (r : RelayClient Key) (payload : List Byte) : GoString × Option GoError :=
  let hashedBody := (keccak payload).Hex
  let payloadHash := (keccak
    (S "\x19Ethereum Signed Message:\n" ++ Itoa hashedBody.length ++ hashedBody)).val
  match Sign payloadHash r.signingPrivateKey with
  | (_, some err) => ([], some err)
  | (signatureBytes, none) => (hexutilEncode signatureBytes, none)

/-- Method `Address.Hex`: the EIP-55 form of an address. Each letter of the lowercase
hex text becomes a capital when the matching half-byte of the Keccak-256 hash of that
text is above 7. -/
def Address.Hex (keccak : List Byte → Hash) (a : Address) : GoString :=
  let buf := EncodeToString a.val
  let hash := (keccak buf).val
  S "0x" ++ buf.enum.map fun (j, c) =>
    let hashByte := (hash.getD (j / 2) 0).val
    let half := if j % 2 = 0 then hashByte / 16 else hashByte % 16
    if 0x39 < c.val ∧ 7 < half then Fin.ofNat (c.val - 32) else c

/-- An HTTP request as `fbRequest` builds it. -/
structure Request where
  method : GoString
  url : GoString
  header : List (GoString × GoString)
  body : List Byte
  deriving DecidableEq

/-- What one call of `http.DefaultClient.Do` followed by `ioutil.ReadAll` gives: the
time that `time.Since(start)` reads after `Do` returns (in nanoseconds), the error of
`Do`, and the bytes and the error of reading the response body. -/
structure Exchange where
  elapsed : Int
  doErr : Option GoError
  body : List Byte
  readErr : Option GoError

/-- The network as the client sees it: the error `http.NewRequest` gives for a URL (nil
for a well-formed one), and the exchange a request gets after the requests handed to
the transport before it. -/
structure Transport where
  NewRequest : GoString → Option GoError
  Do : List Request → Request → Exchange

/-- Method `RelayClient.fbRequest`. The state `sent` is the list of requests handed to the
transport so far; the result is the triple (responseBytes, duration, retErr), where nil
response bytes are `none`, and the new state. -/
def fbRequest {Key : Type} (keccak : List Byte → Hash)
    (Sign : List Byte → Key → List Byte × Option GoError) (net : Transport)
    (r : RelayClient Key) (endpoint : GoString) (payload : List Byte) (sent : List Request) :
    (Option (List Byte) × Int × Option GoError) × List Request :=
  match signPayload keccak Sign r payload with
  | (_, some err) => ((none, 0, some err), sent)
  | (signature, none) =>
    match net.NewRequest endpoint with
    | some err => ((none, 0, some err), sent)
    | none =>
      let req : Request :=
        { method := S "POST", url := endpoint,
          header := [(S "X-Flashbots-Signature",
              r.signingPublicAddress.Hex keccak ++ S ":" ++ signature),
            (S "Content-Type", S "application/json")],
          body := payload }
      let x := net.Do sent req
      let duration := x.elapsed
      match x.doErr with
      | some err => ((none, duration, some err), sent ++ [req])
      | none =>
        match x.readErr with
        | some err => ((some x.body, duration, some err), sent ++ [req])
        | none => ((some x.body, duration, none), sent ++ [req])

/-- The struct `SendBundleResponse`. -/
structure SendBundleResponse where
  ResponseBytes : Option (List Byte)
  Duration : Int
  Error : Option GoError

/-- Method `RelayClient.SendBundle`. -/
def SendBundle {Key Tx : Type} (keccak : List Byte → Hash)
    (Sign : List Byte → Key → List Byte × Option GoError) (net : Transport)
    (r : RelayClient Key) (b : Bundle Tx) (sent : List Request) :
    SendBundleResponse × List Request :=
  match prepareBundlePayload r b (S "eth_sendBundle") with
  | (_, some err) => ({ ResponseBytes := none, Duration := 0, Error := some err }, sent)
  | (payload, none) =>
    match fbRequest keccak Sign net r r.mainEndpoint payload sent with
    | ((responseBytes, duration, err), sent2) =>
      ({ ResponseBytes := responseBytes, Duration := duration, Error := err }, sent2)

/-- Method `RelayClient.SimulateBundle`. -/
def SimulateBundle {Key Tx : Type} (keccak : List Byte → Hash)
    (Sign : List Byte → Key → List Byte × Option GoError) (net : Transport)
    (r : RelayClient Key) (b : Bundle Tx) (sent : List Request) :
    (Option (List Byte) × Int × Option GoError) × List Request :=
  if r.simulationEndpoint = [] then
    ((none, 0, some (GoError.new (S "no simulation endpoint for relay " ++ r.name))), sent)
  else
    let b1 : Bundle Tx :=
      if b.StateBlockNumber = [] ∨ b.StateBlockNumber = S "0x0" then
        { b with StateBlockNumber := S "latest" }
      else b
    match prepareBundlePayload r b1 (S "eth_callBundle") with
    | (_, some err) => ((none, 0, some err), sent)
    | (payload, none) => fbRequest keccak Sign net r r.simulationEndpoint payload sent

/-- Function `NewRelayClient`; a nil key is `none`, and `PubkeyToAddress` is
`crypto.PubkeyToAddress` on the public half of the key. The first result is the pointer
to the new client, nil (`none`) on failure. -/
def NewRelayClient {Key : Type} (PubkeyToAddress : Key → Address)
    (signingPrivateKey : Option Key) (name mainEndpoint simulationEndpoint : GoString) :
    Option (RelayClient Key) × Option GoError :=
  match signingPrivateKey with
  | none => (none, some (GoError.new (S "must provide a signingPrivateKey")))
  | some key =>
    (some { name := name, signingPrivateKey := key,
            signingPublicAddress := PubkeyToAddress key,
            mainEndpoint := mainEndpoint, simulationEndpoint := simulationEndpoint }, none)

/-- The struct `BatchRelayClient`: a slice of pointers to relay clients. -/
structure BatchRelayClient (Key : Type) where
  relayClients : List (Option (RelayClient Key))

/-- The loop of `NewBatchRelayClient` from index `idx` on, with the clients built so far. -/
def batchLoop {Key : Type} (PubkeyToAddress : Key → Address)
    (names mainEndpoints : List GoString) :
    List (Option Key) → Nat → List (Option (RelayClient Key)) →
      Option (BatchRelayClient Key) × Option GoError
  | [], _, r => (some { relayClients := r }, none)
  | key :: rest, idx, r =>
    match NewRelayClient PubkeyToAddress key (names.getD idx []) (mainEndpoints.getD idx [])
        [] with
    | (_, some err) =>
      (none, some (GoError.wrap (S "failed to initialize relay client, name: "
        ++ names.getD idx [] ++ S ", endpoint: " ++ mainEndpoints.getD idx []
        ++ S ", error: " ++ err.Error) err))
    | (c, none) => batchLoop PubkeyToAddress names mainEndpoints rest (idx + 1) (r ++ [c])

/-- Function `NewBatchRelayClient`. -/
def NewBatchRelayClient {Key : Type} (PubkeyToAddress : Key → Address)
    (signingKeys : List (Option Key)) (names mainEndpoints : List GoString) :
    Option (BatchRelayClient Key) × Option GoError :=
  if signingKeys.length ≠ names.length ∨ signingKeys.length ≠ mainEndpoints.length then
    (none, some (GoError.new (S "must initialize with same length slices")))
  else batchLoop PubkeyToAddress names mainEndpoints signingKeys 0 []

/-! ## Decoded JSON and the verb `%s` -/

/-- A finite `float64`, held the way `strconv` holds it while formatting with the
shortest precision: a sign, the decimal digits `d` (ASCII, no leading and no trailing
zero, none at all for zero) and the position `dp` of the decimal point, for the value
0.d × 10^dp. -/
structure Float64 where
  neg : Bool
  d : List Byte
  dp : Int

/-- The dynamic values `json.Unmarshal` stores in an `interface{}`. -/
inductive GoVal where
  | nil
  | bool (b : Bool)
  | float64 (f : Float64)
  | string (s : GoString)
  | slice (elems : List GoVal)
  | map (entries : List (GoString × GoVal))

/-- A `map[string]interface{}`; the nil map is the empty list. -/
abbrev GoMap := List (GoString × GoVal)

/-- The map index expression `v, ok := m[key]`. -/
def mapIndex : GoMap → GoString → GoVal × Bool
  | [], _ => (GoVal.nil, false)
  | (k, v) :: rest, key => if k = key then (v, true) else mapIndex rest key

/-- Function `strconv.fmtF`: the digits before the decimal point, padded with zeros,
then `prec` digits after it. -/
def fmtF (f : Float64) (prec : Nat) : GoString :=
  (if f.neg then S "-" else [])
  ++ (if 0 < f.dp then
        f.d.take (min f.d.length f.dp.toNat)
          ++ List.replicate (f.dp.toNat - min f.d.length f.dp.toNat) 0x30
      else S "0")
  ++ (if 0 < prec then
        S "." ++ (List.range prec).map fun i =>
          let j := f.dp + i
          if 0 ≤ j ∧ j < f.d.length then f.d.getD j.toNat 0x30 else 0x30
      else [])

/-- Function `strconv.fmtE`: one digit, `prec` digits after the point, and the exponent
with a sign and at least two digits. -/
def fmtE (f : Float64) (prec : Nat) : GoString :=
  let exp : Int := if f.d.length = 0 then 0 else f.dp - 1
  (if f.neg then S "-" else [])
  ++ [f.d.getD 0 0x30]
  ++ (if 0 < prec then
        S "." ++ (f.d.take (min f.d.length (prec + 1))).drop 1
          ++ List.replicate (prec + 1 - max 1 (min f.d.length (prec + 1))) 0x30
      else [])
  ++ S "e"
  ++ (if exp < 0 then S "-" else S "+")
  ++ (if exp.natAbs < 10 then S "0" ++ FormatUint exp.natAbs 10 else FormatUint exp.natAbs 10)

/-- The verb `%v` on a `float64`: `strconv.FormatFloat(f, 'g', -1, 64)`. With the
shortest precision the exponent form is used when the decimal exponent is below -4 or
at least 6. -/
def fmtFloat (f : Float64) : GoString :=
  let exp : Int := f.dp - 1
  if exp < -4 ∨ 6 ≤ exp then fmtE f (f.d.length - 1)
  else fmtF f ((f.d.length : Int) - f.dp).toNat

/-- Insert a printed map entry by its key, in byte order. -/
def insertEntry (e : GoString × GoString) : List (GoString × GoString) → List (GoString × GoString)
  | [] => [e]
  | x :: rest => if e.1 ≤ x.1 then e :: x :: rest else x :: insertEntry e rest

/-- Sort printed map entries by key, as `fmt` does before it prints a map. -/
def sortEntries (l : List (GoString × GoString)) : List (GoString × GoString) :=
  l.foldr insertEntry []

mutual
/-- The verb `%s` on a value below the top level (an element or a map value): a bad
verb for a bool or a number, the text of a string, the elements between brackets. -/
def fmtValue : GoVal → GoString
  | .nil => S "<nil>"
  | .bool b => S "%!s(bool=" ++ (if b then S "true" else S "false") ++ S ")"
  | .float64 f => S "%!s(float64=" ++ fmtFloat f ++ S ")"
  | .string s => s
  | .slice elems => S "[" ++ join (S " ") (fmtElems elems) ++ S "]"
  | .map entries =>
    S "map[" ++ join (S " ") ((sortEntries (fmtEntries entries)).map fun e => e.1 ++ S ":" ++ e.2)
      ++ S "]"
/-- The printed elements of a slice. -/
def fmtElems : List GoVal → List GoString
  | [] => []
  | x :: rest => fmtValue x :: fmtElems rest
/-- The keys of a map with their printed values. -/
def fmtEntries : List (GoString × GoVal) → List (GoString × GoString)
  | [] => []
  | (k, v) :: rest => (k, fmtValue v) :: fmtEntries rest
end

/-- The verb `%s` on an `interface{}` operand of `fmt.Errorf` or `fmt.Sprintf`: as
`fmtValue`, except that a nil operand is reported as a bad verb. -/
def Sprints : GoVal → GoString
  | .nil => S "%!s(<nil>)"
  | v => fmtValue v

/-- The name `reflect` gives the dynamic type of a value. -/
def typeName : GoVal → GoString
  | .nil => S "nil"
  | .bool _ => S "bool"
  | .float64 _ => S "float64"
  | .string _ => S "string"
  | .slice _ => S "[]interface \x7b\x7d"
  | .map _ => S "map[string]interface \x7b\x7d"

/-- The runtime error of a failed type assertion `v.(T)` without the comma-ok form. -/
def assertionPanic (v : GoVal) (asserted : GoString) : GoError :=
  GoError.new (S "interface conversion: interface \x7b\x7d is " ++ typeName v ++ S ", not "
    ++ asserted)

/-! ## Response interpreter -/

/-- Function `unmarshalBodyBytesToGenericMap`; `Unmarshal` is `json.Unmarshal` into a
nil `map[string]interface{}`: the map it leaves and its error. -/
def unmarshalBodyBytesToGenericMap (Unmarshal : List Byte → GoMap × Option GoError)
    (bytes : List Byte) : GoMap × Option GoError :=
  match Unmarshal bytes with
  | (response, some err) =>
    (response, some (GoError.wrap
      (S "failed to unmarshal body to a generic map: " ++ err.Error) err))
  | (response, none) => (response, none)

/-- Builtin `append(s, x)` on a slice that may be nil (`none`); the result is not nil. -/
def goAppend {α : Type} : Option (List α) → α → Option (List α)
  | none, x => some [x]
  | some l, x => some (l ++ [x])

/-- The loop of `ExtractExecutionErrorFromSendBundleResponse` over `txResults`. -/
def executionErrorLoop :
    List GoVal → Option (List GoError) → Outcome (Option (List GoError))
  | [], errs => .ret errs
  | .map tx :: rest, errs =>
    let (errString, errOk) := mapIndex tx (S "error")
    let (revertString, revertOk) := mapIndex tx (S "revert")
    if errOk || revertOk then
      executionErrorLoop rest (goAppend errs (GoError.new
        (S "err: " ++ Sprints errString ++ S ", revertString: " ++ Sprints revertString)))
    else executionErrorLoop rest errs
  | txI :: _, _ => .panic (assertionPanic txI (S "map[string]interface \x7b\x7d"))

/-- Function `ExtractExecutionErrorFromSendBundleResponse`. The result `errs` is a slice
that may be nil (`none`); it starts as `make([]error, 0)`. -/
def ExtractExecutionErrorFromSendBundleResponse
    (Unmarshal : List Byte → GoMap × Option GoError) (bytes : List Byte) :
    Outcome (Option (List GoError)) :=
  let errs : Option (List GoError) := some []
  match unmarshalBodyBytesToGenericMap Unmarshal bytes with
  | (_, some err) =>
    .ret (goAppend errs (GoError.wrap
      (S "failed to unmarshal response: " ++ bytes ++ S ", " ++ err.Error) err))
  | (resp, none) =>
    match (mapIndex resp (S "result")).1 with
    | .map txResultsI =>
      (match (mapIndex txResultsI (S "results")).1 with
        | .slice txResults => executionErrorLoop txResults errs
        | _ => .ret errs)
    | _ =>
      let (errResponse, errorOk) := mapIndex resp (S "error")
      if errorOk then .ret (goAppend errs (GoError.new (Sprints errResponse)))
      else
        match (mapIndex [] (S "message")).1 with
        | .string message => .ret (goAppend errs (GoError.new message))
        | v => .panic (assertionPanic v (S "string"))

/-- Function `ExtractGasUsedFromBundleResponse`. -/
def ExtractGasUsedFromBundleResponse
    (Unmarshal : List Byte → GoMap × Option GoError) (bytes : List Byte) : Outcome Float64 :=
  match unmarshalBodyBytesToGenericMap Unmarshal bytes with
  | (_, some err) =>
    .panic (GoError.wrap (S "body bytes: " ++ bytes ++ S ", " ++ err.Error) err)
  | (resp, none) =>
    match (mapIndex resp (S "result")).1 with
    | .map result =>
      (match (mapIndex result (S "totalGasUsed")).1 with
        | .float64 gasUsed => .ret gasUsed
        | v => .panic (assertionPanic v (S "float64")))
    | v => .panic (assertionPanic v (S "map[string]interface \x7b\x7d"))

/-- Function `ExtractBundleHashFromBundleResponse`. -/
def ExtractBundleHashFromBundleResponse
    (Unmarshal : List Byte → GoMap × Option GoError) (bytes : List Byte) : Outcome GoString :=
  match unmarshalBodyBytesToGenericMap Unmarshal bytes with
  | (_, some err) =>
    .panic (GoError.wrap (S "body bytes: " ++ bytes ++ S ", " ++ err.Error) err)
  | (resp, none) =>
    match (mapIndex resp (S "result")).1 with
    | .map result =>
      (match (mapIndex result (S "bundleHash")).1 with
        | .string bundleHash => .ret bundleHash
        | v => .panic (assertionPanic v (S "string")))
    | v => .panic (assertionPanic v (S "map[string]interface \x7b\x7d"))

/-! ## Accessors, bundle stats and batch send -/

/-- Method `RelayClient.Name`. -/
def RelayClient.Name {Key : Type} (r : RelayClient Key) : GoString := r.name

/-- Method `RelayClient.SigningAddress`. -/
def RelayClient.SigningAddress {Key : Type} (r : RelayClient Key) : Address :=
  r.signingPublicAddress

/-- Method `RelayClient.MainEndpoint`. -/
def RelayClient.MainEndpoint {Key : Type} (r : RelayClient Key) : GoString := r.mainEndpoint

/-- Method `RelayClient.SimulationEndpoint`. -/
def RelayClient.SimulationEndpoint {Key : Type} (r : RelayClient Key) : GoString :=
  r.simulationEndpoint

/-- What `json.Marshal` writes for a `map[string]string`, given by its entries: an
object whose members come in the byte order of the keys. -/
def marshalStringMap (m : List (GoString × GoString)) : JSON :=
  .obj ((sortEntries m).map fun e => (e.1, JSON.str e.2))

/-- Method `RelayClient.prepareBundleStatsPayload`; `Params` is the one-element slice
holding the map literal with the keys `bundleHash` and `blockNumber`. -/
def prepareBundleStatsPayload {Key : Type} (_r : RelayClient Key)
    (bundleHash blockNumber method : GoString) : List Byte × Option GoError :=
  let payload : rpcPaylod :=
    { JsonRPC := S "2.0", Method := method,
      Params := .arr [marshalStringMap
        [(S "bundleHash", bundleHash), (S "blockNumber", blockNumber)]],
      ID := 1 }
  ((marshalRpcPaylod payload).render, none)

/-- Method `RelayClient.GetBundleStats`. `Stats` is the struct `BundleStats`, `zero` its
zero value, and `UnmarshalStats` is `json.Unmarshal` into a zero `BundleStats`: the struct
it leaves and its error. -/
def GetBundleStats {Key Stats : Type} (keccak : List Byte → Hash)
    (Sign : List Byte → Key → List Byte × Option GoError) (net : Transport)
    (zero : Stats) (UnmarshalStats : List Byte → Stats × Option GoError)
    (r : RelayClient Key) (bundleHash blockNumber : GoString) (sent : List Request) :
    (Stats × Int × Option GoError) × List Request :=
  match prepareBundleStatsPayload r bundleHash blockNumber (S "flashbots_getBundleStats") with
  | (_, some err) => ((zero, 0, some err), sent)
  | (payload, none) =>
    match fbRequest keccak Sign net r r.MainEndpoint payload sent with
    | ((_, duration, some err), sent1) =>
      ((zero, duration, some (GoError.wrap (S "failed to make fbRequest: " ++ err.Error) err)),
        sent1)
    | ((bodyBytes, duration, none), sent1) =>
      match UnmarshalStats (bodyBytes.getD []) with
      | (bundleStats, some err) =>
        ((bundleStats, duration, some (GoError.wrap
          (S "failed to unmarshal into BundleStats: " ++ bodyBytes.getD [] ++ S "\nerror: "
            ++ err.Error) err)), sent1)
      | (bundleStats, none) => ((bundleStats, duration, none), sent1)

/-- The assignment `m[key] = value` on a Go map given by its entries. -/
def mapStore {V : Type} : List (GoString × V) → GoString → V → List (GoString × V)
  | [], key, value => [(key, value)]
  | (k, v) :: rest, key, value =>
    if k = key then (key, value) :: rest else (k, v) :: mapStore rest key value

/-- The lookup `m[key]` on a Go map given by its entries; `none` for an absent key. -/
def mapLoad {V : Type} : List (GoString × V) → GoString → Option V
  | [], _ => none
  | (k, v) :: rest, key => if k = key then some v else mapLoad rest key

/-- The runtime error of a method call through a nil pointer. -/
def nilDereference : GoError :=
  GoError.new (S "runtime error: invalid memory address or nil pointer dereference")

/-- The loop of `BatchSendBundle` over the relay clients, with the map filled so far. -/
def batchSendLoop {Key Tx : Type} (keccak : List Byte → Hash)
    (Sign : List Byte → Key → List Byte × Option GoError) (net : Transport) (b : Bundle Tx) :
    List (Option (RelayClient Key)) → List (GoString × SendBundleResponse) → List Request →
      Outcome (List (GoString × SendBundleResponse) × List Request)
  | [], resps, sent => .ret (resps, sent)
  | none :: _, _, _ => .panic nilDereference
  | some client :: rest, resps, sent =>
    match SendBundle keccak Sign net client b sent with
    | (resp, sent1) =>
      batchSendLoop keccak Sign net b rest (mapStore resps client.Name resp) sent1

/-- Method `BatchRelayClient.BatchSendBundle`: the map of responses, given by its
entries, and the requests handed to the transport. -/
def BatchSendBundle {Key Tx : Type} (keccak : List Byte → Hash)
    (Sign : List Byte → Key → List Byte × Option GoError) (net : Transport)
    (r : BatchRelayClient Key) (b : Bundle Tx) (sent : List Request) :
    Outcome (List (GoString × SendBundleResponse) × List Request) :=
  batchSendLoop keccak Sign net b r.relayClients [] sent

/-! ## Relay calls in memory

Go hands a `Bundle` to a method by value: the parameter is a new variable that starts as
a copy of the argument. The copy holds the same slice headers and pointers as the
argument, so it shares the backing arrays and the pointed-to integers with it. The
definitions of this section run the relay calls on variables in a memory, so that what
the caller's variable holds after a call can be compared with what it held before. -/

/-- A slice header: the backing array it points into, the offset of its first element in
that array, and its length. -/
structure SliceHeader where
  array : Nat
  offset : Nat
  len : Nat
  deriving DecidableEq

/-- The struct `Bundle` as a variable holds it: a slice field is a slice header and a
pointer field is an address, nil being `none` for both. -/
structure BundleCell where
  Transactions : Option SliceHeader
  TxsByteString : Option SliceHeader
  BlockNumber : GoString
  StateBlockNumber : GoString
  MinTimestamp : Option Nat
  MaxTimestamp : Option Nat
  RevertingTxHashes : Option SliceHeader
  deriving DecidableEq

/-- The zero value of the struct. -/
def BundleCell.zero : BundleCell :=
  { Transactions := none, TxsByteString := none, BlockNumber := [], StateBlockNumber := [],
    MinTimestamp := none, MaxTimestamp := none, RevertingTxHashes := none }

/-- The memory of a run: the variables of type `Bundle`, the backing arrays of the
transaction slices and of the string slices, and the integers that pointers refer to,
each by its address. -/
structure Memory (Tx : Type) where
  cells : List BundleCell
  txArrays : List (List Tx)
  stringArrays : List (List GoString)
  ints : List Int

/-- The value of the variable at an address. -/
def Memory.read {Tx : Type} (mem : Memory Tx) (a : Nat) : BundleCell :=
  mem.cells.getD a BundleCell.zero

/-- A new variable with a given initial value, as a by-value parameter is on entry to a
method: its address and the memory that holds it. -/
def Memory.declare {Tx : Type} (mem : Memory Tx) (v : BundleCell) : Nat × Memory Tx :=
  (mem.cells.length, { mem with cells := mem.cells ++ [v] })

/-- The assignment `b.StateBlockNumber = s` to the variable `b` at an address. -/
def Memory.assignStateBlockNumber {Tx : Type} (mem : Memory Tx) (a : Nat) (s : GoString) :
    Memory Tx :=
  { mem with cells := mem.cells.set a { mem.read a with StateBlockNumber := s } }

/-- The assignment `h[i] = s` through a header of a string slice, as `NewBundle` makes
while it fills `TxsByteString`: it writes the backing array, for every header that points
into it. -/
def Memory.storeString {Tx : Type} (mem : Memory Tx) (h : SliceHeader) (i : Nat)
    (s : GoString) : Memory Tx :=
  { mem with
    stringArrays := mem.stringArrays.set h.array
      ((mem.stringArrays.getD h.array []).set (h.offset + i) s) }

/-- The elements of a string slice; `none` for the nil slice. -/
def Memory.strings {Tx : Type} (mem : Memory Tx) : Option SliceHeader → Option (List GoString)
  | none => none
  | some h => some (((mem.stringArrays.getD h.array []).drop h.offset).take h.len)

/-- The elements of a transaction slice. -/
def Memory.transactions {Tx : Type} (mem : Memory Tx) : Option SliceHeader → List Tx
  | none => []
  | some h => ((mem.txArrays.getD h.array []).drop h.offset).take h.len

/-- The integer behind a pointer; `none` for the nil pointer. -/
def Memory.int {Tx : Type} (mem : Memory Tx) : Option Nat → Option Int
  | none => none
  | some p => some (mem.ints.getD p 0)

/-- The bundle that the variable at an address holds, read through its slice headers and
pointers. -/
def Memory.bundle {Tx : Type} (mem : Memory Tx) (a : Nat) : Bundle Tx :=
  { Transactions := mem.transactions (mem.read a).Transactions
    TxsByteString := mem.strings (mem.read a).TxsByteString
    BlockNumber := (mem.read a).BlockNumber
    StateBlockNumber := (mem.read a).StateBlockNumber
    MinTimestamp := mem.int (mem.read a).MinTimestamp
    MaxTimestamp := mem.int (mem.read a).MaxTimestamp
    RevertingTxHashes := mem.strings (mem.read a).RevertingTxHashes }

/-- Method `RelayClient.SendBundle`, called with the variable at `arg` as its argument:
the response, the memory and the requests handed to the transport. The parameter `b` is a
new variable; the method reads it and assigns to nothing. -/
def SendBundleAt {Key Tx : Type} (keccak : List Byte → Hash)
    (Sign : List Byte → Key → List Byte × Option GoError) (net : Transport)
    (r : RelayClient Key) (arg : Nat) (mem : Memory Tx) (sent : List Request) :
    SendBundleResponse × Memory Tx × List Request :=
  match mem.declare (mem.read arg) with
  | (b, mem1) =>
    match prepareBundlePayload r (mem1.bundle b) (S "eth_sendBundle") with
    | (_, some err) => ({ ResponseBytes := none, Duration := 0, Error := some err }, mem1, sent)
    | (payload, none) =>
      match fbRequest keccak Sign net r r.mainEndpoint payload sent with
      | ((responseBytes, duration, err), sent2) =>
        ({ ResponseBytes := responseBytes, Duration := duration, Error := err }, mem1, sent2)

/-- Method `RelayClient.SimulateBundle`, called with the variable at `arg` as its
argument. The parameter `b` is a new variable, and the assignment of "latest" is made to
it. -/
def SimulateBundleAt {Key Tx : Type} (keccak : List Byte → Hash)
    (Sign : List Byte → Key → List Byte × Option GoError) (net : Transport)
    (r : RelayClient Key) (arg : Nat) (mem : Memory Tx) (sent : List Request) :
    (Option (List Byte) × Int × Option GoError) × Memory Tx × List Request :=
  match mem.declare (mem.read arg) with
  | (b, mem1) =>
    if r.simulationEndpoint = [] then
      ((none, 0, some (GoError.new (S "no simulation endpoint for relay " ++ r.name))),
        mem1, sent)
    else
      let mem2 : Memory Tx :=
        if (mem1.read b).StateBlockNumber = [] ∨ (mem1.read b).StateBlockNumber = S "0x0" then
          mem1.assignStateBlockNumber b (S "latest")
        else mem1
      match prepareBundlePayload r (mem2.bundle b) (S "eth_callBundle") with
      | (_, some err) => ((none, 0, some err), mem2, sent)
      | (payload, none) =>
        match fbRequest keccak Sign net r r.simulationEndpoint payload sent with
        | (result, sent2) => (result, mem2, sent2)

/-- The loop of `BatchSendBundle` over the relay clients, with the variable `b` of
`BatchSendBundle` at an address: each `client.SendBundle(b)` gets a variable of its own. -/
def batchSendLoopAt {Key Tx : Type} (keccak : List Byte → Hash)
    (Sign : List Byte → Key → List Byte × Option GoError) (net : Transport) (b : Nat) :
    List (Option (RelayClient Key)) → List (GoString × SendBundleResponse) → Memory Tx →
      List Request → Outcome (List (GoString × SendBundleResponse) × Memory Tx × List Request)
  | [], resps, mem, sent => .ret (resps, mem, sent)
  | none :: _, _, _, _ => .panic nilDereference
  | some client :: rest, resps, mem, sent =>
    match SendBundleAt keccak Sign net client b mem sent with
    | (resp, mem1, sent1) =>
      batchSendLoopAt keccak Sign net b rest (mapStore resps client.Name resp) mem1 sent1

/-- Method `BatchRelayClient.BatchSendBundle`, called with the variable at `arg` as its
argument. -/
def BatchSendBundleAt {Key Tx : Type} (keccak : List Byte → Hash)
    (Sign : List Byte → Key → List Byte × Option GoError) (net : Transport)
    (r : BatchRelayClient Key) (arg : Nat) (mem : Memory Tx) (sent : List Request) :
    Outcome (List (GoString × SendBundleResponse) × Memory Tx × List Request) :=
  match mem.declare (mem.read arg) with
  | (b, mem1) => batchSendLoopAt keccak Sign net b r.relayClients [] mem1 sent

/-! ## Go-ethereum helpers used by the tests -/

/-- Function `fromHexChar` of `encoding/hex`: the value of a hex digit of either case. -/
def fromHexChar (c : Byte) : Option Nat :=
  if 0x30 ≤ c.val ∧ c.val ≤ 0x39 then some (c.val - 0x30)
  else if 0x61 ≤ c.val ∧ c.val ≤ 0x66 then some (c.val - 0x61 + 10)
  else if 0x41 ≤ c.val ∧ c.val ≤ 0x46 then some (c.val - 0x41 + 10)
  else none

/-- Function `hex.DecodeString`: the bytes decoded before the first bad digit, and
whether the whole text was decoded. -/
def DecodeString : GoString → List Byte × Bool
  | [] => ([], true)
  | [_] => ([], false)
  | p :: q :: rest =>
    match fromHexChar p, fromHexChar q with
    | some a, some b =>
      let (bs, ok) := DecodeString rest
      (Fin.ofNat (a * 16 + b) :: bs, ok)
    | _, _ => ([], false)

/-- Function `common.Hex2Bytes`, which drops the error of `hex.DecodeString`. -/
def Hex2Bytes (str : GoString) : List Byte := (DecodeString str).1

/-- Function `has0xPrefix` of go-ethereum. -/
def has0x (s : GoString) : Bool :=
  match s with
  | a :: b :: _ => a == 0x30 && (b == 0x78 || b == 0x58)
  | _ => false

/-- Function `common.FromHex`, with which the tests read a transaction's hex text. -/
def FromHex (s : GoString) : List Byte :=
  let s1 := if has0x s then s.drop 2 else s
  let s2 := if s1.length % 2 = 1 then S "0" ++ s1 else s1
  Hex2Bytes s2

/-! ## Definitions in the words of the specification -/

/-- The lowercase hexadecimal digit of a value below 16. -/
def lowerHexDigit (n : Nat) : Byte :=
  if n < 10 then Fin.ofNat (0x30 + n) else Fin.ofNat (0x61 + (n - 10))

/-- Lowercase hex of a byte sequence: two digits per byte, the high one first. -/
def lowerHex (bytes : List Byte) : GoString :=
  bytes.flatMap fun b => [lowerHexDigit (b.val / 16), lowerHexDigit (b.val % 16)]

/-- The lowercase base-16 numeral of a number, without leading zeros. -/
def hexNumeral (n : Nat) : GoString :=
  if n = 0 then S "0" else (Nat.digits 16 n).reverse.map lowerHexDigit

/-- The value of a lowercase hex digit. -/
def hexDigitValue (c : Byte) : Option Nat :=
  if 0x30 ≤ c.val ∧ c.val ≤ 0x39 then some (c.val - 0x30)
  else if 0x61 ≤ c.val ∧ c.val ≤ 0x66 then some (c.val - 0x61 + 10)
  else none

/-- Read a text of lowercase hex digits as a number, most significant digit first. -/
def readHex (s : GoString) : Option Nat :=
  s.foldl (fun acc c =>
    match acc, hexDigitValue c with
    | some a, some d => some (a * 16 + d)
    | _, _ => none) (some 0)

/-- The personal-message preimage of the specification for a digest text of 66
characters: the byte 0x19, the text "Ethereum Signed Message:", a newline, the decimal
length "66" and the digest text. -/
def personalMessage (digestHex : GoString) : List Byte :=
  [0x19] ++ S "Ethereum Signed Message:" ++ [0x0a] ++ S "66" ++ digestHex

/-- The members of a JSON object (none for another value). -/
def JSON.members : JSON → List (GoString × JSON)
  | .obj members => members
  | _ => []

/-- The value under a key of a JSON object, when the key is present. -/
def JSON.field (j : JSON) (key : GoString) : Option JSON :=
  (j.members.find? fun m => m.1 == key).map fun m => m.2

/-- Whether an entry of `results` carries an `error` key or a `revert` key. -/
def hasFailure : GoVal → Bool
  | .map tx => (mapIndex tx (S "error")).2 || (mapIndex tx (S "revert")).2
  | _ => false

/-- The error that the loop of `ExtractExecutionErrorFromSendBundleResponse` appends for
an object entry of `results`: both fields under the verb `%s`. -/
def entryError : GoVal → GoError
  | .map tx => GoError.new (S "err: " ++ Sprints (mapIndex tx (S "error")).1
      ++ S ", revertString: " ++ Sprints (mapIndex tx (S "revert")).1)
  | _ => GoError.new []

/-- The bundle that the specification has `SimulateBundle` serialize: the caller's
bundle, with "latest" for an empty or "0x0" `StateBlockNumber`. -/
def normalizedForSimulation {Tx : Type} (b : Bundle Tx) : Bundle Tx :=
  { b with
    StateBlockNumber :=
      if b.StateBlockNumber = S "" ∨ b.StateBlockNumber = S "0x0" then S "latest"
      else b.StateBlockNumber }

/-- The relay client that the specification has the batch constructor build from one
key, name and endpoint: no simulation endpoint. -/
def batchMember {Key : Type} (PubkeyToAddress : Key → Address)
    (key : Key) (name mainEndpoint : GoString) : RelayClient Key :=
  { name := name, signingPrivateKey := key, signingPublicAddress := PubkeyToAddress key,
    mainEndpoint := mainEndpoint, simulationEndpoint := S "" }

/-- The outcomes of `SendBundle` on the relay clients in configuration order, each with
the name of its client; every call starts from the requests sent before it. -/
def sendOutcomes {Key Tx : Type} (keccak : List Byte → Hash)
    (Sign : List Byte → Key → List Byte × Option GoError) (net : Transport) (b : Bundle Tx) :
    List (RelayClient Key) → List Request → List (GoString × SendBundleResponse) × List Request
  | [], sent => ([], sent)
  | client :: rest, sent =>
    ((client.name, (SendBundle keccak Sign net client b sent).1) ::
        (sendOutcomes keccak Sign net b rest (SendBundle keccak Sign net client b sent).2).1,
      (sendOutcomes keccak Sign net b rest (SendBundle keccak Sign net client b sent).2).2)

/-- The last outcome recorded under a name. -/
def lastOutcome {V : Type} (outcomes : List (GoString × V)) (name : GoString) : Option V :=
  (outcomes.reverse.find? fun e => e.1 == name).map fun e => e.2

/-- A decoded response without one of its top-level keys. -/
def mapDelete (m : GoMap) (key : GoString) : GoMap := m.filter fun e => e.1 != key

/-- The characters of a hex text: digits, letters a to f of either case, and the x of
the leading "0x". -/
def hexTextChars : GoString := S "0123456789abcdefABCDEFxX"

/-- The lowercase form of an ASCII letter; other bytes are kept. -/
def toLower (c : Byte) : Byte :=
  if 0x41 ≤ c.val ∧ c.val ≤ 0x5a then Fin.ofNat (c.val + 32) else c

/-- The half-bytes of a byte string, the high half of each byte first: the hex digits of
the string as numbers. -/
def nibbles : List Byte → List Nat
  | [] => []
  | b :: rest => b.val / 16 :: b.val % 16 :: nibbles rest

/-- The capital of a lowercase ASCII letter; other bytes, the digits among them, are
kept. -/
def toUpper (c : Byte) : Byte :=
  if 0x61 ≤ c.val ∧ c.val ≤ 0x7a then Fin.ofNat (c.val - 32) else c

/-- The checksummed address text in the words of EIP-55: "0x" and the lowercase hex
digits of the address, the i-th of them printed as a capital when it is a letter and the
i-th hex digit of the Keccak-256 hash of the lowercase digits is 8 or more. -/
def checksumText (keccak : List Byte → Hash) (a : Address) : GoString :=
  S "0x" ++ List.zipWith (fun c n => if 8 ≤ n then toUpper c else c) (lowerHex a.val)
    (nibbles (keccak (lowerHex a.val)).val)

/-- What a call leaves alone, in the words of the specification: every variable that was
there before the call is there with its value, and the backing arrays and the pointed-to
integers are as they were. New variables may have been added after the old ones. -/
def Memory.keeps {Tx : Type} (before after : Memory Tx) : Prop :=
  before.cells <+: after.cells ∧ after.txArrays = before.txArrays ∧
    after.stringArrays = before.stringArrays ∧ after.ints = before.ints

/-! ## Fixtures for worked examples -/

/-- A transaction codec for worked examples: a transaction is the list of its bytes. -/
def rawMarshal (t : List Byte) : List Byte × Option GoError := (t, none)

/-- The decoder that goes with `rawMarshal`. -/
def rawUnmarshal (b : List Byte) : Option (List Byte) := some b

/-- A relay client for worked examples. -/
def exampleClient : RelayClient Unit :=
  { name := S "relay", signingPrivateKey := (), signingPublicAddress := ⟨List.replicate 20 0, by decide⟩,
    mainEndpoint := S "https://relay.example", simulationEndpoint := [] }

/-- A JSON decoder for worked examples, which returns a given map for every input. -/
def constUnmarshal (resp : GoMap) (_bytes : List Byte) : GoMap × Option GoError := (resp, none)

/-- The decoded response of the test "Test with error", without the fields that no
extraction reads. -/
def revertedResponse : GoMap :=
  [(S "id", .float64 ⟨false, S "1", 1⟩),
   (S "result", .map
     [(S "bundleHash", .string (S "0x0ccf")),
      (S "results", .slice
        [.map [(S "error", .string (S "execution reverted")),
               (S "gasUsed", .float64 ⟨false, S "2406", 6⟩),
               (S "revert", .string (S "y"))]]),
      (S "totalGasUsed", .float64 ⟨false, S "2406", 6⟩)])]

/-- The decoded `error` object of the test "Test simulation error" with message `m`. -/
def simulationError (m : GoString) : GoVal :=
  .map [(S "code", .float64 ⟨true, S "32", 5⟩), (S "message", .string m)]

/-- A JSON decoder for worked examples, which rejects every input with a given error. -/
def failUnmarshal (err : GoError) (_bytes : List Byte) : GoMap × Option GoError :=
  ([], some err)

/-- The error of `json.Unmarshal` for a JSON array decoded into the generic map. -/
def arrayTypeError : GoError :=
  GoError.new (S "json: cannot unmarshal array into Go value of type "
    ++ S "map[string]interface \x7b\x7d")

/-- The decoded response of the test "generic reponse". -/
def gasResponse : GoMap :=
  [(S "id", .float64 ⟨false, S "1", 1⟩),
   (S "jsonrpc", .float64 ⟨false, S "2", 1⟩),
   (S "result", .map
     [(S "bundleHash", .string (S "0x0d1b53154e29")),
      (S "results", .slice [.map [(S "txHash", .string (S "0x0a9e21a9c0dd"))]]),
      (S "totalGasUsed", .float64 ⟨false, S "243051", 6⟩)])]

/-- A relay client with a simulation endpoint, for worked examples. -/
def simClient : RelayClient Unit :=
  { name := S "relay", signingPrivateKey := (),
    signingPublicAddress := ⟨List.replicate 20 0, by decide⟩,
    mainEndpoint := S "https://relay.example", simulationEndpoint := S "https://sim.example" }

/-- A signer for worked examples: the signature is the message hash itself. -/
def exampleSign (hash : List Byte) (_key : Unit) : List Byte × Option GoError := (hash, none)

/-- A transport for worked examples: every URL is well formed and every exchange takes
five nanoseconds and answers with an empty JSON object. -/
def exampleTransport : Transport :=
  { NewRequest := fun _ => none
    Do := fun _ _ => { elapsed := 5, doErr := none, body := S "\x7b\x7d", readErr := none } }

/-- A transport for worked examples on which every exchange fails after seven
nanoseconds. -/
def failingTransport : Transport :=
  { NewRequest := fun _ => none
    Do := fun _ _ =>
      { elapsed := 7, doErr := some (GoError.new (S "connection refused")), body := [],
        readErr := none } }

/-- The hash of 32 zero bytes. -/
def zeroHash : Hash := ⟨List.replicate 32 0, by decide⟩

/-- A transaction hash for worked examples. -/
def rawHash (_t : List Byte) : Hash := zeroHash

/-- An address derivation for worked examples: every key has the zero address. -/
def unitAddress (_key : Unit) : Address := ⟨List.replicate 20 0, by decide⟩

/-- A hash function for worked examples. -/
def exampleKeccak (_data : List Byte) : Hash := zeroHash

/-- A transaction codec for worked examples that rejects the empty transaction. -/
def strictMarshal (t : List Byte) : List Byte × Option GoError :=
  if t = [] then ([], some (GoError.new (S "empty transaction"))) else (t, none)


/-- An address derivation for worked examples: every key has the address of twenty bytes
0xab, whose hex digits are letters. -/
def letterAddress (_key : Unit) : Address := ⟨List.replicate 20 0xab, by decide⟩

/-- A hash function for worked examples whose digest is thirty-two bytes 0xf0, so that
its hex digits alternate between 15 and 0. -/
def highKeccak (_data : List Byte) : Hash := ⟨List.replicate 32 0xf0, by decide⟩

/-- A relay client for worked examples with the address of `letterAddress`. -/
def letterClient : RelayClient Unit :=
  { name := S "relay", signingPrivateKey := (), signingPublicAddress := letterAddress (),
    mainEndpoint := S "https://relay.example", simulationEndpoint := [] }

/-- A signer for worked examples whose signature depends on the moment of the call: it
puts a byte of the moment before the hash. -/
def momentSign (moment : Byte) (hash : List Byte) (_key : Unit) : List Byte × Option GoError :=
  (moment :: hash, none)

/-- A memory for worked examples: one bundle variable, at address 0, with one encoded
transaction, the state block number "0x0" and a minimum timestamp. -/
def exampleMemory : Memory (List Byte) :=
  { cells := [{ Transactions := some ⟨0, 0, 1⟩, TxsByteString := some ⟨0, 0, 1⟩,
                BlockNumber := S "0x3e8", StateBlockNumber := S "0x0",
                MinTimestamp := some 0, MaxTimestamp := none,
                RevertingTxHashes := some ⟨1, 0, 0⟩ }]
    txArrays := [[[0xf9, 0x03]]]
    stringArrays := [[S "0xf903"], []]
    ints := [555555] }


/-! # Theorems -/

/-! ## Hex digits and numerals -/

theorem hexChar_eq_lowerHexDigit (n : Nat) (h : n < 16) : hexChar n = lowerHexDigit n := by
  have key : ∀ d : Fin 16, hexChar d.val = lowerHexDigit d.val := by decide
  exact key ⟨n, h⟩

theorem digits_getD_eq_lowerHexDigit (n : Nat) (h : n < 16) :
    digits.getD n 0 = lowerHexDigit n := by
  have key : ∀ d : Fin 16, digits.getD d.val 0 = lowerHexDigit d.val := by decide
  exact key ⟨n, h⟩

theorem hexDigitValue_lowerHexDigit (n : Nat) (h : n < 16) :
    hexDigitValue (lowerHexDigit n) = some n := by
  have key : ∀ d : Fin 16, hexDigitValue (lowerHexDigit d.val) = some d.val := by decide
  exact key ⟨n, h⟩

theorem fromHexChar_lowerHexDigit (n : Nat) (h : n < 16) :
    fromHexChar (lowerHexDigit n) = some n := by
  have key : ∀ d : Fin 16, fromHexChar (lowerHexDigit d.val) = some d.val := by decide
  exact key ⟨n, h⟩

theorem lowerHexDigit_mem_hextable (n : Nat) (h : n < 16) : lowerHexDigit n ∈ hextable := by
  have key : ∀ d : Fin 16, lowerHexDigit d.val ∈ hextable := by decide
  exact key ⟨n, h⟩

theorem lowerHexDigit_eq_zero_digit (n : Nat) (h : n < 16) (h0 : lowerHexDigit n = 0x30) :
    n = 0 := by
  have key : ∀ d : Fin 16, lowerHexDigit d.val = 0x30 → d.val = 0 := by decide
  exact key ⟨n, h⟩ h0

theorem EncodeToString_eq_lowerHex (src : List Byte) : EncodeToString src = lowerHex src := by
  unfold EncodeToString lowerHex
  congr 1
  funext b
  have h1 : b.val / 16 < 16 := by omega
  have h2 : b.val % 16 < 16 := by omega
  simp [hexOfByte, hexChar_eq_lowerHexDigit _ h1, hexChar_eq_lowerHexDigit _ h2]

theorem lowerHex_length (src : List Byte) : (lowerHex src).length = 2 * src.length := by
  induction src with
  | nil => rfl
  | cons b bs ih =>
    simp only [lowerHex, List.flatMap_cons, List.length_append, List.length_cons,
      List.length_nil] at ih ⊢
    omega

theorem lowerHex_mem_hextable (src : List Byte) : ∀ c ∈ lowerHex src, c ∈ hextable := by
  intro c hc
  simp only [lowerHex, List.mem_flatMap] at hc
  obtain ⟨b, _, hb⟩ := hc
  have h1 : b.val / 16 < 16 := by omega
  have h2 : b.val % 16 < 16 := by omega
  rcases List.mem_cons.mp hb with hb | hb
  · rw [hb]; exact lowerHexDigit_mem_hextable _ h1
  · rw [List.mem_singleton.mp hb]; exact lowerHexDigit_mem_hextable _ h2

theorem hexNumeral_of_lt (u : Nat) (h : u < 16) : hexNumeral u = [lowerHexDigit u] := by
  unfold hexNumeral
  by_cases h0 : u = 0
  · subst h0; decide
  · rw [if_neg h0, Nat.digits_of_lt 16 u h0 h]
    rfl

theorem hexNumeral_of_ge (u : Nat) (h : 16 ≤ u) :
    hexNumeral u = hexNumeral (u / 16) ++ [lowerHexDigit (u % 16)] := by
  have hpos : 0 < u := by omega
  have hq : u / 16 ≠ 0 := by omega
  unfold hexNumeral
  rw [if_neg (by omega), if_neg hq, Nat.digits_def' (by norm_num) hpos]
  simp

theorem formatLoop_hex (fuel : Nat) : ∀ (u : Nat) (acc : GoString), u < 16 ^ (fuel + 1) →
    formatLoop 16 fuel u acc = hexNumeral u ++ acc := by
  induction fuel with
  | zero =>
    intro u acc h
    have h16 : u < 16 := by simpa using h
    unfold formatLoop
    rw [hexNumeral_of_lt u h16, digits_getD_eq_lowerHexDigit u h16]
    rfl
  | succ n ih =>
    intro u acc h
    unfold formatLoop
    by_cases hu : 16 ≤ u
    · rw [if_pos hu, ih (u / 16) _ (by
        rw [Nat.div_lt_iff_lt_mul (by norm_num)]
        calc u < 16 ^ (n + 1 + 1) := h
          _ = 16 ^ (n + 1) * 16 := by ring),
        hexNumeral_of_ge u hu, digits_getD_eq_lowerHexDigit _ (Nat.mod_lt _ (by norm_num))]
      simp
    · have h16 : u < 16 := by omega
      rw [if_neg hu, hexNumeral_of_lt u h16, digits_getD_eq_lowerHexDigit u h16]
      rfl

theorem FormatUint_hex (u : Nat) (h : u < 2 ^ 64) : FormatUint u 16 = hexNumeral u := by
  unfold FormatUint
  rw [formatLoop_hex 64 u [] (lt_trans h (by norm_num))]
  simp

theorem readHex_append_digit (s : GoString) (n d : Nat) (hd : d < 16)
    (hs : readHex s = some n) : readHex (s ++ [lowerHexDigit d]) = some (n * 16 + d) := by
  unfold readHex at hs ⊢
  rw [List.foldl_append, hs]
  simp [hexDigitValue_lowerHexDigit d hd]

theorem readHex_hexNumeral (u : Nat) : readHex (hexNumeral u) = some u := by
  induction u using Nat.strong_induction_on with
  | _ u ih =>
    by_cases hu : 16 ≤ u
    · rw [hexNumeral_of_ge u hu,
        readHex_append_digit _ (u / 16) (u % 16) (Nat.mod_lt _ (by norm_num))
          (ih (u / 16) (by omega))]
      congr 1
      omega
    · have h16 : u < 16 := by omega
      rw [hexNumeral_of_lt u h16]
      simp [readHex, hexDigitValue_lowerHexDigit u h16]

theorem hexNumeral_injective (m n : Nat) (h : hexNumeral m = hexNumeral n) : m = n := by
  have h1 := readHex_hexNumeral m
  rw [h, readHex_hexNumeral n] at h1
  exact (Option.some.inj h1).symm

theorem hexNumeral_mem_hextable (u : Nat) : ∀ c ∈ hexNumeral u, c ∈ hextable := by
  induction u using Nat.strong_induction_on with
  | _ u ih =>
    intro c hc
    by_cases hu : 16 ≤ u
    · rw [hexNumeral_of_ge u hu] at hc
      rcases List.mem_append.mp hc with hc | hc
      · exact ih (u / 16) (by omega) c hc
      · rw [List.mem_singleton.mp hc]
        exact lowerHexDigit_mem_hextable _ (Nat.mod_lt _ (by norm_num))
    · have h16 : u < 16 := by omega
      rw [hexNumeral_of_lt u h16] at hc
      rw [List.mem_singleton.mp hc]
      exact lowerHexDigit_mem_hextable _ h16

theorem hexNumeral_head (u : Nat) :
    ∃ d rest, hexNumeral u = lowerHexDigit d :: rest ∧ d < 16 ∧ (d = 0 → u = 0) := by
  induction u using Nat.strong_induction_on with
  | _ u ih =>
    by_cases hu : 16 ≤ u
    · obtain ⟨d, rest, hd, hlt, hz⟩ := ih (u / 16) (by omega)
      refine ⟨d, rest ++ [lowerHexDigit (u % 16)], ?_, hlt, ?_⟩
      · rw [hexNumeral_of_ge u hu, hd]; rfl
      · intro h0
        have := hz h0
        omega
    · have h16 : u < 16 := by omega
      exact ⟨u, [], hexNumeral_of_lt u h16, h16, fun h => h⟩

theorem hexNumeral_no_leading_zero (u : Nat) (h : u ≠ 0) :
    (hexNumeral u).head? ≠ some 0x30 := by
  obtain ⟨d, rest, hd, hlt, hz⟩ := hexNumeral_head u
  rw [hd]
  intro hc
  have hc2 : lowerHexDigit d = 0x30 := by simpa using hc
  exact h (hz (lowerHexDigit_eq_zero_digit d hlt hc2))

theorem hexNumeral_ne_nil (u : Nat) : hexNumeral u ≠ [] := by
  obtain ⟨d, rest, hd, _, _⟩ := hexNumeral_head u
  rw [hd]
  exact List.cons_ne_nil _ _

/-! ## NewBundle -/

theorem take_succ_set {α : Type} (a : α) : ∀ (l : List α) (i : Nat), i < l.length →
    (l.set i a).take (i + 1) = l.take i ++ [a] := by
  intro l
  induction l with
  | nil => intro i h; simp at h
  | cons x xs ih =>
    intro i h
    cases i with
    | zero => simp
    | succ j =>
      have hj : j < xs.length := by simpa using h
      simp [ih j hj]

/-- The hex text `NewBundle` stores for a transaction whose encoding succeeds. -/
theorem encodeLoop_ok {Tx : Type} (MarshalBinary : Tx → List Byte × Option GoError)
    (TxHash : Tx → Hash) : ∀ (txs : List Tx) (i : Nat) (out : List GoString),
    out.length = i + txs.length →
    (encodeLoop MarshalBinary TxHash txs i out).2 = none →
    (∀ tx ∈ txs, (MarshalBinary tx).2 = none) ∧
    (encodeLoop MarshalBinary TxHash txs i out).1 =
      out.take i ++ txs.map fun tx => S "0x" ++ Bytes2Hex (MarshalBinary tx).1 := by
  intro txs
  induction txs with
  | nil =>
    intro i out hlen _
    refine ⟨by simp, ?_⟩
    have : i = out.length := by simpa using hlen.symm
    subst this
    simp [encodeLoop]
  | cons tx rest ih =>
    intro i out hlen hok
    unfold encodeLoop at hok ⊢
    rcases hm : MarshalBinary tx with ⟨txBytes, e⟩
    rw [hm] at hok
    cases e with
    | some err => simp at hok
    | none =>
      simp only at hok ⊢
      have hlen2 : (out.set i (S "0x" ++ Bytes2Hex txBytes)).length = (i + 1) + rest.length := by
        rw [List.length_set, hlen, List.length_cons]; omega
      obtain ⟨hall, hout⟩ := ih (i + 1) _ hlen2 hok
      refine ⟨?_, ?_⟩
      · intro t ht
        rcases List.mem_cons.mp ht with ht | ht
        · rw [ht, hm]
        · exact hall t ht
      · rw [hout, take_succ_set _ out i (by rw [hlen, List.length_cons]; omega)]
        simp [hm]

theorem hashLoop_eq : ∀ (hs : List Hash) (i : Nat) (out : List GoString),
    out.length = i + hs.length → hashLoop hs i out = out.take i ++ hs.map Hash.Hex := by
  intro hs
  induction hs with
  | nil =>
    intro i out hlen
    have : i = out.length := by simpa using hlen.symm
    subst this
    simp [hashLoop]
  | cons h rest ih =>
    intro i out hlen
    unfold hashLoop
    rw [ih (i + 1) _ (by rw [List.length_set, hlen, List.length_cons]; omega),
      take_succ_set _ out i (by rw [hlen, List.length_cons]; omega)]
    simp

/-- The bundle a successful `NewBundle` returns, field by field. -/
theorem NewBundle_ok {Tx : Type} (MarshalBinary : Tx → List Byte × Option GoError)
    (TxHash : Tx → Hash) (transactions : List Tx) (blockNumber stateBlockNumber : Nat)
    (minTimestamp maxTimestamp : Option Int) (revertingTxHashes : List Hash)
    (hok : (NewBundle MarshalBinary TxHash transactions blockNumber stateBlockNumber
      minTimestamp maxTimestamp revertingTxHashes).2 = none) :
    (∀ tx ∈ transactions, (MarshalBinary tx).2 = none) ∧
    (NewBundle MarshalBinary TxHash transactions blockNumber stateBlockNumber
      minTimestamp maxTimestamp revertingTxHashes).1 =
      { Transactions := transactions
        TxsByteString := some (transactions.map fun tx => S "0x" ++ Bytes2Hex (MarshalBinary tx).1)
        BlockNumber := S "0x" ++ FormatUint blockNumber 16
        StateBlockNumber :=
          if stateBlockNumber = 0 then S "latest" else S "0x" ++ FormatUint stateBlockNumber 16
        MinTimestamp := minTimestamp
        MaxTimestamp := maxTimestamp
        RevertingTxHashes := some (revertingTxHashes.map Hash.Hex) } := by
  unfold NewBundle at hok ⊢
  simp only [Bundle.zero] at hok ⊢
  rcases hl : encodeLoop MarshalBinary TxHash transactions 0
    (List.replicate transactions.length []) with ⟨txs, e⟩
  rw [hl] at hok
  cases e with
  | some err => simp at hok
  | none =>
    have h := encodeLoop_ok MarshalBinary TxHash transactions 0
      (List.replicate transactions.length []) (by simp) (by rw [hl])
    rw [hl] at h
    refine ⟨h.1, ?_⟩
    have h2 : txs = transactions.map fun tx => S "0x" ++ Bytes2Hex (MarshalBinary tx).1 := by
      simpa using h.2
    have h3 := hashLoop_eq revertingTxHashes 0
      (List.replicate revertingTxHashes.length []) (by simp)
    simp only [h3, h2]
    simp

/-! ## Claims on signing and on bundle construction -/

theorem hexutilEncode_eq (b : List Byte) : hexutilEncode b = S "0x" ++ lowerHex b := by
  unfold hexutilEncode
  rw [EncodeToString_eq_lowerHex]

theorem Hash_Hex_length (h : Hash) : h.Hex.length = 66 := by
  unfold Hash.Hex
  rw [hexutilEncode_eq, List.length_append, lowerHex_length, h.property]
  rfl

/-- C1: `signPayload` signs the Keccak-256 hash of the personal-message preimage built
from `digestHex`, the text "0x" followed by the lowercase hex of the 32-byte hash of the
body; the length written into the preimage is the character count of `digestHex`, which
is "66" for every body and never "32"; the signature returned is "0x" followed by the
hex of the signer's bytes (and the signer's error, if it fails). -/
theorem signPayload_signs_personal_message {Key : Type} (keccak : List Byte → Hash)
    (Sign : List Byte → Key → List Byte × Option GoError)
    (r : RelayClient Key) (payload : List Byte) :
    signPayload keccak Sign r payload =
      (match Sign (keccak (personalMessage (S "0x" ++ lowerHex (keccak payload).val))).val
          r.signingPrivateKey with
        | (_, some err) => ([], some err)
        | (signatureBytes, none) => (S "0x" ++ lowerHex signatureBytes, none)) ∧
    (S "0x" ++ lowerHex (keccak payload).val).length = 66 ∧
    Itoa ((S "0x" ++ lowerHex (keccak payload).val).length : Nat) = S "66" ∧
    Itoa ((S "0x" ++ lowerHex (keccak payload).val).length : Nat) ≠ S "32" := by
  have hlen : (S "0x" ++ lowerHex (keccak payload).val).length = 66 := by
    rw [← hexutilEncode_eq]
    exact Hash_Hex_length (keccak payload)
  have hpre : S "\x19Ethereum Signed Message:\n" ++ Itoa ((keccak payload).Hex.length : Nat)
      ++ (keccak payload).Hex = personalMessage (S "0x" ++ lowerHex (keccak payload).val) := by
    rw [Hash_Hex_length]
    unfold Hash.Hex personalMessage
    rw [hexutilEncode_eq]
    have h1 : S "\x19Ethereum Signed Message:\n" ++ Itoa ((66 : Nat) : Int) =
        [0x19] ++ S "Ethereum Signed Message:" ++ [0x0a] ++ S "66" := by decide
    rw [h1]
  refine ⟨?_, hlen, ?_, ?_⟩
  · unfold signPayload
    simp only [hpre]
    rcases Sign (keccak (personalMessage (S "0x" ++ lowerHex (keccak payload).val))).val
      r.signingPrivateKey with ⟨sig, e⟩
    cases e with
    | some err => rfl
    | none => simp [hexutilEncode_eq]
  · rw [hlen]; decide
  · rw [hlen]; decide

/-- C6: `AddTransaction` appends to `Transactions` and leaves `TxsByteString` as it was,
so the two sequences are out of step after it: on the bundle that `NewBundle` builds
from no transaction, adding one transaction gives one transaction and no encoded text. -/
theorem AddTransaction_leaves_TxsByteString {Tx : Type} (b : Bundle Tx) (tx : Tx) :
    (b.AddTransaction tx).TxsByteString = b.TxsByteString ∧
    (b.AddTransaction tx).Transactions.length = b.Transactions.length + 1 ∧
    ((NewBundle rawMarshal rawHash [] 1 0 none none []).2 = none ∧
      (((NewBundle rawMarshal rawHash [] 1 0 none none []).1.AddTransaction
          [0x01]).Transactions.length = 1) ∧
      sliceLen ((NewBundle rawMarshal rawHash [] 1 0 none none []).1.AddTransaction
          [0x01]).TxsByteString = 0) := by
  refine ⟨rfl, ?_, ?_, ?_, ?_⟩
  · simp [Bundle.AddTransaction]
  · rfl
  · rfl
  · rfl

theorem encodeLoop_of_all_ok {Tx : Type} (MarshalBinary : Tx → List Byte × Option GoError)
    (TxHash : Tx → Hash) : ∀ (txs : List Tx) (i : Nat) (out : List GoString),
    (∀ tx ∈ txs, (MarshalBinary tx).2 = none) →
    (encodeLoop MarshalBinary TxHash txs i out).2 = none := by
  intro txs
  induction txs with
  | nil => intro i out _; rfl
  | cons tx rest ih =>
    intro i out hall
    unfold encodeLoop
    rcases hm : MarshalBinary tx with ⟨txBytes, e⟩
    have h1 := hall tx (List.mem_cons_self _ _)
    rw [hm] at h1
    simp only at h1
    subst h1
    exact ih _ _ (fun t ht => hall t (List.mem_cons_of_mem _ ht))

theorem NewBundle_of_all_ok {Tx : Type} (MarshalBinary : Tx → List Byte × Option GoError)
    (TxHash : Tx → Hash) (transactions : List Tx) (blockNumber stateBlockNumber : Nat)
    (minTimestamp maxTimestamp : Option Int) (revertingTxHashes : List Hash)
    (hall : ∀ tx ∈ transactions, (MarshalBinary tx).2 = none) :
    (NewBundle MarshalBinary TxHash transactions blockNumber stateBlockNumber
      minTimestamp maxTimestamp revertingTxHashes).2 = none := by
  have h := encodeLoop_of_all_ok MarshalBinary TxHash transactions 0
    (List.replicate transactions.length []) hall
  unfold NewBundle
  simp only [Bundle.zero]
  rcases hl : encodeLoop MarshalBinary TxHash transactions 0
    (List.replicate transactions.length []) with ⟨txs, e⟩
  rw [hl] at h
  simp only at h
  subst h
  rfl

theorem DecodeString_lowerHex (bytes : List Byte) :
    DecodeString (lowerHex bytes) = (bytes, true) := by
  induction bytes with
  | nil => rfl
  | cons b bs ih =>
    have h1 : b.val / 16 < 16 := by omega
    have h2 : b.val % 16 < 16 := by omega
    have hb : (Fin.ofNat (b.val / 16 * 16 + b.val % 16) : Byte) = b := by
      apply Fin.ext
      show (b.val / 16 * 16 + b.val % 16) % 256 = b.val
      omega
    have hcons : lowerHex (b :: bs) =
        lowerHexDigit (b.val / 16) :: lowerHexDigit (b.val % 16) :: lowerHex bs := rfl
    rw [hcons]
    unfold DecodeString
    rw [fromHexChar_lowerHexDigit _ h1, fromHexChar_lowerHexDigit _ h2, ih]
    simp only [hb]

theorem FromHex_hex (bytes : List Byte) : FromHex (S "0x" ++ lowerHex bytes) = bytes := by
  have h0 : has0x (S "0x" ++ lowerHex bytes) = true := rfl
  have hd : (S "0x" ++ lowerHex bytes).drop 2 = lowerHex bytes := rfl
  unfold FromHex
  simp only [h0, if_true, hd]
  rw [if_neg (by rw [lowerHex_length]; omega)]
  unfold Hex2Bytes
  rw [DecodeString_lowerHex]

/-- C7: every text of `TxsByteString` is "0x" followed by lowercase hex digits, and
taking the "0x" off and hex-decoding it gives back the bytes the encoder produced for
the transaction at the same index; so a decoder that inverts the encoder gives back that
transaction, and a transaction decoded from a hex text re-encodes to the same text. -/
theorem NewBundle_hex_roundtrip {Tx : Type} (MarshalBinary : Tx → List Byte × Option GoError)
    (TxHash : Tx → Hash) (transactions : List Tx) (blockNumber stateBlockNumber : Nat)
    (minTimestamp maxTimestamp : Option Int) (revertingTxHashes : List Hash)
    (hok : (NewBundle MarshalBinary TxHash transactions blockNumber stateBlockNumber
      minTimestamp maxTimestamp revertingTxHashes).2 = none) :
    (∃ texts, (NewBundle MarshalBinary TxHash transactions blockNumber stateBlockNumber
        minTimestamp maxTimestamp revertingTxHashes).1.TxsByteString = some texts ∧
      List.Forall₂ (fun tx text =>
          text = S "0x" ++ lowerHex (MarshalBinary tx).1 ∧
          (∀ c ∈ text.drop 2, c ∈ hextable) ∧
          DecodeString (text.drop 2) = ((MarshalBinary tx).1, true) ∧
          FromHex text = (MarshalBinary tx).1 ∧
          ∀ UnmarshalBinary : List Byte → Option Tx,
            (∀ t bytes, MarshalBinary t = (bytes, none) → UnmarshalBinary bytes = some t) →
            UnmarshalBinary (FromHex text) = some tx)
        (NewBundle MarshalBinary TxHash transactions blockNumber stateBlockNumber
          minTimestamp maxTimestamp revertingTxHashes).1.Transactions texts) ∧
    (∀ (UnmarshalBinary : List Byte → Option Tx) (h bytes : List Byte) (tx : Tx),
      (∀ b t, UnmarshalBinary b = some t → MarshalBinary t = (b, none)) →
      h = S "0x" ++ lowerHex bytes → UnmarshalBinary (FromHex h) = some tx →
      NewBundle MarshalBinary TxHash [tx] blockNumber stateBlockNumber
        minTimestamp maxTimestamp revertingTxHashes =
      ({ Transactions := [tx], TxsByteString := some [h],
         BlockNumber := S "0x" ++ FormatUint blockNumber 16,
         StateBlockNumber :=
           if stateBlockNumber = 0 then S "latest" else S "0x" ++ FormatUint stateBlockNumber 16,
         MinTimestamp := minTimestamp, MaxTimestamp := maxTimestamp,
         RevertingTxHashes := some (revertingTxHashes.map Hash.Hex) }, none)) := by
  obtain ⟨hall, hb⟩ := NewBundle_ok MarshalBinary TxHash transactions blockNumber
    stateBlockNumber minTimestamp maxTimestamp revertingTxHashes hok
  refine ⟨⟨_, by rw [hb], ?_⟩, ?_⟩
  · rw [hb]
    simp only
    rw [List.forall₂_map_right_iff, List.forall₂_same]
    intro tx htx
    have hm : MarshalBinary tx = ((MarshalBinary tx).1, none) := by
      rw [← hall tx htx]
    have hd : (S "0x" ++ lowerHex (MarshalBinary tx).1).drop 2 = lowerHex (MarshalBinary tx).1 :=
      rfl
    refine ⟨by rw [Bytes2Hex, EncodeToString_eq_lowerHex], ?_, ?_, ?_, ?_⟩
    · rw [Bytes2Hex, EncodeToString_eq_lowerHex, hd]
      exact lowerHex_mem_hextable _
    · rw [Bytes2Hex, EncodeToString_eq_lowerHex, hd, DecodeString_lowerHex]
    · rw [Bytes2Hex, EncodeToString_eq_lowerHex, FromHex_hex]
    · intro U hU
      rw [Bytes2Hex, EncodeToString_eq_lowerHex, FromHex_hex]
      exact hU tx _ hm
  · intro U h bytes tx hU hh hdec
    rw [hh, FromHex_hex] at hdec
    have hm := hU bytes tx hdec
    have hall1 : ∀ t ∈ [tx], (MarshalBinary t).2 = none := by
      intro t ht
      rw [List.mem_singleton.mp ht, hm]
    have hok1 := NewBundle_of_all_ok MarshalBinary TxHash [tx] blockNumber stateBlockNumber
      minTimestamp maxTimestamp revertingTxHashes hall1
    obtain ⟨_, hb1⟩ := NewBundle_ok MarshalBinary TxHash [tx] blockNumber
      stateBlockNumber minTimestamp maxTimestamp revertingTxHashes hok1
    apply Prod.ext
    · rw [hb1]
      simp [hm, hh, Bytes2Hex, EncodeToString_eq_lowerHex]
    · exact hok1

theorem NewBundle_hex_roundtrip_witness :
    (NewBundle rawMarshal rawHash [[0xf9, 0x03], [0x06]] 1000 0 none none []).2 = none ∧
    ((∃ texts, (NewBundle rawMarshal rawHash [[0xf9, 0x03], [0x06]] 1000 0 none none
        []).1.TxsByteString = some texts ∧
      List.Forall₂ (fun tx text =>
          text = S "0x" ++ lowerHex (rawMarshal tx).1 ∧
          (∀ c ∈ text.drop 2, c ∈ hextable) ∧
          DecodeString (text.drop 2) = ((rawMarshal tx).1, true) ∧
          FromHex text = (rawMarshal tx).1 ∧
          ∀ UnmarshalBinary : List Byte → Option (List Byte),
            (∀ t bytes, rawMarshal t = (bytes, none) → UnmarshalBinary bytes = some t) →
            UnmarshalBinary (FromHex text) = some tx)
        (NewBundle rawMarshal rawHash [[0xf9, 0x03], [0x06]] 1000 0 none none
          []).1.Transactions texts) ∧
    (∀ (UnmarshalBinary : List Byte → Option (List Byte)) (h bytes : List Byte)
        (tx : List Byte),
      (∀ b t, UnmarshalBinary b = some t → rawMarshal t = (b, none)) →
      h = S "0x" ++ lowerHex bytes → UnmarshalBinary (FromHex h) = some tx →
      NewBundle rawMarshal rawHash [tx] 1000 0 none none [] =
      ({ Transactions := [tx], TxsByteString := some [h],
         BlockNumber := S "0x" ++ FormatUint 1000 16,
         StateBlockNumber := if 0 = 0 then S "latest" else S "0x" ++ FormatUint 0 16,
         MinTimestamp := none, MaxTimestamp := none,
         RevertingTxHashes := some (([] : List Hash).map Hash.Hex) }, none))) :=
  ⟨by decide, NewBundle_hex_roundtrip rawMarshal rawHash [[0xf9, 0x03], [0x06]] 1000 0 none
    none [] (by decide)⟩

/-- C8: the `BlockNumber` of a bundle is "0x" followed by the lowercase base-16 numeral
of the block number, without leading zeros (1000 gives "0x3e8", 12345 gives "0x3039",
0 gives "0x0"); reading the digits back gives the block number, so two bundles with the
same `BlockNumber` text were built from the same block number. -/
theorem NewBundle_BlockNumber_hex {Tx : Type}
    (MarshalBinary : Tx → List Byte × Option GoError)
    (TxHash : Tx → Hash) (transactions : List Tx) (blockNumber stateBlockNumber : Nat)
    (minTimestamp maxTimestamp : Option Int) (revertingTxHashes : List Hash)
    (hbn : blockNumber < 2 ^ 64)
    (hok : (NewBundle MarshalBinary TxHash transactions blockNumber stateBlockNumber
      minTimestamp maxTimestamp revertingTxHashes).2 = none) :
    (NewBundle MarshalBinary TxHash transactions blockNumber stateBlockNumber
      minTimestamp maxTimestamp revertingTxHashes).1.BlockNumber =
        S "0x" ++ hexNumeral blockNumber ∧
    (∀ c ∈ hexNumeral blockNumber, c ∈ hextable) ∧
    hexNumeral blockNumber ≠ [] ∧
    ((hexNumeral blockNumber).head? = some 0x30 → blockNumber = 0) ∧
    readHex ((NewBundle MarshalBinary TxHash transactions blockNumber stateBlockNumber
      minTimestamp maxTimestamp revertingTxHashes).1.BlockNumber.drop 2) = some blockNumber ∧
    (blockNumber = 1000 → (NewBundle MarshalBinary TxHash transactions blockNumber
      stateBlockNumber minTimestamp maxTimestamp revertingTxHashes).1.BlockNumber = S "0x3e8") ∧
    (blockNumber = 12345 → (NewBundle MarshalBinary TxHash transactions blockNumber
      stateBlockNumber minTimestamp maxTimestamp revertingTxHashes).1.BlockNumber = S "0x3039") ∧
    (blockNumber = 0 → (NewBundle MarshalBinary TxHash transactions blockNumber
      stateBlockNumber minTimestamp maxTimestamp revertingTxHashes).1.BlockNumber = S "0x0") ∧
    (∀ (transactions2 : List Tx) (blockNumber2 stateBlockNumber2 : Nat)
      (minTimestamp2 maxTimestamp2 : Option Int) (revertingTxHashes2 : List Hash),
      blockNumber2 < 2 ^ 64 →
      (NewBundle MarshalBinary TxHash transactions2 blockNumber2 stateBlockNumber2
        minTimestamp2 maxTimestamp2 revertingTxHashes2).2 = none →
      (NewBundle MarshalBinary TxHash transactions2 blockNumber2 stateBlockNumber2
        minTimestamp2 maxTimestamp2 revertingTxHashes2).1.BlockNumber =
      (NewBundle MarshalBinary TxHash transactions blockNumber stateBlockNumber
        minTimestamp maxTimestamp revertingTxHashes).1.BlockNumber →
      blockNumber2 = blockNumber) := by
  obtain ⟨_, hb⟩ := NewBundle_ok MarshalBinary TxHash transactions blockNumber
    stateBlockNumber minTimestamp maxTimestamp revertingTxHashes hok
  have hB : (NewBundle MarshalBinary TxHash transactions blockNumber stateBlockNumber
      minTimestamp maxTimestamp revertingTxHashes).1.BlockNumber =
        S "0x" ++ hexNumeral blockNumber := by
    rw [hb, ← FormatUint_hex blockNumber hbn]
  have hd : ∀ n, (S "0x" ++ hexNumeral n).drop 2 = hexNumeral n := fun _ => rfl
  refine ⟨hB, hexNumeral_mem_hextable _, hexNumeral_ne_nil _, ?_, ?_, ?_, ?_, ?_, ?_⟩
  · intro hz
    by_contra hne
    exact hexNumeral_no_leading_zero blockNumber hne hz
  · rw [hB, hd, readHex_hexNumeral]
  · intro h
    rw [hb, h]
    show S "0x" ++ FormatUint 1000 16 = S "0x3e8"
    decide
  · intro h
    rw [hb, h]
    show S "0x" ++ FormatUint 12345 16 = S "0x3039"
    decide
  · intro h
    rw [hb, h]
    show S "0x" ++ FormatUint 0 16 = S "0x0"
    decide
  · intro txs2 bn2 sbn2 mn2 mx2 rh2 hbn2 hok2 heq
    obtain ⟨_, hb2⟩ := NewBundle_ok MarshalBinary TxHash txs2 bn2 sbn2 mn2 mx2 rh2 hok2
    rw [hB, hb2] at heq
    simp only at heq
    rw [FormatUint_hex bn2 hbn2] at heq
    exact hexNumeral_injective _ _ (List.append_cancel_left heq)

theorem NewBundle_BlockNumber_hex_witness :
    (1000 : Nat) < 2 ^ 64 ∧
    (NewBundle rawMarshal rawHash [[0xf9, 0x03]] 1000 0 none none []).2 = none ∧
    (NewBundle rawMarshal rawHash [[0xf9, 0x03]] 1000 0 none none []).1.BlockNumber =
      S "0x" ++ hexNumeral 1000 ∧
    (1000 = 1000 → (NewBundle rawMarshal rawHash [[0xf9, 0x03]] 1000 0 none none
      []).1.BlockNumber = S "0x3e8") :=
  have h := NewBundle_BlockNumber_hex rawMarshal rawHash [[0xf9, 0x03]] 1000 0 none none []
    (by norm_num) (by decide)
  ⟨by norm_num, by decide, h.1, h.2.2.2.2.2.1⟩

/-- C9: the `StateBlockNumber` of a bundle is the literal "latest" when the argument is
0, and otherwise "0x" followed by the lowercase base-16 numeral of the argument without
leading zeros; it is never the empty string. -/
theorem NewBundle_StateBlockNumber {Tx : Type}
    (MarshalBinary : Tx → List Byte × Option GoError)
    (TxHash : Tx → Hash) (transactions : List Tx) (blockNumber stateBlockNumber : Nat)
    (minTimestamp maxTimestamp : Option Int) (revertingTxHashes : List Hash)
    (hsbn : stateBlockNumber < 2 ^ 64)
    (hok : (NewBundle MarshalBinary TxHash transactions blockNumber stateBlockNumber
      minTimestamp maxTimestamp revertingTxHashes).2 = none) :
    (stateBlockNumber = 0 →
      (NewBundle MarshalBinary TxHash transactions blockNumber stateBlockNumber
        minTimestamp maxTimestamp revertingTxHashes).1.StateBlockNumber = S "latest") ∧
    (stateBlockNumber ≠ 0 →
      (NewBundle MarshalBinary TxHash transactions blockNumber stateBlockNumber
        minTimestamp maxTimestamp revertingTxHashes).1.StateBlockNumber =
          S "0x" ++ hexNumeral stateBlockNumber ∧
      (∀ c ∈ hexNumeral stateBlockNumber, c ∈ hextable) ∧
      (hexNumeral stateBlockNumber).head? ≠ some 0x30 ∧
      readHex (hexNumeral stateBlockNumber) = some stateBlockNumber) ∧
    (NewBundle MarshalBinary TxHash transactions blockNumber stateBlockNumber
      minTimestamp maxTimestamp revertingTxHashes).1.StateBlockNumber ≠ [] := by
  obtain ⟨_, hb⟩ := NewBundle_ok MarshalBinary TxHash transactions blockNumber
    stateBlockNumber minTimestamp maxTimestamp revertingTxHashes hok
  rw [hb]
  simp only
  refine ⟨?_, ?_, ?_⟩
  · intro h0
    rw [if_pos h0]
  · intro hne
    rw [if_neg hne, FormatUint_hex stateBlockNumber hsbn]
    exact ⟨rfl, hexNumeral_mem_hextable _, hexNumeral_no_leading_zero _ hne,
      readHex_hexNumeral _⟩
  · by_cases h0 : stateBlockNumber = 0
    · rw [if_pos h0]; decide
    · rw [if_neg h0]
      intro hnil
      have : (S "0x" ++ FormatUint stateBlockNumber 16).length = 0 := by rw [hnil]; rfl
      rw [List.length_append] at this
      have h2 : (S "0x").length = 2 := rfl
      omega

theorem NewBundle_StateBlockNumber_witness :
    (13051998 : Nat) < 2 ^ 64 ∧
    (NewBundle rawMarshal rawHash [[0xf9, 0x03]] 1000 13051998 none none []).2 = none ∧
    (NewBundle rawMarshal rawHash [[0xf9, 0x03]] 1000 13051998 none none
      []).1.StateBlockNumber ≠ [] ∧
    ((13051998 : Nat) ≠ 0 →
      (NewBundle rawMarshal rawHash [[0xf9, 0x03]] 1000 13051998 none none
        []).1.StateBlockNumber = S "0x" ++ hexNumeral 13051998 ∧
      (∀ c ∈ hexNumeral 13051998, c ∈ hextable) ∧
      (hexNumeral 13051998).head? ≠ some 0x30 ∧
      readHex (hexNumeral 13051998) = some 13051998) :=
  have h := NewBundle_StateBlockNumber rawMarshal rawHash [[0xf9, 0x03]] 1000 13051998 none
    none [] (by norm_num) (by decide)
  ⟨by norm_num, by decide, h.2.2, h.2.1⟩

/-! ## Claims on serialization -/

/-- C10: the JSON of a bundle built by `NewBundle` is an object in which `txs` is an
array of strings (the empty array for no transaction, never null), `blockNumber` is
present, `minTimestamp` and `maxTimestamp` are present exactly when the argument is
non-nil and then carry its value (0 included), `revertingTxHashes` is present exactly
when the list of hashes is non-empty, and no member is null. -/
theorem marshalBundle_key_presence {Tx : Type}
    (MarshalBinary : Tx → List Byte × Option GoError)
    (TxHash : Tx → Hash) (transactions : List Tx) (blockNumber stateBlockNumber : Nat)
    (minTimestamp maxTimestamp : Option Int) (revertingTxHashes : List Hash)
    (hok : (NewBundle MarshalBinary TxHash transactions blockNumber stateBlockNumber
      minTimestamp maxTimestamp revertingTxHashes).2 = none) :
    (∃ members, marshalBundle (NewBundle MarshalBinary TxHash transactions blockNumber
        stateBlockNumber minTimestamp maxTimestamp revertingTxHashes).1 = JSON.obj members ∧
      ∀ m ∈ members, m.2 ≠ JSON.null) ∧
    (marshalBundle (NewBundle MarshalBinary TxHash transactions blockNumber
        stateBlockNumber minTimestamp maxTimestamp revertingTxHashes).1).field (S "txs") =
      some (JSON.arr (transactions.map fun tx =>
        JSON.str (S "0x" ++ lowerHex (MarshalBinary tx).1))) ∧
    (transactions = [] →
      (marshalBundle (NewBundle MarshalBinary TxHash transactions blockNumber
        stateBlockNumber minTimestamp maxTimestamp revertingTxHashes).1).field (S "txs") =
      some (JSON.arr [])) ∧
    (marshalBundle (NewBundle MarshalBinary TxHash transactions blockNumber
        stateBlockNumber minTimestamp maxTimestamp revertingTxHashes).1).field
          (S "blockNumber") =
      some (JSON.str (S "0x" ++ FormatUint blockNumber 16)) ∧
    (marshalBundle (NewBundle MarshalBinary TxHash transactions blockNumber
        stateBlockNumber minTimestamp maxTimestamp revertingTxHashes).1).field
          (S "minTimestamp") = minTimestamp.map JSON.int ∧
    (marshalBundle (NewBundle MarshalBinary TxHash transactions blockNumber
        stateBlockNumber minTimestamp maxTimestamp revertingTxHashes).1).field
          (S "maxTimestamp") = maxTimestamp.map JSON.int ∧
    (((marshalBundle (NewBundle MarshalBinary TxHash transactions blockNumber
        stateBlockNumber minTimestamp maxTimestamp revertingTxHashes).1).field
          (S "revertingTxHashes")).isSome = true ↔ revertingTxHashes ≠ []) ∧
    (minTimestamp = some 555555 → maxTimestamp = none →
      (marshalBundle (NewBundle MarshalBinary TxHash transactions blockNumber
        stateBlockNumber minTimestamp maxTimestamp revertingTxHashes).1).field
          (S "minTimestamp") = some (JSON.int 555555) ∧
      (marshalBundle (NewBundle MarshalBinary TxHash transactions blockNumber
        stateBlockNumber minTimestamp maxTimestamp revertingTxHashes).1).field
          (S "maxTimestamp") = none) := by
  obtain ⟨_, hb⟩ := NewBundle_ok MarshalBinary TxHash transactions blockNumber
    stateBlockNumber minTimestamp maxTimestamp revertingTxHashes hok
  have hstate : (if stateBlockNumber = 0 then S "latest"
      else S "0x" ++ FormatUint stateBlockNumber 16) ≠ [] := by
    by_cases h0 : stateBlockNumber = 0
    · rw [if_pos h0]; decide
    · rw [if_neg h0]
      exact List.cons_ne_nil _ _
  have htxs : (transactions.map fun tx => S "0x" ++ Bytes2Hex (MarshalBinary tx).1).map JSON.str
      = transactions.map fun tx => JSON.str (S "0x" ++ lowerHex (MarshalBinary tx).1) := by
    rw [List.map_map]
    apply List.map_congr_left
    intro tx _
    simp [Bytes2Hex, EncodeToString_eq_lowerHex]
  rw [hb]
  unfold marshalBundle
  simp only [if_neg hstate, marshalStrings, htxs]
  cases minTimestamp <;> cases maxTimestamp <;> cases revertingTxHashes <;>
    simp only [sliceLen, List.map_nil, List.map_cons, List.length_nil, List.length_cons,
      if_true, List.append_nil, List.nil_append, List.cons_append,
      Nat.succ_ne_zero, if_false, Option.map] <;>
    refine ⟨⟨_, rfl, by simp⟩, rfl, fun h => by subst h; rfl, rfl, rfl, rfl,
      by first
        | (show (false = true) ↔ _; simp)
        | (show (true = true) ↔ _; simp),
      fun h1 h2 => by first
        | (cases h1; done)
        | (cases h2; done)
        | (cases h1; exact ⟨rfl, rfl⟩)⟩

theorem marshalBundle_key_presence_witness :
    (NewBundle rawMarshal rawHash [[0xf9, 0x03]] 12345 0 (some 555555) none []).2 = none ∧
    ((marshalBundle (NewBundle rawMarshal rawHash [[0xf9, 0x03]] 12345 0 (some 555555) none
        []).1).field (S "minTimestamp") = some (JSON.int 555555) ∧
      (marshalBundle (NewBundle rawMarshal rawHash [[0xf9, 0x03]] 12345 0 (some 555555) none
        []).1).field (S "maxTimestamp") = none) ∧
    (((marshalBundle (NewBundle rawMarshal rawHash [[0xf9, 0x03]] 12345 0 (some 555555) none
        []).1).field (S "revertingTxHashes")).isSome = true ↔ ([] : List Hash) ≠ []) ∧
    (marshalBundle (NewBundle rawMarshal rawHash [[0xf9, 0x03]] 12345 0 (some 555555) none
        []).1).render =
      S "\x7b\"txs\":[\"0xf903\"],\"blockNumber\":\"0x3039\",\"stateBlockNumber\":\"latest\",\"minTimestamp\":555555\x7d" :=
  have h := marshalBundle_key_presence rawMarshal rawHash [[0xf9, 0x03]] 12345 0 (some 555555)
    none [] (by decide)
  ⟨by decide, h.2.2.2.2.2.2.2 rfl rfl, h.2.2.2.2.2.2.1, by decide⟩

/-- C2: for the methods `eth_sendBundle` and `eth_callBundle`, the payload is exactly the
text of the JSON-RPC envelope with the keys `jsonrpc`, `method`, `params`, `id` in this
order, `params` holding the one bundle and `id` being 1. -/
theorem prepareBundlePayload_envelope {Key Tx : Type} (r : RelayClient Key) (b : Bundle Tx)
    (method : GoString)
    (hm : method = S "eth_sendBundle" ∨ method = S "eth_callBundle") :
    prepareBundlePayload r b method =
      (S "\x7b\"jsonrpc\":\"2.0\",\"method\":\"" ++ method ++ S "\",\"params\":["
        ++ (marshalBundle b).render ++ S "],\"id\":1\x7d", none) := by
  unfold prepareBundlePayload marshalRpcPaylod
  simp only [JSON.render, renderMembers, renderElems, join]
  generalize (marshalBundle b).render = J
  rcases hm with hm | hm <;> subst hm <;> simp only [List.append_assoc] <;> rfl

theorem prepareBundlePayload_envelope_witness :
    (S "eth_sendBundle" = S "eth_sendBundle" ∨ S "eth_sendBundle" = S "eth_callBundle") ∧
    prepareBundlePayload exampleClient
        (NewBundle rawMarshal rawHash [[0xf9, 0x03]] 12345 0 (some 555555) none []).1
        (S "eth_sendBundle") =
      (S "\x7b\"jsonrpc\":\"2.0\",\"method\":\"" ++ S "eth_sendBundle" ++ S "\",\"params\":["
        ++ (marshalBundle (NewBundle rawMarshal rawHash [[0xf9, 0x03]] 12345 0 (some 555555)
          none []).1).render ++ S "],\"id\":1\x7d", none) :=
  ⟨Or.inl rfl, prepareBundlePayload_envelope _ _ _ (Or.inl rfl)⟩

/-! ## Claims on the response interpreter -/

theorem executionErrorLoop_objects : ∀ (entries : List GoVal) (errs : List GoError),
    (∀ entry ∈ entries, ∃ tx, entry = GoVal.map tx) →
    executionErrorLoop entries (some errs) =
      Outcome.ret (some (errs ++ (entries.filter hasFailure).map entryError)) := by
  intro entries
  induction entries with
  | nil => intro errs _; simp [executionErrorLoop]
  | cons entry rest ih =>
    intro errs hobj
    obtain ⟨tx, htx⟩ := hobj entry (List.mem_cons_self _ _)
    subst htx
    have hrest : ∀ e ∈ rest, ∃ tx, e = GoVal.map tx :=
      fun e he => hobj e (List.mem_cons_of_mem _ he)
    unfold executionErrorLoop
    by_cases hf : ((mapIndex tx (S "error")).2 || (mapIndex tx (S "revert")).2) = true
    · have hfil : hasFailure (GoVal.map tx) = true := hf
      simp only [hf, if_true, goAppend]
      rw [ih _ hrest, List.filter_cons_of_pos hfil]
      simp [entryError]
    · have hfil : ¬ hasFailure (GoVal.map tx) = true := hf
      simp only [hf]
      rw [List.filter_cons_of_neg hfil]
      exact ih _ hrest

theorem ExtractExecutionError_of_objects (Unmarshal : List Byte → GoMap × Option GoError)
    (bytes : List Byte) (resp result : GoMap) (entries : List GoVal)
    (hu : Unmarshal bytes = (resp, none))
    (hr : mapIndex resp (S "result") = (GoVal.map result, true))
    (he : mapIndex result (S "results") = (GoVal.slice entries, true))
    (hobj : ∀ entry ∈ entries, ∃ tx, entry = GoVal.map tx) :
    ExtractExecutionErrorFromSendBundleResponse Unmarshal bytes =
      Outcome.ret (some ((entries.filter hasFailure).map entryError)) := by
  unfold ExtractExecutionErrorFromSendBundleResponse unmarshalBodyBytesToGenericMap
  simp only [hu, hr, he]
  rw [executionErrorLoop_objects entries [] hobj]
  simp

/-- C3: when `result` is an object and `result.results` is an array of objects, the
call returns one error for each entry that has an `error` key or a `revert` key, none
for the other entries, in the order of the entries; an entry with the strings e and r
gives the message "err: e, revertString: r", so the one entry of the test gives the one
error "err: execution reverted, revertString: y". -/
theorem ExtractExecutionError_results (Unmarshal : List Byte → GoMap × Option GoError)
    (bytes : List Byte) (resp result : GoMap) (entries : List GoVal)
    (hu : Unmarshal bytes = (resp, none))
    (hr : mapIndex resp (S "result") = (GoVal.map result, true))
    (he : mapIndex result (S "results") = (GoVal.slice entries, true))
    (hobj : ∀ entry ∈ entries, ∃ tx, entry = GoVal.map tx) :
    ExtractExecutionErrorFromSendBundleResponse Unmarshal bytes =
      Outcome.ret (some ((entries.filter hasFailure).map entryError)) ∧
    ((entries.filter hasFailure).map entryError).length = entries.countP hasFailure ∧
    (∀ tx, GoVal.map tx ∈ entries →
      (hasFailure (GoVal.map tx) = true ↔
        (mapIndex tx (S "error")).2 = true ∨ (mapIndex tx (S "revert")).2 = true)) ∧
    (∀ tx e r, GoVal.map tx ∈ entries →
      mapIndex tx (S "error") = (GoVal.string e, true) →
      mapIndex tx (S "revert") = (GoVal.string r, true) →
      hasFailure (GoVal.map tx) = true ∧
      entryError (GoVal.map tx) = GoError.new (S "err: " ++ e ++ S ", revertString: " ++ r)) ∧
    (∀ tx, entries = [GoVal.map tx] →
      mapIndex tx (S "error") = (GoVal.string (S "execution reverted"), true) →
      mapIndex tx (S "revert") = (GoVal.string (S "y"), true) →
      ExtractExecutionErrorFromSendBundleResponse Unmarshal bytes =
        Outcome.ret (some [GoError.new (S "err: execution reverted, revertString: y")])) := by
  have hmain := ExtractExecutionError_of_objects Unmarshal bytes resp result entries hu hr he hobj
  refine ⟨hmain, ?_, ?_, ?_, ?_⟩
  · rw [List.length_map, List.countP_eq_length_filter]
  · intro tx _
    simp [hasFailure]
  · intro tx e r _ h1 h2
    refine ⟨?_, ?_⟩
    · simp [hasFailure, h1]
    · simp [entryError, h1, h2, Sprints, fmtValue]
  · intro tx hent h1 h2
    rw [hmain, hent]
    have hf : hasFailure (GoVal.map tx) = true := by simp [hasFailure, h1]
    rw [List.filter_cons_of_pos hf]
    simp only [List.filter_nil, List.map_cons, List.map_nil, entryError, h1, h2, Sprints,
      fmtValue]
    rfl

theorem ExtractExecutionError_results_witness :
    constUnmarshal revertedResponse [] = (revertedResponse, none) ∧
    ExtractExecutionErrorFromSendBundleResponse (constUnmarshal revertedResponse) [] =
      Outcome.ret (some [GoError.new (S "err: execution reverted, revertString: y")]) :=
  ⟨rfl, (ExtractExecutionError_results (constUnmarshal revertedResponse) [] revertedResponse
    [(S "bundleHash", .string (S "0x0ccf")),
      (S "results", .slice
        [.map [(S "error", .string (S "execution reverted")),
               (S "gasUsed", .float64 ⟨false, S "2406", 6⟩),
               (S "revert", .string (S "y"))]]),
      (S "totalGasUsed", .float64 ⟨false, S "2406", 6⟩)]
    [.map [(S "error", .string (S "execution reverted")),
               (S "gasUsed", .float64 ⟨false, S "2406", 6⟩),
               (S "revert", .string (S "y"))]]
    rfl rfl rfl
    (fun _ h => ⟨_, List.mem_singleton.mp h⟩)).2.2.2.2 _ rfl rfl rfl⟩

/-- C4, as amended: an entry of `results` that carries only one of the two fields gives
an error in which the absent field is the text that `fmt` prints for a nil operand of
the verb `%s`: "err: e, revertString: %!s(<nil>)" for an entry with `error` = e and no
`revert` key, and "err: %!s(<nil>), revertString: r" for an entry with `revert` = r and
no `error` key. -/
theorem ExtractExecutionError_absent_field (Unmarshal : List Byte → GoMap × Option GoError)
    (bytes : List Byte) (resp result : GoMap) (entries : List GoVal)
    (hu : Unmarshal bytes = (resp, none))
    (hr : mapIndex resp (S "result") = (GoVal.map result, true))
    (he : mapIndex result (S "results") = (GoVal.slice entries, true))
    (hobj : ∀ entry ∈ entries, ∃ tx, entry = GoVal.map tx) :
    ExtractExecutionErrorFromSendBundleResponse Unmarshal bytes =
      Outcome.ret (some ((entries.filter hasFailure).map entryError)) ∧
    (∀ tx e, GoVal.map tx ∈ entries →
      mapIndex tx (S "error") = (GoVal.string e, true) →
      mapIndex tx (S "revert") = (GoVal.nil, false) →
      hasFailure (GoVal.map tx) = true ∧
      entryError (GoVal.map tx) =
        GoError.new (S "err: " ++ e ++ S ", revertString: %!s(<nil>)")) ∧
    (∀ tx r, GoVal.map tx ∈ entries →
      mapIndex tx (S "error") = (GoVal.nil, false) →
      mapIndex tx (S "revert") = (GoVal.string r, true) →
      hasFailure (GoVal.map tx) = true ∧
      entryError (GoVal.map tx) =
        GoError.new (S "err: %!s(<nil>), revertString: " ++ r)) := by
  refine ⟨ExtractExecutionError_of_objects Unmarshal bytes resp result entries hu hr he hobj,
    ?_, ?_⟩
  · intro tx e _ h1 h2
    refine ⟨by simp [hasFailure, h1], ?_⟩
    simp only [entryError, h1, h2, Sprints, fmtValue, List.append_assoc]
    rfl
  · intro tx r _ h1 h2
    refine ⟨by simp [hasFailure, h2], ?_⟩
    simp only [entryError, h1, h2, Sprints, fmtValue, List.append_assoc]
    rfl

theorem ExtractExecutionError_absent_field_witness :
    constUnmarshal [(S "result", .map [(S "results", .slice
        [.map [(S "error", .string (S "execution reverted"))]])])] [] =
      ([(S "result", .map [(S "results", .slice
        [.map [(S "error", .string (S "execution reverted"))]])])], none) ∧
    entryError (.map [(S "error", .string (S "execution reverted"))]) =
      GoError.new (S "err: " ++ S "execution reverted" ++ S ", revertString: %!s(<nil>)") :=
  ⟨rfl, ((ExtractExecutionError_absent_field
    (constUnmarshal [(S "result", .map [(S "results", .slice
        [.map [(S "error", .string (S "execution reverted"))]])])]) []
    [(S "result", .map [(S "results", .slice
        [.map [(S "error", .string (S "execution reverted"))]])])]
    [(S "results", .slice [.map [(S "error", .string (S "execution reverted"))]])]
    [.map [(S "error", .string (S "execution reverted"))]]
    rfl rfl rfl (fun _ h => ⟨_, List.mem_singleton.mp h⟩)).2.1 _ _
      (List.mem_singleton.mpr rfl) rfl rfl).2⟩

/-- C4, as stated, fails: for the response whose `results` holds the one entry with
`error` = "execution reverted" and no `revert` key, the message ends in "%!s(<nil>)"
and is not "err: execution reverted, revertString: ". -/
theorem ExtractExecutionError_absent_field_counterexample :
    ExtractExecutionErrorFromSendBundleResponse
        (constUnmarshal [(S "result", .map [(S "results", .slice
          [.map [(S "error", .string (S "execution reverted"))]])])]) [] =
      Outcome.ret (some [GoError.new (S "err: execution reverted, revertString: %!s(<nil>)")]) ∧
    ExtractExecutionErrorFromSendBundleResponse
        (constUnmarshal [(S "result", .map [(S "results", .slice
          [.map [(S "error", .string (S "execution reverted"))]])])]) [] ≠
      Outcome.ret (some [GoError.new (S "err: execution reverted, revertString: ")]) := by
  decide

/-- C5: when the response has a top-level `error` key and no object-valued `result`,
the call returns exactly one error, whose message is the `error` value under the verb
`%s`: the string itself for a string, and for the object of the test the text
"map[code:%!s(float64=-32000) message:M]", the keys in sorted order. -/
theorem ExtractExecutionError_top_level_error
    (Unmarshal : List Byte → GoMap × Option GoError)
    (bytes : List Byte) (resp : GoMap) (v : GoVal)
    (hu : Unmarshal bytes = (resp, none))
    (hr : ∀ m, (mapIndex resp (S "result")).1 ≠ GoVal.map m)
    (he : mapIndex resp (S "error") = (v, true)) :
    ExtractExecutionErrorFromSendBundleResponse Unmarshal bytes =
      Outcome.ret (some [GoError.new (Sprints v)]) ∧
    (∀ s, v = GoVal.string s →
      ExtractExecutionErrorFromSendBundleResponse Unmarshal bytes =
        Outcome.ret (some [GoError.new s])) ∧
    (∀ m, v = simulationError m ∨
        v = GoVal.map [(S "message", .string m), (S "code", .float64 ⟨true, S "32", 5⟩)] →
      ExtractExecutionErrorFromSendBundleResponse Unmarshal bytes =
        Outcome.ret (some [GoError.new (S "map[code:%!s(float64=-32000) message:" ++ m ++ S "]")])) := by
  have hmain : ExtractExecutionErrorFromSendBundleResponse Unmarshal bytes =
      Outcome.ret (some [GoError.new (Sprints v)]) := by
    unfold ExtractExecutionErrorFromSendBundleResponse unmarshalBodyBytesToGenericMap
    simp only [hu, he]
    cases hres : (mapIndex resp (S "result")).1 with
    | map m => exact absurd hres (hr m)
    | _ => simp [goAppend]
  refine ⟨hmain, ?_, ?_⟩
  · intro s hs
    rw [hmain, hs]
    rfl
  · intro m hv
    rw [hmain]
    rcases hv with hv | hv <;> rw [hv] <;> simp only [simulationError, Sprints, fmtValue,
      fmtEntries, sortEntries, List.foldr, insertEntry, List.map, join, List.append_assoc] <;> rfl

theorem ExtractExecutionError_top_level_error_witness :
    constUnmarshal [(S "error", simulationError (S "err: nonce too low")),
        (S "id", .float64 ⟨false, S "1", 1⟩)] [] =
      ([(S "error", simulationError (S "err: nonce too low")),
        (S "id", .float64 ⟨false, S "1", 1⟩)], none) ∧
    ExtractExecutionErrorFromSendBundleResponse
        (constUnmarshal [(S "error", simulationError (S "err: nonce too low")),
          (S "id", .float64 ⟨false, S "1", 1⟩)]) [] =
      Outcome.ret (some [GoError.new
        (S "map[code:%!s(float64=-32000) message:" ++ S "err: nonce too low" ++ S "]")]) :=
  ⟨rfl, (ExtractExecutionError_top_level_error
    (constUnmarshal [(S "error", simulationError (S "err: nonce too low")),
      (S "id", .float64 ⟨false, S "1", 1⟩)]) []
    [(S "error", simulationError (S "err: nonce too low")), (S "id", .float64 ⟨false, S "1", 1⟩)]
    (simulationError (S "err: nonce too low")) rfl (fun m h => by cases h) rfl).2.2 _
      (Or.inl rfl)⟩

/-! ## Claims on construction failure -/

theorem encodeLoop_fail {Tx : Type} (MarshalBinary : Tx → List Byte × Option GoError)
    (TxHash : Tx → Hash) (bad : Tx) (post : List Tx) (err : GoError)
    (hbad : (MarshalBinary bad).2 = some err) :
    ∀ (pre : List Tx) (i : Nat) (out : List GoString),
    out.length = i + (pre ++ bad :: post).length →
    (∀ t ∈ pre, (MarshalBinary t).2 = none) →
    encodeLoop MarshalBinary TxHash (pre ++ bad :: post) i out =
      (out.take i ++ (pre.map fun t => S "0x" ++ Bytes2Hex (MarshalBinary t).1)
          ++ out.drop (i + pre.length),
        some (GoError.wrap (S "failed tx.MarshalBinary() for tx: " ++ (TxHash bad).Hex ++
          S "\nerrors: " ++ err.Error) err)) := by
  intro pre
  induction pre with
  | nil =>
    intro i out _ _
    rcases hm : MarshalBinary bad with ⟨bytes, e⟩
    rw [hm] at hbad
    simp only at hbad
    subst hbad
    simp [encodeLoop, hm]
  | cons tx pre ih =>
    intro i out hlen hall
    rcases hm : MarshalBinary tx with ⟨bytes, e⟩
    have h1 := hall tx (List.mem_cons_self _ _)
    rw [hm] at h1
    simp only at h1
    subst h1
    have hlt : i < out.length := by
      rw [hlen]; simp
    have hlen2 : (out.set i (S "0x" ++ Bytes2Hex bytes)).length
        = (i + 1) + (pre ++ bad :: post).length := by
      rw [List.length_set, hlen]; simp; omega
    have := ih (i + 1) (out.set i (S "0x" ++ Bytes2Hex bytes)) hlen2
      (fun t ht => hall t (List.mem_cons_of_mem _ ht))
    show encodeLoop MarshalBinary TxHash (tx :: (pre ++ bad :: post)) i out = _
    rw [encodeLoop]
    simp only [hm]
    rw [this, take_succ_set _ out i hlt, List.drop_set_of_lt _ _ (by omega)]
    simp [hm, Nat.add_assoc, Nat.add_comm 1]

theorem NewBundle_fail {Tx : Type} (MarshalBinary : Tx → List Byte × Option GoError)
    (TxHash : Tx → Hash) (blockNumber stateBlockNumber : Nat)
    (minTimestamp maxTimestamp : Option Int) (revertingTxHashes : List Hash)
    (pre : List Tx) (bad : Tx) (post : List Tx) (err : GoError)
    (hpre : ∀ t ∈ pre, (MarshalBinary t).2 = none)
    (hbad : (MarshalBinary bad).2 = some err) :
    NewBundle MarshalBinary TxHash (pre ++ bad :: post) blockNumber stateBlockNumber
      minTimestamp maxTimestamp revertingTxHashes =
    ({ Transactions := pre ++ bad :: post
       TxsByteString := some ((pre.map fun t => S "0x" ++ Bytes2Hex (MarshalBinary t).1)
         ++ List.replicate (post.length + 1) [])
       BlockNumber := [], StateBlockNumber := [], MinTimestamp := none, MaxTimestamp := none
       RevertingTxHashes := none },
     some (GoError.wrap (S "failed tx.MarshalBinary() for tx: " ++ (TxHash bad).Hex ++
       S "\nerrors: " ++ err.Error) err)) := by
  have h := encodeLoop_fail MarshalBinary TxHash bad post err hbad pre 0
    (List.replicate (pre ++ bad :: post).length []) (by simp) hpre
  unfold NewBundle
  simp only [Bundle.zero, h]
  simp [List.drop_replicate]

/-- C12: `NewBundle` fails exactly when the encoding of at least one transaction fails;
the error then names the hash of the first transaction, in input order, whose encoding
failed and wraps its encoding error, the texts from that index on are left empty, and
the outcome does not depend on how later transactions would encode. -/
theorem NewBundle_fails_iff {Tx : Type} (MarshalBinary : Tx → List Byte × Option GoError)
    (TxHash : Tx → Hash) (transactions : List Tx) (blockNumber stateBlockNumber : Nat)
    (minTimestamp maxTimestamp : Option Int) (revertingTxHashes : List Hash) :
    ((NewBundle MarshalBinary TxHash transactions blockNumber stateBlockNumber
        minTimestamp maxTimestamp revertingTxHashes).2 ≠ none ↔
      ∃ tx ∈ transactions, (MarshalBinary tx).2 ≠ none) ∧
    (∀ (pre : List Tx) (bad : Tx) (post : List Tx) (err : GoError),
      transactions = pre ++ bad :: post →
      (∀ t ∈ pre, (MarshalBinary t).2 = none) →
      (MarshalBinary bad).2 = some err →
      (NewBundle MarshalBinary TxHash transactions blockNumber stateBlockNumber
        minTimestamp maxTimestamp revertingTxHashes).2 =
        some (GoError.wrap (S "failed tx.MarshalBinary() for tx: "
          ++ (S "0x" ++ lowerHex (TxHash bad).val) ++ S "\nerrors: " ++ err.Error) err) ∧
      (NewBundle MarshalBinary TxHash transactions blockNumber stateBlockNumber
        minTimestamp maxTimestamp revertingTxHashes).1.TxsByteString =
        some ((pre.map fun t => S "0x" ++ lowerHex (MarshalBinary t).1)
          ++ List.replicate (post.length + 1) []) ∧
      ∀ MarshalBinary2 : Tx → List Byte × Option GoError,
        (∀ t ∈ pre, MarshalBinary2 t = MarshalBinary t) →
        MarshalBinary2 bad = MarshalBinary bad →
        NewBundle MarshalBinary2 TxHash transactions blockNumber stateBlockNumber
          minTimestamp maxTimestamp revertingTxHashes =
        NewBundle MarshalBinary TxHash transactions blockNumber stateBlockNumber
          minTimestamp maxTimestamp revertingTxHashes) := by
  refine ⟨⟨?_, ?_⟩, ?_⟩
  · intro hne
    by_contra hall
    apply hne
    apply NewBundle_of_all_ok
    intro tx htx
    by_contra h
    exact hall ⟨tx, htx, h⟩
  · rintro ⟨tx, htx, hfail⟩ hok
    exact hfail ((NewBundle_ok MarshalBinary TxHash transactions blockNumber stateBlockNumber
      minTimestamp maxTimestamp revertingTxHashes hok).1 tx htx)
  · intro pre bad post err htxs hpre hbad
    subst htxs
    have h := NewBundle_fail MarshalBinary TxHash blockNumber stateBlockNumber minTimestamp
      maxTimestamp revertingTxHashes pre bad post err hpre hbad
    refine ⟨?_, ?_, ?_⟩
    · rw [h]
      simp [Hash.Hex, hexutilEncode_eq]
    · rw [h]
      simp [Bytes2Hex, EncodeToString_eq_lowerHex]
    · intro M2 hpre2 hbad2
      have h2 := NewBundle_fail M2 TxHash blockNumber stateBlockNumber minTimestamp
        maxTimestamp revertingTxHashes pre bad post err
        (fun t ht => by rw [hpre2 t ht]; exact hpre t ht) (by rw [hbad2]; exact hbad)
      rw [h, h2]
      have hmap : (pre.map fun t => S "0x" ++ Bytes2Hex (M2 t).1) =
          pre.map fun t => S "0x" ++ Bytes2Hex (MarshalBinary t).1 := by
        apply List.map_congr_left
        intro t ht
        rw [hpre2 t ht]
      rw [hmap]

theorem NewBundle_fails_iff_witness :
    (NewBundle strictMarshal rawHash [[0x01], [], [0x02]] 1000 0 none none []).2 =
      some (GoError.wrap (S "failed tx.MarshalBinary() for tx: "
        ++ (S "0x" ++ lowerHex (rawHash []).val) ++ S "\nerrors: "
        ++ (GoError.new (S "empty transaction")).Error) (GoError.new (S "empty transaction"))) ∧
    (NewBundle strictMarshal rawHash [[0x01], [], [0x02]] 1000 0 none none
      []).1.TxsByteString =
      some (([[0x01]].map fun t => S "0x" ++ lowerHex (strictMarshal t).1)
        ++ List.replicate (([[0x02]] : List (List Byte)).length + 1) []) :=
  have h := (NewBundle_fails_iff strictMarshal rawHash [[0x01], [], [0x02]] 1000 0 none none
    []).2 [[0x01]] [] [[0x02]] (GoError.new (S "empty transaction")) rfl (by decide) rfl
  ⟨h.1, h.2.1⟩

/-! ## Claims on gas, hash and failure paths of the response interpreter -/

/-- C13: when `result` is an object with a numeric `totalGasUsed`, the call returns that
number, whatever else the response holds; when `result` is absent or not an object, or
`totalGasUsed` is absent or not a number, the call panics on the type assertion. -/
theorem ExtractGasUsed_result (Unmarshal : List Byte → GoMap × Option GoError)
    (bytes : List Byte) (resp : GoMap) (hu : Unmarshal bytes = (resp, none)) :
    (∀ result n, (mapIndex resp (S "result")).1 = GoVal.map result →
      (mapIndex result (S "totalGasUsed")).1 = GoVal.float64 n →
      ExtractGasUsedFromBundleResponse Unmarshal bytes = Outcome.ret n) ∧
    ((∀ m, (mapIndex resp (S "result")).1 ≠ GoVal.map m) →
      ExtractGasUsedFromBundleResponse Unmarshal bytes =
        Outcome.panic (assertionPanic (mapIndex resp (S "result")).1
          (S "map[string]interface \x7b\x7d"))) ∧
    (∀ result, (mapIndex resp (S "result")).1 = GoVal.map result →
      (∀ n, (mapIndex result (S "totalGasUsed")).1 ≠ GoVal.float64 n) →
      ExtractGasUsedFromBundleResponse Unmarshal bytes =
        Outcome.panic (assertionPanic (mapIndex result (S "totalGasUsed")).1 (S "float64"))) := by
  unfold ExtractGasUsedFromBundleResponse unmarshalBodyBytesToGenericMap
  simp only [hu]
  refine ⟨?_, ?_, ?_⟩
  · intro result n h1 h2
    simp only [h1, h2]
  · intro h
    cases hres : (mapIndex resp (S "result")).1 with
    | map m => exact absurd hres (h m)
    | _ => rfl
  · intro result h1 h2
    simp only [h1]

theorem ExtractGasUsed_result_witness :
    constUnmarshal gasResponse [] = (gasResponse, none) ∧
    ExtractGasUsedFromBundleResponse (constUnmarshal gasResponse) [] =
      Outcome.ret ⟨false, S "243051", 6⟩ ∧
    fmtFloat ⟨false, S "243051", 6⟩ = S "243051" :=
  ⟨rfl, (ExtractGasUsed_result (constUnmarshal gasResponse) [] gasResponse rfl).1 _ _ rfl rfl,
    by decide⟩

/-- C14: when `result` is an object with a string `bundleHash`, the call returns that
string unchanged, whatever else the response holds; when `result` is absent or not an
object, or `bundleHash` is absent or not a string, the call panics on the type
assertion. -/
theorem ExtractBundleHash_result (Unmarshal : List Byte → GoMap × Option GoError)
    (bytes : List Byte) (resp : GoMap) (hu : Unmarshal bytes = (resp, none)) :
    (∀ result h, (mapIndex resp (S "result")).1 = GoVal.map result →
      (mapIndex result (S "bundleHash")).1 = GoVal.string h →
      ExtractBundleHashFromBundleResponse Unmarshal bytes = Outcome.ret h) ∧
    ((∀ m, (mapIndex resp (S "result")).1 ≠ GoVal.map m) →
      ExtractBundleHashFromBundleResponse Unmarshal bytes =
        Outcome.panic (assertionPanic (mapIndex resp (S "result")).1
          (S "map[string]interface \x7b\x7d"))) ∧
    (∀ result, (mapIndex resp (S "result")).1 = GoVal.map result →
      (∀ h, (mapIndex result (S "bundleHash")).1 ≠ GoVal.string h) →
      ExtractBundleHashFromBundleResponse Unmarshal bytes =
        Outcome.panic (assertionPanic (mapIndex result (S "bundleHash")).1 (S "string"))) := by
  unfold ExtractBundleHashFromBundleResponse unmarshalBodyBytesToGenericMap
  simp only [hu]
  refine ⟨?_, ?_, ?_⟩
  · intro result n h1 h2
    simp only [h1, h2]
  · intro h
    cases hres : (mapIndex resp (S "result")).1 with
    | map m => exact absurd hres (h m)
    | _ => rfl
  · intro result h1 h2
    simp only [h1]

theorem ExtractBundleHash_result_witness :
    constUnmarshal gasResponse [] = (gasResponse, none) ∧
    ExtractBundleHashFromBundleResponse (constUnmarshal gasResponse) [] =
      Outcome.ret (S "0x0d1b53154e29") :=
  ⟨rfl, (ExtractBundleHash_result (constUnmarshal gasResponse) [] gasResponse rfl).1 _ _
    rfl rfl⟩

/-- C15: when `result` is an object, the call returns the empty, non-nil error list and
does not panic whenever `result.results` is missing or not an array, is the empty array,
or is an array of objects none of which has an `error` or a `revert` key. -/
theorem ExtractExecutionError_no_errors (Unmarshal : List Byte → GoMap × Option GoError)
    (bytes : List Byte) (resp result : GoMap)
    (hu : Unmarshal bytes = (resp, none))
    (hr : (mapIndex resp (S "result")).1 = GoVal.map result) :
    ((∀ entries, (mapIndex result (S "results")).1 ≠ GoVal.slice entries) →
      ExtractExecutionErrorFromSendBundleResponse Unmarshal bytes = Outcome.ret (some [])) ∧
    ((mapIndex result (S "results")).1 = GoVal.slice [] →
      ExtractExecutionErrorFromSendBundleResponse Unmarshal bytes = Outcome.ret (some [])) ∧
    (∀ entries, (mapIndex result (S "results")).1 = GoVal.slice entries →
      (∀ entry ∈ entries, ∃ tx, entry = GoVal.map tx ∧
        (mapIndex tx (S "error")).2 = false ∧ (mapIndex tx (S "revert")).2 = false) →
      ExtractExecutionErrorFromSendBundleResponse Unmarshal bytes = Outcome.ret (some [])) := by
  unfold ExtractExecutionErrorFromSendBundleResponse unmarshalBodyBytesToGenericMap
  simp only [hu, hr]
  refine ⟨?_, ?_, ?_⟩
  · intro h
    cases hres : (mapIndex result (S "results")).1 with
    | slice entries => exact absurd hres (h entries)
    | _ => rfl
  · intro h
    simp only [h]
    rfl
  · intro entries h hall
    simp only [h]
    rw [executionErrorLoop_objects entries [] (fun e he => ⟨_, (hall e he).choose_spec.1⟩)]
    have hnone : entries.filter hasFailure = [] := by
      rw [List.filter_eq_nil_iff]
      intro e he
      obtain ⟨tx, htx, h1, h2⟩ := hall e he
      subst htx
      simp [hasFailure, h1, h2]
    rw [hnone]
    rfl

theorem ExtractExecutionError_no_errors_witness :
    constUnmarshal gasResponse [] = (gasResponse, none) ∧
    ExtractExecutionErrorFromSendBundleResponse (constUnmarshal gasResponse) [] =
      Outcome.ret (some []) :=
  ⟨rfl, (ExtractExecutionError_no_errors (constUnmarshal gasResponse) [] gasResponse
    [(S "bundleHash", .string (S "0x0d1b53154e29")),
      (S "results", .slice [.map [(S "txHash", .string (S "0x0a9e21a9c0dd"))]]),
      (S "totalGasUsed", .float64 ⟨false, S "243051", 6⟩)] rfl rfl).2.2
    [.map [(S "txHash", .string (S "0x0a9e21a9c0dd"))]] rfl
    (fun _ h => ⟨_, List.mem_singleton.mp h, rfl, rfl⟩)⟩

/-- C16, as amended: when the body is a JSON object or the JSON value null, so that it
decodes into the generic map, and the decoded response has no object-valued `result` and
no top-level `error` key, the call returns no error list: it panics on the assertion that
reads the string `message` out of the absent result. This is so for the responses {},
with a null `result`, with a string `result`, and for the JSON value null. A body that the
decoder rejects, as it does valid JSON of another kind (an array, a string, a number, a
boolean), makes the call return a list of one error instead. -/
theorem ExtractExecutionError_missing_result (Unmarshal : List Byte → GoMap × Option GoError)
    (bytes : List Byte) (resp : GoMap)
    (hu : Unmarshal bytes = (resp, none))
    (hr : ∀ m, (mapIndex resp (S "result")).1 ≠ GoVal.map m)
    (he : (mapIndex resp (S "error")).2 = false) :
    ExtractExecutionErrorFromSendBundleResponse Unmarshal bytes =
      Outcome.panic (assertionPanic GoVal.nil (S "string")) ∧
    (∀ errs, ExtractExecutionErrorFromSendBundleResponse Unmarshal bytes ≠ Outcome.ret errs) ∧
    (assertionPanic GoVal.nil (S "string")).Error =
      S "interface conversion: interface \x7b\x7d is nil, not string" ∧
    (∀ other : List Byte,
      ExtractExecutionErrorFromSendBundleResponse (constUnmarshal []) other =
        Outcome.panic (assertionPanic GoVal.nil (S "string")) ∧
      ExtractExecutionErrorFromSendBundleResponse
          (constUnmarshal [(S "result", GoVal.nil)]) other =
        Outcome.panic (assertionPanic GoVal.nil (S "string")) ∧
      ExtractExecutionErrorFromSendBundleResponse
          (constUnmarshal [(S "result", GoVal.string (S "0xabc"))]) other =
        Outcome.panic (assertionPanic GoVal.nil (S "string"))) ∧
    (∀ (Unmarshal2 : List Byte → GoMap × Option GoError) (bytes2 : List Byte) (err : GoError),
      (Unmarshal2 bytes2).2 = some err →
      ExtractExecutionErrorFromSendBundleResponse Unmarshal2 bytes2 =
        Outcome.ret (some [GoError.wrap (S "failed to unmarshal response: " ++ bytes2
            ++ S ", " ++ (S "failed to unmarshal body to a generic map: " ++ err.Error))
          (GoError.wrap (S "failed to unmarshal body to a generic map: " ++ err.Error)
            err)])) := by
  have hmain : ExtractExecutionErrorFromSendBundleResponse Unmarshal bytes =
      Outcome.panic (assertionPanic GoVal.nil (S "string")) := by
    unfold ExtractExecutionErrorFromSendBundleResponse unmarshalBodyBytesToGenericMap
    simp only [hu]
    rcases hm : mapIndex resp (S "error") with ⟨v, ok⟩
    rw [hm] at he
    simp only at he
    subst he
    cases hres : (mapIndex resp (S "result")).1 with
    | map m => exact absurd hres (hr m)
    | _ => rfl
  refine ⟨hmain, ?_, by decide, ?_, ?_⟩
  · intro errs h
    rw [hmain] at h
    cases h
  · intro other
    exact ⟨rfl, rfl, rfl⟩
  · intro Unmarshal2 bytes2 err hu2
    rcases hm : Unmarshal2 bytes2 with ⟨response, e⟩
    rw [hm] at hu2
    simp only at hu2
    subst hu2
    simp [ExtractExecutionErrorFromSendBundleResponse, unmarshalBodyBytesToGenericMap, hm,
      GoError.Error, goAppend]

theorem ExtractExecutionError_missing_result_witness :
    constUnmarshal [(S "id", .float64 ⟨false, S "1", 1⟩), (S "result", .string (S "0xabc"))]
        (S "x") =
      ([(S "id", .float64 ⟨false, S "1", 1⟩), (S "result", .string (S "0xabc"))], none) ∧
    ExtractExecutionErrorFromSendBundleResponse
        (constUnmarshal [(S "id", .float64 ⟨false, S "1", 1⟩),
          (S "result", .string (S "0xabc"))]) (S "x") =
      Outcome.panic (assertionPanic GoVal.nil (S "string")) :=
  ⟨rfl, (ExtractExecutionError_missing_result
    (constUnmarshal [(S "id", .float64 ⟨false, S "1", 1⟩), (S "result", .string (S "0xabc"))])
    (S "x") [(S "id", .float64 ⟨false, S "1", 1⟩), (S "result", .string (S "0xabc"))]
    rfl (fun m h => by cases h) rfl).1⟩

/-- C16, as stated, fails: the body `[]` is valid JSON with no object-valued `result` and
no top-level `error` key, the decoder rejects it because an array does not decode into
the generic map, and the call returns a list holding one error; it does not panic. -/
theorem ExtractExecutionError_missing_result_counterexample :
    ExtractExecutionErrorFromSendBundleResponse (failUnmarshal arrayTypeError) (S "[]") =
      Outcome.ret (some [GoError.wrap
        (S "failed to unmarshal response: " ++ S "[]" ++ S ", "
          ++ (S "failed to unmarshal body to a generic map: " ++ arrayTypeError.Error))
        (GoError.wrap
          (S "failed to unmarshal body to a generic map: " ++ arrayTypeError.Error)
          arrayTypeError)]) ∧
    ExtractExecutionErrorFromSendBundleResponse (failUnmarshal arrayTypeError) (S "[]") ≠
      Outcome.panic (assertionPanic GoVal.nil (S "string")) ∧
    ¬ ∃ v, ExtractExecutionErrorFromSendBundleResponse (failUnmarshal arrayTypeError)
        (S "[]") = Outcome.panic v := by
  have h : ExtractExecutionErrorFromSendBundleResponse (failUnmarshal arrayTypeError)
      (S "[]") =
      Outcome.ret (some [GoError.wrap
        (S "failed to unmarshal response: " ++ S "[]" ++ S ", "
          ++ (S "failed to unmarshal body to a generic map: " ++ arrayTypeError.Error))
        (GoError.wrap
          (S "failed to unmarshal body to a generic map: " ++ arrayTypeError.Error)
          arrayTypeError)]) := by
    have hw : ∀ (m : GoString) (e : GoError), (GoError.wrap m e).Error = m := fun _ _ => rfl
    simp [ExtractExecutionErrorFromSendBundleResponse, unmarshalBodyBytesToGenericMap,
      failUnmarshal, goAppend, hw]
  refine ⟨h, ?_, ?_⟩
  · rw [h]
    intro hv
    cases hv
  · rintro ⟨v, hv⟩
    rw [h] at hv
    cases hv

theorem infix_middle {α : Type} (a b c : List α) : b <:+: a ++ b ++ c := ⟨a, c, rfl⟩

/-- C17, as amended: when the body is not valid JSON, `ExtractGasUsedFromBundleResponse`
and `ExtractBundleHashFromBundleResponse` panic with an error whose message contains the
raw bytes, and `ExtractExecutionErrorFromSendBundleResponse` returns normally a list of
exactly one error, whose message contains the raw bytes and which wraps the decoding
error. -/
theorem Extract_invalid_json (Unmarshal : List Byte → GoMap × Option GoError)
    (bytes : List Byte) (err : GoError) (hu : (Unmarshal bytes).2 = some err) :
    ExtractGasUsedFromBundleResponse Unmarshal bytes =
      Outcome.panic (GoError.wrap (S "body bytes: " ++ bytes ++ S ", "
          ++ (S "failed to unmarshal body to a generic map: " ++ err.Error))
        (GoError.wrap (S "failed to unmarshal body to a generic map: " ++ err.Error) err)) ∧
    ExtractBundleHashFromBundleResponse Unmarshal bytes =
      Outcome.panic (GoError.wrap (S "body bytes: " ++ bytes ++ S ", "
          ++ (S "failed to unmarshal body to a generic map: " ++ err.Error))
        (GoError.wrap (S "failed to unmarshal body to a generic map: " ++ err.Error) err)) ∧
    ExtractExecutionErrorFromSendBundleResponse Unmarshal bytes =
      Outcome.ret (some [GoError.wrap (S "failed to unmarshal response: " ++ bytes ++ S ", "
          ++ (S "failed to unmarshal body to a generic map: " ++ err.Error))
        (GoError.wrap (S "failed to unmarshal body to a generic map: " ++ err.Error) err)]) ∧
    bytes <:+: S "body bytes: " ++ bytes ++ S ", "
      ++ (S "failed to unmarshal body to a generic map: " ++ err.Error) ∧
    bytes <:+: S "failed to unmarshal response: " ++ bytes ++ S ", "
      ++ (S "failed to unmarshal body to a generic map: " ++ err.Error) := by
  rcases hm : Unmarshal bytes with ⟨response, e⟩
  rw [hm] at hu
  simp only at hu
  subst hu
  refine ⟨?_, ?_, ?_, ?_, ?_⟩
  · simp [ExtractGasUsedFromBundleResponse, unmarshalBodyBytesToGenericMap, hm, GoError.Error]
  · simp [ExtractBundleHashFromBundleResponse, unmarshalBodyBytesToGenericMap, hm,
      GoError.Error]
  · simp [ExtractExecutionErrorFromSendBundleResponse, unmarshalBodyBytesToGenericMap, hm,
      GoError.Error, goAppend]
  · exact ⟨S "body bytes: ",
      S ", " ++ (S "failed to unmarshal body to a generic map: " ++ err.Error), by simp⟩
  · exact ⟨S "failed to unmarshal response: ",
      S ", " ++ (S "failed to unmarshal body to a generic map: " ++ err.Error), by simp⟩

theorem Extract_invalid_json_witness :
    (failUnmarshal (GoError.new (S "invalid character")) (S "<html>")).2 =
      some (GoError.new (S "invalid character")) ∧
    ExtractGasUsedFromBundleResponse (failUnmarshal (GoError.new (S "invalid character")))
        (S "<html>") =
      Outcome.panic (GoError.wrap (S "body bytes: " ++ S "<html>" ++ S ", "
          ++ (S "failed to unmarshal body to a generic map: "
            ++ (GoError.new (S "invalid character")).Error))
        (GoError.wrap (S "failed to unmarshal body to a generic map: "
          ++ (GoError.new (S "invalid character")).Error)
          (GoError.new (S "invalid character")))) :=
  ⟨rfl, (Extract_invalid_json (failUnmarshal (GoError.new (S "invalid character")))
    (S "<html>") (GoError.new (S "invalid character")) rfl).1⟩

/-- C17, as stated, fails: on a body that is not valid JSON
`ExtractExecutionErrorFromSendBundleResponse` does not fail hard, it returns a list
holding one error. -/
theorem Extract_invalid_json_counterexample :
    ExtractExecutionErrorFromSendBundleResponse
        (failUnmarshal (GoError.new (S "invalid character"))) (S "<html>") =
      Outcome.ret (some [GoError.wrap
        (S "failed to unmarshal response: " ++ S "<html>" ++ S ", "
          ++ (S "failed to unmarshal body to a generic map: " ++ S "invalid character"))
        (GoError.wrap (S "failed to unmarshal body to a generic map: " ++ S "invalid character")
          (GoError.new (S "invalid character")))]) ∧
    ¬ ∃ v, ExtractExecutionErrorFromSendBundleResponse
        (failUnmarshal (GoError.new (S "invalid character"))) (S "<html>") = Outcome.panic v := by
  have h : ExtractExecutionErrorFromSendBundleResponse
      (failUnmarshal (GoError.new (S "invalid character"))) (S "<html>") =
      Outcome.ret (some [GoError.wrap
        (S "failed to unmarshal response: " ++ S "<html>" ++ S ", "
          ++ (S "failed to unmarshal body to a generic map: " ++ S "invalid character"))
        (GoError.wrap (S "failed to unmarshal body to a generic map: " ++ S "invalid character")
          (GoError.new (S "invalid character")))]) := by
    simp [ExtractExecutionErrorFromSendBundleResponse, unmarshalBodyBytesToGenericMap,
      failUnmarshal, GoError.Error, goAppend]
  refine ⟨h, ?_⟩
  rintro ⟨v, hv⟩
  rw [h] at hv
  cases hv

/-! ## Claims on simulation and on the payload of a send -/

theorem normalizedForSimulation_eq {Tx : Type} (b : Bundle Tx) :
    (if b.StateBlockNumber = [] ∨ b.StateBlockNumber = S "0x0" then
        { b with StateBlockNumber := S "latest" }
      else b) = normalizedForSimulation b := by
  have hS : S "" = ([] : GoString) := rfl
  unfold normalizedForSimulation
  rw [hS]
  by_cases h : b.StateBlockNumber = [] ∨ b.StateBlockNumber = S "0x0"
  · rw [if_pos h, if_pos h]
  · rw [if_neg h, if_neg h]

theorem SimulateBundle_eq_fbRequest {Key Tx : Type} (keccak : List Byte → Hash)
    (Sign : List Byte → Key → List Byte × Option GoError) (net : Transport)
    (r : RelayClient Key) (b : Bundle Tx) (sent : List Request)
    (hne : r.simulationEndpoint ≠ []) :
    SimulateBundle keccak Sign net r b sent =
      fbRequest keccak Sign net r r.simulationEndpoint
        (prepareBundlePayload r (normalizedForSimulation b) (S "eth_callBundle")).1 sent := by
  unfold SimulateBundle
  rw [if_neg hne]
  simp only [normalizedForSimulation_eq]
  rfl

theorem signPayload_error {Key : Type} (keccak : List Byte → Hash)
    (Sign : List Byte → Key → List Byte × Option GoError)
    (r : RelayClient Key) (payload : List Byte) (e : GoError)
    (h : (signPayload keccak Sign r payload).2 = some e) :
    ∃ hash, (Sign hash r.signingPrivateKey).2 = some e := by
  unfold signPayload at h
  simp only at h
  generalize (keccak (S "\x19Ethereum Signed Message:\n" ++
    Itoa ((keccak payload).Hex.length : Nat) ++ (keccak payload).Hex)).val = hash at h
  refine ⟨hash, ?_⟩
  rcases hs : Sign hash r.signingPrivateKey with ⟨sig, err⟩
  rw [hs] at h
  cases err with
  | some err1 => simpa using h
  | none => simp at h

theorem fbRequest_error {Key : Type} (keccak : List Byte → Hash)
    (Sign : List Byte → Key → List Byte × Option GoError) (net : Transport)
    (r : RelayClient Key) (endpoint : GoString) (payload : List Byte) (sent : List Request)
    (e : GoError)
    (h : (fbRequest keccak Sign net r endpoint payload sent).1.2.2 = some e) :
    (∃ hash, (Sign hash r.signingPrivateKey).2 = some e) ∨
    net.NewRequest endpoint = some e ∨
    (∃ req, (net.Do sent req).doErr = some e) ∨
    (∃ req, (net.Do sent req).readErr = some e) := by
  unfold fbRequest at h
  rcases hs : signPayload keccak Sign r payload with ⟨signature, serr⟩
  rw [hs] at h
  cases serr with
  | some err1 =>
    left
    apply signPayload_error keccak Sign r payload
    rw [hs]
    simpa using h
  | none =>
    right
    simp only at h
    cases hn : net.NewRequest endpoint with
    | some err2 =>
      left
      rw [hn] at h
      simpa using h
    | none =>
      right
      rw [hn] at h
      simp only at h
      split at h
      · rename_i err3 hd
        left
        exact ⟨_, by rw [hd]; simpa using h⟩
      · split at h
        · rename_i err4 hrd
          right
          exact ⟨_, by rw [hrd]; simpa using h⟩
        · simp at h

/-- C18: with an empty simulation endpoint `SimulateBundle` returns the error that names
the relay, nil response bytes and a zero duration, whatever the hash function, the
signer and the transport are, and hands no request to the transport; with a non-empty
one it goes on to the request, and any error it returns is the signer's, the request
constructor's, the transport's or the body reader's. -/
theorem SimulateBundle_configuration_error {Key Tx : Type} (keccak : List Byte → Hash)
    (Sign : List Byte → Key → List Byte × Option GoError) (net : Transport)
    (r : RelayClient Key) (b : Bundle Tx) (sent : List Request) :
    (r.simulationEndpoint = [] →
      SimulateBundle keccak Sign net r b sent =
        ((none, 0, some (GoError.new (S "no simulation endpoint for relay " ++ r.name))), sent) ∧
      r.name <:+: (GoError.new (S "no simulation endpoint for relay " ++ r.name)).Error) ∧
    (r.simulationEndpoint ≠ [] →
      SimulateBundle keccak Sign net r b sent =
        fbRequest keccak Sign net r r.simulationEndpoint
          (prepareBundlePayload r (normalizedForSimulation b) (S "eth_callBundle")).1 sent ∧
      ∀ e, (SimulateBundle keccak Sign net r b sent).1.2.2 = some e →
        (∃ hash, (Sign hash r.signingPrivateKey).2 = some e) ∨
        net.NewRequest r.simulationEndpoint = some e ∨
        (∃ req, (net.Do sent req).doErr = some e) ∨
        (∃ req, (net.Do sent req).readErr = some e)) := by
  refine ⟨?_, ?_⟩
  · intro h
    refine ⟨?_, ⟨S "no simulation endpoint for relay ", [], by simp [GoError.Error]⟩⟩
    unfold SimulateBundle
    rw [if_pos h]
  · intro hne
    have heq := SimulateBundle_eq_fbRequest keccak Sign net r b sent hne
    refine ⟨heq, ?_⟩
    intro e he
    rw [heq] at he
    exact fbRequest_error keccak Sign net r _ _ sent e he

theorem SimulateBundle_configuration_error_witness :
    (exampleClient.simulationEndpoint = [] →
      SimulateBundle exampleKeccak exampleSign exampleTransport exampleClient
          (NewBundle rawMarshal rawHash [[0xf9, 0x03]] 12345 0 none none []).1 [] =
        ((none, 0, some (GoError.new
          (S "no simulation endpoint for relay " ++ exampleClient.name))), []) ∧
      exampleClient.name <:+:
        (GoError.new (S "no simulation endpoint for relay " ++ exampleClient.name)).Error) ∧
    exampleClient.simulationEndpoint = [] :=
  ⟨(SimulateBundle_configuration_error exampleKeccak exampleSign exampleTransport exampleClient
    (NewBundle rawMarshal rawHash [[0xf9, 0x03]] 12345 0 none none []).1 []).1, rfl⟩

/-- C19: with a non-empty simulation endpoint the request `SimulateBundle` hands to the
transport is a POST to the simulation endpoint whose body is the `eth_callBundle`
payload of the bundle in which an empty or "0x0" `StateBlockNumber` is replaced by
"latest" and any other value is kept; nothing is sent when signing or building the
request fails. -/
theorem SimulateBundle_request {Key Tx : Type} (keccak : List Byte → Hash)
    (Sign : List Byte → Key → List Byte × Option GoError) (net : Transport)
    (r : RelayClient Key) (b : Bundle Tx) (sent : List Request)
    (hne : r.simulationEndpoint ≠ []) :
    (∀ signature,
      signPayload keccak Sign r
        (prepareBundlePayload r (normalizedForSimulation b) (S "eth_callBundle")).1 =
          (signature, none) →
      net.NewRequest r.simulationEndpoint = none →
      (SimulateBundle keccak Sign net r b sent).2 = sent ++
        [{ method := S "POST", url := r.simulationEndpoint,
           header := [(S "X-Flashbots-Signature",
               r.signingPublicAddress.Hex keccak ++ S ":" ++ signature),
             (S "Content-Type", S "application/json")],
           body := (prepareBundlePayload r (normalizedForSimulation b)
             (S "eth_callBundle")).1 }]) ∧
    ((signPayload keccak Sign r
        (prepareBundlePayload r (normalizedForSimulation b) (S "eth_callBundle")).1).2 ≠ none ∨
      net.NewRequest r.simulationEndpoint ≠ none →
      (SimulateBundle keccak Sign net r b sent).2 = sent) ∧
    (b.StateBlockNumber = S "" ∨ b.StateBlockNumber = S "0x0" →
      normalizedForSimulation b = { b with StateBlockNumber := S "latest" }) ∧
    (¬ (b.StateBlockNumber = S "" ∨ b.StateBlockNumber = S "0x0") →
      normalizedForSimulation b = b) := by
  have heq := SimulateBundle_eq_fbRequest keccak Sign net r b sent hne
  refine ⟨?_, ?_, ?_, ?_⟩
  · intro signature hs hn
    rw [heq]
    unfold fbRequest
    simp only [hs, hn]
    cases (net.Do sent _).doErr <;> cases (net.Do sent _).readErr <;> rfl
  · intro h
    rw [heq]
    unfold fbRequest
    rcases hs : signPayload keccak Sign r
      (prepareBundlePayload r (normalizedForSimulation b) (S "eth_callBundle")).1
      with ⟨signature, serr⟩
    cases serr with
    | some err1 => rfl
    | none =>
      rw [hs] at h
      simp only [ne_eq, not_true_eq_false, false_or] at h
      cases hn : net.NewRequest r.simulationEndpoint with
      | some err2 => rfl
      | none => exact absurd hn h
  · intro h
    unfold normalizedForSimulation
    rw [if_pos h]
  · intro h
    unfold normalizedForSimulation
    rw [if_neg h]

theorem SimulateBundle_request_witness :
    simClient.simulationEndpoint ≠ [] ∧
    (SimulateBundle exampleKeccak exampleSign exampleTransport simClient
        (Bundle.zero (List Byte)) []).2 =
      [] ++ [{ method := S "POST", url := simClient.simulationEndpoint,
               header := [(S "X-Flashbots-Signature",
                   simClient.signingPublicAddress.Hex exampleKeccak ++ S ":"
                     ++ hexutilEncode zeroHash.val),
                 (S "Content-Type", S "application/json")],
               body := (prepareBundlePayload simClient (normalizedForSimulation
                 (Bundle.zero (List Byte))) (S "eth_callBundle")).1 }] ∧
    (normalizedForSimulation (Bundle.zero (List Byte))).StateBlockNumber = S "latest" :=
  ⟨by decide, (SimulateBundle_request exampleKeccak exampleSign exampleTransport simClient
    (Bundle.zero (List Byte)) [] (by decide)).1 _ rfl rfl, rfl⟩

theorem prepareBundlePayload_text {Key Tx : Type} (r : RelayClient Key) (b : Bundle Tx)
    (method : GoString) :
    prepareBundlePayload r b method =
      (S "\x7b\"jsonrpc\":\"2.0\",\"method\":" ++ quote method ++ S ",\"params\":["
        ++ (marshalBundle b).render ++ S "],\"id\":1\x7d", none) := by
  unfold prepareBundlePayload marshalRpcPaylod
  simp only [JSON.render, renderMembers, renderElems, join]
  generalize (marshalBundle b).render = J
  generalize quote method = Q
  simp only [List.append_assoc]
  rfl

theorem join_cons_head (sep c : GoString) (l : List GoString) :
    ∃ t, join sep (c :: l) = c ++ t := by
  cases l with
  | nil => exact ⟨[], by simp [join]⟩
  | cons d l => exact ⟨sep ++ join sep (d :: l), by simp [join]⟩

theorem render_obj_third (m1 m2 : GoString × JSON) (k : GoString) (v : JSON)
    (rest : List (GoString × JSON)) :
    quote k ++ S ":" ++ v.render <:+: (JSON.obj (m1 :: m2 :: (k, v) :: rest)).render := by
  obtain ⟨k1, v1⟩ := m1
  obtain ⟨k2, v2⟩ := m2
  obtain ⟨t, ht⟩ := join_cons_head (S ",") (quote k ++ S ":" ++ v.render) (renderMembers rest)
  have hr : (JSON.obj ((k1, v1) :: (k2, v2) :: (k, v) :: rest)).render =
      (S "\x7b" ++ (quote k1 ++ S ":" ++ v1.render) ++ S "," ++ (quote k2 ++ S ":" ++ v2.render)
        ++ S ",") ++ (quote k ++ S ":" ++ v.render) ++ (t ++ S "\x7d") := by
    simp only [JSON.render, renderMembers, join]
    rw [ht]
    simp only [List.append_assoc]
  rw [hr]
  exact infix_middle _ _ _

theorem marshalBundle_render_stateBlockNumber {Tx : Type} (b : Bundle Tx)
    (h : b.StateBlockNumber ≠ []) :
    S "\"stateBlockNumber\":" ++ quote b.StateBlockNumber <:+: (marshalBundle b).render := by
  have hm : ∃ rest, marshalBundle b = JSON.obj ((S "txs", marshalStrings b.TxsByteString) ::
      (S "blockNumber", JSON.str b.BlockNumber) ::
      (S "stateBlockNumber", JSON.str b.StateBlockNumber) :: rest) := by
    unfold marshalBundle
    rw [if_neg h]
    exact ⟨_, rfl⟩
  obtain ⟨rest, hrest⟩ := hm
  rw [hrest]
  have h3 := render_obj_third (S "txs", marshalStrings b.TxsByteString)
    (S "blockNumber", JSON.str b.BlockNumber) (S "stateBlockNumber")
    (JSON.str b.StateBlockNumber) rest
  have hq : quote (S "stateBlockNumber") ++ S ":" ++ (JSON.str b.StateBlockNumber).render =
      S "\"stateBlockNumber\":" ++ quote b.StateBlockNumber := by
    simp only [JSON.render]
    rfl
  rw [hq] at h3
  exact h3

theorem marshalBundle_field_stateBlockNumber {Tx : Type} (b : Bundle Tx) :
    (marshalBundle b).field (S "stateBlockNumber") =
      if b.StateBlockNumber = [] then none else some (JSON.str b.StateBlockNumber) := by
  unfold marshalBundle
  by_cases h : b.StateBlockNumber = []
  · simp only [if_pos h]
    cases b.MinTimestamp <;> cases b.MaxTimestamp <;>
      by_cases hr : sliceLen b.RevertingTxHashes = 0 <;>
      simp only [hr, if_true, if_false, List.append_nil, List.nil_append, List.cons_append] <;>
      rfl
  · simp only [if_neg h]
    rfl

/-- C11, as amended: the JSON of a bundle built by `NewBundle` has the key
`stateBlockNumber` whatever the method: the `eth_sendBundle` payload that `SendBundle`
hands to the transport contains it, as the `eth_callBundle` payload of `SimulateBundle`
does; the key is left out only for a bundle whose `StateBlockNumber` is the empty
string, which `NewBundle` never builds. -/
theorem stateBlockNumber_in_send_payload {Key Tx : Type}
    (MarshalBinary : Tx → List Byte × Option GoError)
    (TxHash : Tx → Hash) (transactions : List Tx) (blockNumber stateBlockNumber : Nat)
    (minTimestamp maxTimestamp : Option Int) (revertingTxHashes : List Hash)
    (b : Bundle Tx) (r : RelayClient Key)
    (hb : NewBundle MarshalBinary TxHash transactions blockNumber stateBlockNumber
      minTimestamp maxTimestamp revertingTxHashes = (b, none)) :
    b.StateBlockNumber ≠ [] ∧
    (marshalBundle b).field (S "stateBlockNumber") = some (JSON.str b.StateBlockNumber) ∧
    S "\"stateBlockNumber\":" ++ quote b.StateBlockNumber <:+:
      (prepareBundlePayload r b (S "eth_sendBundle")).1 ∧
    S "\"stateBlockNumber\":" ++ quote (normalizedForSimulation b).StateBlockNumber <:+:
      (prepareBundlePayload r (normalizedForSimulation b) (S "eth_callBundle")).1 ∧
    (∀ (keccak : List Byte → Hash) (Sign : List Byte → Key → List Byte × Option GoError)
        (net : Transport) (sent : List Request) (signature : GoString),
      signPayload keccak Sign r (prepareBundlePayload r b (S "eth_sendBundle")).1 =
        (signature, none) →
      net.NewRequest r.mainEndpoint = none →
      ∃ req, (SendBundle keccak Sign net r b sent).2 = sent ++ [req] ∧
        req.url = r.mainEndpoint ∧
        req.body = (prepareBundlePayload r b (S "eth_sendBundle")).1 ∧
        S "\"stateBlockNumber\":" ++ quote b.StateBlockNumber <:+: req.body) ∧
    (∀ b2 : Bundle Tx,
      (marshalBundle b2).field (S "stateBlockNumber") = none ↔ b2.StateBlockNumber = []) := by
  have hok : (NewBundle MarshalBinary TxHash transactions blockNumber stateBlockNumber
      minTimestamp maxTimestamp revertingTxHashes).2 = none := by rw [hb]
  have hne : b.StateBlockNumber ≠ [] := by
    have h := (NewBundle_ok MarshalBinary TxHash transactions blockNumber stateBlockNumber
      minTimestamp maxTimestamp revertingTxHashes hok).2
    rw [hb] at h
    simp only at h
    rw [h]
    simp only
    by_cases h0 : stateBlockNumber = 0
    · rw [if_pos h0]; decide
    · rw [if_neg h0]; exact List.cons_ne_nil _ _
  have hsend : S "\"stateBlockNumber\":" ++ quote b.StateBlockNumber <:+:
      (prepareBundlePayload r b (S "eth_sendBundle")).1 := by
    rw [prepareBundlePayload_text]
    exact (marshalBundle_render_stateBlockNumber b hne).trans
      ⟨S "\x7b\"jsonrpc\":\"2.0\",\"method\":" ++ quote (S "eth_sendBundle")
        ++ S ",\"params\":[", S "],\"id\":1\x7d", by simp⟩
  have hne2 : (normalizedForSimulation b).StateBlockNumber ≠ [] := by
    unfold normalizedForSimulation
    simp only
    split
    · decide
    · exact hne
  refine ⟨hne, ?_, hsend, ?_, ?_, ?_⟩
  · rw [marshalBundle_field_stateBlockNumber, if_neg hne]
  · rw [prepareBundlePayload_text]
    exact (marshalBundle_render_stateBlockNumber _ hne2).trans
      ⟨S "\x7b\"jsonrpc\":\"2.0\",\"method\":" ++ quote (S "eth_callBundle")
        ++ S ",\"params\":[", S "],\"id\":1\x7d", by simp⟩
  · intro keccak Sign net sent signature hs hn
    refine ⟨{ method := S "POST", url := r.mainEndpoint,
              header := [(S "X-Flashbots-Signature",
                  r.signingPublicAddress.Hex keccak ++ S ":" ++ signature),
                (S "Content-Type", S "application/json")],
              body := (prepareBundlePayload r b (S "eth_sendBundle")).1 }, ?_, rfl, rfl, hsend⟩
    unfold SendBundle
    have hp : prepareBundlePayload r b (S "eth_sendBundle") =
        ((prepareBundlePayload r b (S "eth_sendBundle")).1, none) := rfl
    rw [hp]
    simp only
    unfold fbRequest
    simp only [hs, hn]
    cases (net.Do sent _).doErr <;> cases (net.Do sent _).readErr <;> rfl
  · intro b2
    rw [marshalBundle_field_stateBlockNumber]
    by_cases h2 : b2.StateBlockNumber = []
    · simp [h2]
    · simp [h2]

theorem stateBlockNumber_in_send_payload_witness :
    NewBundle rawMarshal rawHash [[0xf9, 0x03]] 12345 0 (some 555555) none [] =
      ((NewBundle rawMarshal rawHash [[0xf9, 0x03]] 12345 0 (some 555555) none []).1, none) ∧
    S "\"stateBlockNumber\":" ++ quote (NewBundle rawMarshal rawHash [[0xf9, 0x03]] 12345 0
        (some 555555) none []).1.StateBlockNumber <:+:
      (prepareBundlePayload exampleClient (NewBundle rawMarshal rawHash [[0xf9, 0x03]] 12345 0
        (some 555555) none []).1 (S "eth_sendBundle")).1 :=
  ⟨rfl, (stateBlockNumber_in_send_payload rawMarshal rawHash [[0xf9, 0x03]] 12345 0
    (some 555555) none [] _ exampleClient rfl).2.2.1⟩

/-- C11, as stated, fails: for the bundle of the repository's test the `eth_sendBundle`
payload is the text the test expects, which holds the key `stateBlockNumber` with the
value "latest". -/
theorem stateBlockNumber_in_send_payload_counterexample :
    (prepareBundlePayload exampleClient (NewBundle rawMarshal rawHash [[0xf9, 0x03]] 12345 0
        (some 555555) none []).1 (S "eth_sendBundle")).1 =
      S "\x7b\"jsonrpc\":\"2.0\",\"method\":\"eth_sendBundle\",\"params\":[\x7b\"txs\":[\"0xf903\"],"
        ++ S "\"blockNumber\":\"0x3039\"," ++ S "\"stateBlockNumber\":\"latest\""
        ++ S ",\"minTimestamp\":555555\x7d],\"id\":1\x7d" ∧
    (marshalBundle (NewBundle rawMarshal rawHash [[0xf9, 0x03]] 12345 0
        (some 555555) none []).1).field (S "stateBlockNumber") = some (JSON.str (S "latest")) := by
  refine ⟨?_, rfl⟩
  decide

/-! ## Claims on the batch relay client -/

theorem batchLoop_all_keys {Key : Type} (PubkeyToAddress : Key → Address)
    (names mainEndpoints : List GoString) :
    ∀ (keys : List Key) (idx : Nat) (r : List (Option (RelayClient Key))),
    batchLoop PubkeyToAddress names mainEndpoints (keys.map some) idx r =
      (some { relayClients := r ++ (keys.enumFrom idx).map fun p =>
          some (batchMember PubkeyToAddress p.2 (names.getD p.1 [])
            (mainEndpoints.getD p.1 [])) }, none) := by
  intro keys
  induction keys with
  | nil => intro idx r; simp [batchLoop]
  | cons k keys ih =>
    intro idx r
    simp only [List.map_cons, batchLoop, NewRelayClient]
    rw [ih (idx + 1)]
    simp [List.enumFrom_cons, batchMember, S]

/-- C20: `NewBatchRelayClient` returns an error and no batch client whenever the three
input sequences do not all have the same length (3 keys, 2 names, 3 endpoints for one);
when the lengths are equal and every key is non-nil it succeeds and holds one relay
client per position, the i-th built from the i-th key, name and endpoint, each with an
empty simulation endpoint. -/
theorem NewBatchRelayClient_lengths {Key : Type} (PubkeyToAddress : Key → Address)
    (signingKeys : List (Option Key)) (names mainEndpoints : List GoString) :
    ((signingKeys.length ≠ names.length ∨ signingKeys.length ≠ mainEndpoints.length ∨
        names.length ≠ mainEndpoints.length) →
      NewBatchRelayClient PubkeyToAddress signingKeys names mainEndpoints =
        (none, some (GoError.new (S "must initialize with same length slices")))) ∧
    (∀ k1 k2 k3 n1 n2 e1 e2 e3,
      NewBatchRelayClient PubkeyToAddress [k1, k2, k3] [n1, n2] [e1, e2, e3] =
        (none, some (GoError.new (S "must initialize with same length slices")))) ∧
    (∀ keys : List Key, signingKeys = keys.map some →
      keys.length = names.length → keys.length = mainEndpoints.length →
      ∃ clients, NewBatchRelayClient PubkeyToAddress signingKeys names mainEndpoints =
          (some { relayClients := clients }, none) ∧
        clients.length = keys.length ∧
        (∀ (i : Nat) k n e, keys[i]? = some k → names[i]? = some n → mainEndpoints[i]? = some e →
          clients[i]? = some (some (batchMember PubkeyToAddress k n e))) ∧
        (∀ c, some c ∈ clients → c.simulationEndpoint = [])) := by
  refine ⟨?_, ?_, ?_⟩
  · intro h
    unfold NewBatchRelayClient
    rw [if_pos]
    by_contra hc
    push_neg at hc
    omega
  · intro k1 k2 k3 n1 n2 e1 e2 e3
    rfl
  · intro keys hkeys hn he
    subst hkeys
    refine ⟨[] ++ (keys.enumFrom 0).map fun p =>
          some (batchMember PubkeyToAddress p.2 (names.getD p.1 [])
            (mainEndpoints.getD p.1 [])), ?_, ?_, ?_, ?_⟩
    · unfold NewBatchRelayClient
      rw [if_neg (by rw [List.length_map]; omega), batchLoop_all_keys]
    · simp
    · intro i k n e hk hnm hem
      simp only [List.nil_append, List.getElem?_map, List.getElem?_enumFrom, hk,
        Option.map_some', Nat.zero_add]
      have h1 : names.getD i [] = n := by simp [List.getD, hnm]
      have h2 : mainEndpoints.getD i [] = e := by simp [List.getD, hem]
      rw [h1, h2]
    · intro c hc
      simp only [List.nil_append, List.mem_map] at hc
      obtain ⟨p, _, hp⟩ := hc
      have := Option.some.inj hp
      rw [← this]
      rfl

theorem NewBatchRelayClient_lengths_witness :
    ([some (), some ()] : List (Option Unit)) = [(), ()].map some ∧
    (∃ clients, NewBatchRelayClient unitAddress
          [some (), some ()] [S "a", S "b"] [S "https://a.example", S "https://b.example"] =
          (some { relayClients := clients }, none) ∧
        clients.length = [(), ()].length ∧
        (∀ (i : Nat) k n e, [(), ()][i]? = some k → [S "a", S "b"][i]? = some n →
          [S "https://a.example", S "https://b.example"][i]? = some e →
          clients[i]? = some (some (batchMember
            unitAddress k n e))) ∧
        (∀ c, some c ∈ clients → c.simulationEndpoint = [])) :=
  ⟨rfl, (NewBatchRelayClient_lengths unitAddress
    [some (), some ()] [S "a", S "b"] [S "https://a.example", S "https://b.example"]).2.2
    [(), ()] rfl rfl rfl⟩

/-! ## Claims on bundle stats, reverting hashes and the relay client constructor -/

set_option maxRecDepth 4000 in
theorem htmlSafe_of_hexTextChars (c : Byte) (h : c ∈ hexTextChars) :
    c.val < 0x80 ∧ htmlSafe c = true := by
  have key : ∀ d ∈ hexTextChars, d.val < 0x80 ∧ htmlSafe d = true := by decide
  exact key c h

theorem quoteFrom_safe : ∀ s : GoString, (∀ c ∈ s, c.val < 0x80 ∧ htmlSafe c = true) →
    quoteFrom 0 s = s := by
  intro s
  induction s with
  | nil => intro _; rfl
  | cons b rest ih =>
    intro h
    have hb := h b (List.mem_cons_self _ _)
    have hrest := ih (fun c hc => h c (List.mem_cons_of_mem _ hc))
    simp only [quoteFrom, hb.1, hb.2, if_true, hrest]
    rfl

theorem quote_hexText (s : GoString) (h : ∀ c ∈ s, c ∈ hexTextChars) :
    quote s = S "\"" ++ s ++ S "\"" := by
  unfold quote
  rw [quoteFrom_safe s (fun c hc => htmlSafe_of_hexTextChars c (h c hc))]

/-- C22, as amended: for hex texts `bundleHash` and `blockNumber` the request body built
for `GetBundleStats` is the envelope whose `params` holds one object with exactly the
keys `blockNumber` and `bundleHash`, written in this order, the sorted order in which
`json.Marshal` writes the keys of a map. -/
theorem prepareBundleStatsPayload_text {Key : Type} (r : RelayClient Key)
    (bundleHash blockNumber : GoString)
    (hh : ∀ c ∈ bundleHash, c ∈ hexTextChars) (hn : ∀ c ∈ blockNumber, c ∈ hexTextChars) :
    prepareBundleStatsPayload r bundleHash blockNumber (S "flashbots_getBundleStats") =
      (S "\x7b\"jsonrpc\":\"2.0\",\"method\":\"flashbots_getBundleStats\",\"params\":[\x7b"
        ++ S "\"blockNumber\":\"" ++ blockNumber ++ S "\",\"bundleHash\":\"" ++ bundleHash
        ++ S "\"\x7d],\"id\":1\x7d", none) ∧
    marshalStringMap [(S "bundleHash", bundleHash), (S "blockNumber", blockNumber)] =
      JSON.obj [(S "blockNumber", JSON.str blockNumber), (S "bundleHash", JSON.str bundleHash)] ∧
    (∀ {Stats : Type} (keccak : List Byte → Hash)
        (Sign : List Byte → Key → List Byte × Option GoError) (net : Transport) (zero : Stats)
        (UnmarshalStats : List Byte → Stats × Option GoError) (sent : List Request)
        (signature : GoString),
      signPayload keccak Sign r (prepareBundleStatsPayload r bundleHash blockNumber
        (S "flashbots_getBundleStats")).1 = (signature, none) →
      net.NewRequest r.mainEndpoint = none →
      ∃ req, (GetBundleStats keccak Sign net zero UnmarshalStats r bundleHash blockNumber
          sent).2 = sent ++ [req] ∧
        req.url = r.mainEndpoint ∧
        req.body = (prepareBundleStatsPayload r bundleHash blockNumber
          (S "flashbots_getBundleStats")).1) := by
  have hmap : marshalStringMap [(S "bundleHash", bundleHash), (S "blockNumber", blockNumber)] =
      JSON.obj [(S "blockNumber", JSON.str blockNumber),
        (S "bundleHash", JSON.str bundleHash)] := rfl
  refine ⟨?_, hmap, ?_⟩
  · unfold prepareBundleStatsPayload marshalRpcPaylod
    simp only [hmap, JSON.render, renderMembers, renderElems, join, quote_hexText _ hh,
      quote_hexText _ hn, List.append_assoc]
    rfl
  · intro Stats keccak Sign net zero UnmarshalStats sent signature hs hnr
    refine ⟨{ method := S "POST", url := r.mainEndpoint,
              header := [(S "X-Flashbots-Signature",
                  r.signingPublicAddress.Hex keccak ++ S ":" ++ signature),
                (S "Content-Type", S "application/json")],
              body := (prepareBundleStatsPayload r bundleHash blockNumber
                (S "flashbots_getBundleStats")).1 }, ?_, rfl, rfl⟩
    unfold GetBundleStats
    have hp : prepareBundleStatsPayload r bundleHash blockNumber
        (S "flashbots_getBundleStats") =
        ((prepareBundleStatsPayload r bundleHash blockNumber
          (S "flashbots_getBundleStats")).1, none) := rfl
    rw [hp]
    simp only [RelayClient.MainEndpoint]
    unfold fbRequest
    simp only [hs, hnr]
    generalize net.Do sent _ = x
    rcases x with ⟨elapsed, doErr, body, readErr⟩
    cases doErr with
    | some e1 => rfl
    | none =>
      cases readErr with
      | some e2 => rfl
      | none =>
        simp only [Option.getD]
        rcases UnmarshalStats body with ⟨st, e⟩
        cases e <;> rfl

set_option maxRecDepth 4000 in
theorem prepareBundleStatsPayload_text_witness :
    (∀ c ∈ S "0x48f1df", c ∈ hexTextChars) ∧ (∀ c ∈ S "0xc73a46", c ∈ hexTextChars) ∧
    prepareBundleStatsPayload exampleClient (S "0x48f1df") (S "0xc73a46")
        (S "flashbots_getBundleStats") =
      (S "\x7b\"jsonrpc\":\"2.0\",\"method\":\"flashbots_getBundleStats\",\"params\":[\x7b"
        ++ S "\"blockNumber\":\"" ++ S "0xc73a46" ++ S "\",\"bundleHash\":\"" ++ S "0x48f1df"
        ++ S "\"\x7d],\"id\":1\x7d", none) :=
  ⟨by decide, by decide, (prepareBundleStatsPayload_text exampleClient (S "0x48f1df")
    (S "0xc73a46") (by decide) (by decide)).1⟩

set_option maxRecDepth 4000 in
/-- C22, as stated, fails: for the bundle hash "0x48f1df" and the block number
"0xc73a46" the body has `blockNumber` before `bundleHash`, so it is not the text with
`bundleHash` first. -/
theorem prepareBundleStatsPayload_text_counterexample :
    (prepareBundleStatsPayload exampleClient (S "0x48f1df") (S "0xc73a46")
        (S "flashbots_getBundleStats")).1 =
      S "\x7b\"jsonrpc\":\"2.0\",\"method\":\"flashbots_getBundleStats\",\"params\":[\x7b"
        ++ S "\"blockNumber\":\"0xc73a46\",\"bundleHash\":\"0x48f1df\""
        ++ S "\x7d],\"id\":1\x7d" ∧
    (prepareBundleStatsPayload exampleClient (S "0x48f1df") (S "0xc73a46")
        (S "flashbots_getBundleStats")).1 ≠
      S "\x7b\"jsonrpc\":\"2.0\",\"method\":\"flashbots_getBundleStats\",\"params\":[\x7b"
        ++ S "\"bundleHash\":\"0x48f1df\",\"blockNumber\":\"0xc73a46\""
        ++ S "\x7d],\"id\":1\x7d" := by
  decide

/-- C25: after a successful `NewBundle`, `RevertingTxHashes` has the length of the list
of hashes and holds at each index the hex string of the hash at that index, "0x" and 64
lowercase digits, so order and duplicates are kept; no hash gives the empty list. -/
theorem NewBundle_RevertingTxHashes {Tx : Type}
    (MarshalBinary : Tx → List Byte × Option GoError)
    (TxHash : Tx → Hash) (transactions : List Tx) (blockNumber stateBlockNumber : Nat)
    (minTimestamp maxTimestamp : Option Int) (revertingTxHashes : List Hash)
    (hok : (NewBundle MarshalBinary TxHash transactions blockNumber stateBlockNumber
      minTimestamp maxTimestamp revertingTxHashes).2 = none) :
    (NewBundle MarshalBinary TxHash transactions blockNumber stateBlockNumber
      minTimestamp maxTimestamp revertingTxHashes).1.RevertingTxHashes =
        some (revertingTxHashes.map fun h => S "0x" ++ lowerHex h.val) ∧
    sliceLen (NewBundle MarshalBinary TxHash transactions blockNumber stateBlockNumber
      minTimestamp maxTimestamp revertingTxHashes).1.RevertingTxHashes =
        revertingTxHashes.length ∧
    (∀ (i : Nat) (h : Hash), revertingTxHashes[i]? = some h →
      ∃ texts, (NewBundle MarshalBinary TxHash transactions blockNumber stateBlockNumber
          minTimestamp maxTimestamp revertingTxHashes).1.RevertingTxHashes = some texts ∧
        texts[i]? = some (S "0x" ++ lowerHex h.val) ∧ h.Hex = S "0x" ++ lowerHex h.val ∧
        (S "0x" ++ lowerHex h.val).length = 66) ∧
    (revertingTxHashes = [] →
      (NewBundle MarshalBinary TxHash transactions blockNumber stateBlockNumber
        minTimestamp maxTimestamp revertingTxHashes).1.RevertingTxHashes = some []) := by
  obtain ⟨_, hb⟩ := NewBundle_ok MarshalBinary TxHash transactions blockNumber
    stateBlockNumber minTimestamp maxTimestamp revertingTxHashes hok
  have hmap : revertingTxHashes.map Hash.Hex =
      revertingTxHashes.map fun h => S "0x" ++ lowerHex h.val := by
    apply List.map_congr_left
    intro h _
    exact hexutilEncode_eq h.val
  have hR : (NewBundle MarshalBinary TxHash transactions blockNumber stateBlockNumber
      minTimestamp maxTimestamp revertingTxHashes).1.RevertingTxHashes =
        some (revertingTxHashes.map fun h => S "0x" ++ lowerHex h.val) := by
    rw [hb]
    exact congrArg some hmap
  refine ⟨hR, ?_, ?_, ?_⟩
  · rw [hR]
    show (revertingTxHashes.map _).length = _
    rw [List.length_map]
  · intro i h hi
    refine ⟨_, hR, ?_, hexutilEncode_eq h.val, ?_⟩
    · rw [List.getElem?_map, hi]
      rfl
    · rw [← hexutilEncode_eq]
      exact Hash_Hex_length h
  · intro hnil
    rw [hR, hnil]
    rfl

theorem NewBundle_RevertingTxHashes_witness :
    (NewBundle rawMarshal rawHash [[0xf9, 0x03]] 1000 0 none none [zeroHash, zeroHash]).2 =
      none ∧
    (NewBundle rawMarshal rawHash [[0xf9, 0x03]] 1000 0 none none
      [zeroHash, zeroHash]).1.RevertingTxHashes =
        some ([zeroHash, zeroHash].map fun h => S "0x" ++ lowerHex h.val) ∧
    sliceLen (NewBundle rawMarshal rawHash [[0xf9, 0x03]] 1000 0 none none
      [zeroHash, zeroHash]).1.RevertingTxHashes = [zeroHash, zeroHash].length :=
  have h := NewBundle_RevertingTxHashes rawMarshal rawHash [[0xf9, 0x03]] 1000 0 none none
    [zeroHash, zeroHash] (by decide)
  ⟨by decide, h.1, h.2.1⟩

/-- C26: `NewRelayClient` returns an error and no client exactly when the signing key is
nil; for a non-nil key it succeeds for any name and endpoints, and on the client `Name`,
`MainEndpoint` and `SimulationEndpoint` return the arguments and `SigningAddress`
returns the address derived from the key. -/
theorem NewRelayClient_result {Key : Type} (PubkeyToAddress : Key → Address)
    (signingPrivateKey : Option Key) (name mainEndpoint simulationEndpoint : GoString) :
    ((NewRelayClient PubkeyToAddress signingPrivateKey name mainEndpoint
        simulationEndpoint).2 ≠ none ↔ signingPrivateKey = none) ∧
    (signingPrivateKey = none →
      NewRelayClient PubkeyToAddress signingPrivateKey name mainEndpoint simulationEndpoint =
        (none, some (GoError.new (S "must provide a signingPrivateKey")))) ∧
    (∀ key, signingPrivateKey = some key →
      ∃ r, NewRelayClient PubkeyToAddress signingPrivateKey name mainEndpoint
          simulationEndpoint = (some r, none) ∧
        r.Name = name ∧ r.MainEndpoint = mainEndpoint ∧
        r.SimulationEndpoint = simulationEndpoint ∧
        r.SigningAddress = PubkeyToAddress key ∧ r.signingPrivateKey = key) ∧
    (∀ key, ∃ r, NewRelayClient PubkeyToAddress (some key) [] [] [] = (some r, none)) := by
  refine ⟨?_, ?_, ?_, ?_⟩
  · cases signingPrivateKey <;> simp [NewRelayClient]
  · intro h
    rw [h]
    rfl
  · intro key h
    rw [h]
    exact ⟨_, rfl, rfl, rfl, rfl, rfl, rfl⟩
  · intro key
    exact ⟨_, rfl⟩

theorem prepareBundlePayload_bytes {Key Tx : Type} (r : RelayClient Key) (b : Bundle Tx)
    (method : GoString)
    (hm : method = S "eth_sendBundle" ∨ method = S "eth_callBundle") :
    (prepareBundlePayload r b method).1 =
      S "\x7b\"jsonrpc\":\"2.0\",\"method\":\"" ++ method ++ S "\",\"params\":["
        ++ (marshalBundle b).render ++ S "],\"id\":1\x7d" := by
  unfold prepareBundlePayload marshalRpcPaylod
  simp only [JSON.render, renderMembers, renderElems, join]
  generalize (marshalBundle b).render = J
  rcases hm with hm | hm <;> subst hm <;> simp only [List.append_assoc] <;> rfl

theorem fbRequest_log {Key : Type} (keccak : List Byte → Hash)
    (Sign : List Byte → Key → List Byte × Option GoError) (net : Transport)
    (r : RelayClient Key) (endpoint : GoString) (payload : List Byte) (sent : List Request) :
    (fbRequest keccak Sign net r endpoint payload sent).2 = sent ∨
    ∃ req, (fbRequest keccak Sign net r endpoint payload sent).2 = sent ++ [req] ∧
      req.url = endpoint ∧ req.body = payload := by
  unfold fbRequest
  rcases signPayload keccak Sign r payload with ⟨signature, serr⟩
  cases serr with
  | some e => exact Or.inl rfl
  | none =>
    simp only
    cases net.NewRequest endpoint with
    | some e => exact Or.inl rfl
    | none =>
      right
      simp only
      generalize hx : net.Do sent _ = x
      rcases x with ⟨elapsed, doErr, body, readErr⟩
      cases doErr <;> cases readErr <;> exact ⟨_, rfl, rfl, rfl⟩

/-- C28: the `StateBlockNumber` of a bundle built by `NewBundle` is never empty and never
"0x0", so the rewrite in `SimulateBundle` leaves the bundle as it is, and the
`eth_callBundle` body of `SimulateBundle` and the `eth_sendBundle` body of `SendBundle`
are the same text around the method name. -/
theorem send_and_simulate_bodies {Key Tx : Type}
    (MarshalBinary : Tx → List Byte × Option GoError)
    (TxHash : Tx → Hash) (transactions : List Tx) (blockNumber stateBlockNumber : Nat)
    (minTimestamp maxTimestamp : Option Int) (revertingTxHashes : List Hash)
    (b : Bundle Tx) (r : RelayClient Key)
    (hsbn : stateBlockNumber < 2 ^ 64)
    (hb : NewBundle MarshalBinary TxHash transactions blockNumber stateBlockNumber
      minTimestamp maxTimestamp revertingTxHashes = (b, none)) :
    b.StateBlockNumber ≠ S "" ∧ b.StateBlockNumber ≠ S "0x0" ∧
    normalizedForSimulation b = b ∧
    (prepareBundlePayload r b (S "eth_sendBundle")).1 =
      S "\x7b\"jsonrpc\":\"2.0\",\"method\":\"" ++ S "eth_sendBundle" ++ S "\",\"params\":["
        ++ (marshalBundle b).render ++ S "],\"id\":1\x7d" ∧
    (prepareBundlePayload r (normalizedForSimulation b) (S "eth_callBundle")).1 =
      S "\x7b\"jsonrpc\":\"2.0\",\"method\":\"" ++ S "eth_callBundle" ++ S "\",\"params\":["
        ++ (marshalBundle b).render ++ S "],\"id\":1\x7d" ∧
    (∀ (keccak : List Byte → Hash) (Sign : List Byte → Key → List Byte × Option GoError)
        (net : Transport) (sent : List Request),
      (∀ req ∈ (SendBundle keccak Sign net r b sent).2, req ∈ sent ∨
        req.body = S "\x7b\"jsonrpc\":\"2.0\",\"method\":\"" ++ S "eth_sendBundle"
          ++ S "\",\"params\":[" ++ (marshalBundle b).render ++ S "],\"id\":1\x7d") ∧
      (∀ req ∈ (SimulateBundle keccak Sign net r b sent).2, req ∈ sent ∨
        req.body = S "\x7b\"jsonrpc\":\"2.0\",\"method\":\"" ++ S "eth_callBundle"
          ++ S "\",\"params\":[" ++ (marshalBundle b).render ++ S "],\"id\":1\x7d")) := by
  have hok : (NewBundle MarshalBinary TxHash transactions blockNumber stateBlockNumber
      minTimestamp maxTimestamp revertingTxHashes).2 = none := by rw [hb]
  have hS : b.StateBlockNumber =
      if stateBlockNumber = 0 then S "latest" else S "0x" ++ hexNumeral stateBlockNumber := by
    have h := (NewBundle_ok MarshalBinary TxHash transactions blockNumber stateBlockNumber
      minTimestamp maxTimestamp revertingTxHashes hok).2
    rw [hb] at h
    simp only at h
    rw [h, FormatUint_hex stateBlockNumber hsbn]
  have hne1 : b.StateBlockNumber ≠ S "" := by
    rw [hS]
    by_cases h0 : stateBlockNumber = 0
    · rw [if_pos h0]; decide
    · rw [if_neg h0]; exact List.cons_ne_nil _ _
  have hne2 : b.StateBlockNumber ≠ S "0x0" := by
    rw [hS]
    by_cases h0 : stateBlockNumber = 0
    · rw [if_pos h0]; decide
    · rw [if_neg h0]
      intro heq
      have h1 : hexNumeral stateBlockNumber = S "0" :=
        List.append_cancel_left (heq.trans (rfl : S "0x0" = S "0x" ++ S "0"))
      apply hexNumeral_no_leading_zero stateBlockNumber h0
      rw [h1]
      rfl
  have hnorm : normalizedForSimulation b = b := by
    unfold normalizedForSimulation
    rw [if_neg (by
      intro h
      rcases h with h | h
      · exact hne1 h
      · exact hne2 h)]
  have hsend := prepareBundlePayload_bytes r b (S "eth_sendBundle") (Or.inl rfl)
  have hcall := prepareBundlePayload_bytes r b (S "eth_callBundle") (Or.inr rfl)
  refine ⟨hne1, hne2, hnorm, hsend, by rw [hnorm]; exact hcall, ?_⟩
  intro keccak Sign net sent
  refine ⟨?_, ?_⟩
  · intro req hreq
    have hS2 : SendBundle keccak Sign net r b sent =
        (⟨(fbRequest keccak Sign net r r.mainEndpoint
            (prepareBundlePayload r b (S "eth_sendBundle")).1 sent).1.1,
          (fbRequest keccak Sign net r r.mainEndpoint
            (prepareBundlePayload r b (S "eth_sendBundle")).1 sent).1.2.1,
          (fbRequest keccak Sign net r r.mainEndpoint
            (prepareBundlePayload r b (S "eth_sendBundle")).1 sent).1.2.2⟩,
         (fbRequest keccak Sign net r r.mainEndpoint
            (prepareBundlePayload r b (S "eth_sendBundle")).1 sent).2) := rfl
    rw [hS2] at hreq
    rcases fbRequest_log keccak Sign net r r.mainEndpoint _ sent with h | ⟨q, hq, _, hbody⟩
    · left
      rw [h] at hreq
      exact hreq
    · rw [hq] at hreq
      rcases List.mem_append.mp hreq with h | h
      · exact Or.inl h
      · right
        rw [List.mem_singleton.mp h, hbody, hsend]
  · intro req hreq
    by_cases hep : r.simulationEndpoint = []
    · left
      have : SimulateBundle keccak Sign net r b sent =
          ((none, 0, some (GoError.new (S "no simulation endpoint for relay " ++ r.name))),
            sent) := by
        unfold SimulateBundle
        rw [if_pos hep]
      rw [this] at hreq
      exact hreq
    · rw [SimulateBundle_eq_fbRequest keccak Sign net r b sent hep, hnorm] at hreq
      rcases fbRequest_log keccak Sign net r r.simulationEndpoint _ sent with
        h | ⟨q, hq, _, hbody⟩
      · left
        rw [h] at hreq
        exact hreq
      · rw [hq] at hreq
        rcases List.mem_append.mp hreq with h | h
        · exact Or.inl h
        · right
          rw [List.mem_singleton.mp h, hbody, hcall]

theorem send_and_simulate_bodies_witness :
    (0 : Nat) < 2 ^ 64 ∧
    NewBundle rawMarshal rawHash [[0xf9, 0x03]] 12345 0 (some 555555) none [] =
      ((NewBundle rawMarshal rawHash [[0xf9, 0x03]] 12345 0 (some 555555) none []).1, none) ∧
    normalizedForSimulation
        (NewBundle rawMarshal rawHash [[0xf9, 0x03]] 12345 0 (some 555555) none []).1 =
      (NewBundle rawMarshal rawHash [[0xf9, 0x03]] 12345 0 (some 555555) none []).1 ∧
    (prepareBundlePayload simClient (normalizedForSimulation
        (NewBundle rawMarshal rawHash [[0xf9, 0x03]] 12345 0 (some 555555) none []).1)
        (S "eth_callBundle")).1 =
      S "\x7b\"jsonrpc\":\"2.0\",\"method\":\"" ++ S "eth_callBundle" ++ S "\",\"params\":["
        ++ (marshalBundle (NewBundle rawMarshal rawHash [[0xf9, 0x03]] 12345 0 (some 555555)
          none []).1).render ++ S "],\"id\":1\x7d" :=
  have h := send_and_simulate_bodies rawMarshal rawHash [[0xf9, 0x03]] 12345 0 (some 555555)
    none [] _ simClient (by norm_num) rfl
  ⟨by norm_num, rfl, h.2.2.1, h.2.2.2.2.1⟩

/-! ## Claims on precedence and on entries that are not objects -/

theorem mapIndex_mapDelete (m : GoMap) (key other : GoString) (h : other ≠ key) :
    mapIndex (mapDelete m key) other = mapIndex m other := by
  induction m with
  | nil => rfl
  | cons e rest ih =>
    obtain ⟨k, v⟩ := e
    unfold mapDelete at ih ⊢
    by_cases hk : k = key
    · subst hk
      have hne : ¬ k = other := fun hc => h hc.symm
      simp only [List.filter_cons, bne_self_eq_false, Bool.false_eq_true, if_false, mapIndex,
        hne]
      exact ih
    · have hb : (k != key) = true := by simpa using hk
      simp only [List.filter_cons, hb, if_true, mapIndex]
      rw [ih]

theorem mapIndex_mapDelete_self (m : GoMap) (key : GoString) :
    mapIndex (mapDelete m key) key = (GoVal.nil, false) := by
  induction m with
  | nil => rfl
  | cons e rest ih =>
    obtain ⟨k, v⟩ := e
    unfold mapDelete at ih ⊢
    by_cases hk : k = key
    · subst hk
      simp only [List.filter_cons, bne_self_eq_false, Bool.false_eq_true, if_false]
      exact ih
    · have hb : (k != key) = true := by simpa using hk
      simp only [List.filter_cons, hb, if_true, mapIndex, hk, if_false]
      exact ih

theorem ExtractExecutionError_of_result (Unmarshal : List Byte → GoMap × Option GoError)
    (bytes : List Byte) (resp result : GoMap)
    (hu : Unmarshal bytes = (resp, none))
    (hr : (mapIndex resp (S "result")).1 = GoVal.map result) :
    ExtractExecutionErrorFromSendBundleResponse Unmarshal bytes =
      match (mapIndex result (S "results")).1 with
      | GoVal.slice txResults => executionErrorLoop txResults (some [])
      | _ => Outcome.ret (some []) := by
  unfold ExtractExecutionErrorFromSendBundleResponse unmarshalBodyBytesToGenericMap
  simp only [hu, hr]

/-- C29: an object-valued `result` takes precedence over a top-level `error`: whether
or not the response has an `error` key, and whatever is under it, the outcome is
determined by `result.results` alone (the empty list when `results` is missing, is not
an array or holds no failing entry), and it equals the outcome for the same response
without the `error` key. -/
theorem ExtractExecutionError_result_precedence
    (Unmarshal : List Byte → GoMap × Option GoError)
    (bytes : List Byte) (resp result : GoMap)
    (hu : Unmarshal bytes = (resp, none))
    (hr : (mapIndex resp (S "result")).1 = GoVal.map result) :
    (∀ (Unmarshal2 : List Byte → GoMap × Option GoError) (bytes2 : List Byte),
      Unmarshal2 bytes2 = (mapDelete resp (S "error"), none) →
      ExtractExecutionErrorFromSendBundleResponse Unmarshal2 bytes2 =
        ExtractExecutionErrorFromSendBundleResponse Unmarshal bytes) ∧
    (mapIndex (mapDelete resp (S "error")) (S "error")).2 = false ∧
    (∀ (Unmarshal2 : List Byte → GoMap × Option GoError) (bytes2 : List Byte)
        (resp2 result2 : GoMap),
      Unmarshal2 bytes2 = (resp2, none) →
      (mapIndex resp2 (S "result")).1 = GoVal.map result2 →
      (mapIndex result2 (S "results")).1 = (mapIndex result (S "results")).1 →
      ExtractExecutionErrorFromSendBundleResponse Unmarshal2 bytes2 =
        ExtractExecutionErrorFromSendBundleResponse Unmarshal bytes) ∧
    ((∀ entries, (mapIndex result (S "results")).1 ≠ GoVal.slice entries) →
      ExtractExecutionErrorFromSendBundleResponse Unmarshal bytes = Outcome.ret (some [])) ∧
    (∀ entries, (mapIndex result (S "results")).1 = GoVal.slice entries →
      (∀ entry ∈ entries, ∃ tx, entry = GoVal.map tx ∧ hasFailure (GoVal.map tx) = false) →
      ExtractExecutionErrorFromSendBundleResponse Unmarshal bytes = Outcome.ret (some [])) := by
  have hmain := ExtractExecutionError_of_result Unmarshal bytes resp result hu hr
  have hsame : ∀ (Unmarshal2 : List Byte → GoMap × Option GoError) (bytes2 : List Byte)
      (resp2 result2 : GoMap), Unmarshal2 bytes2 = (resp2, none) →
      (mapIndex resp2 (S "result")).1 = GoVal.map result2 →
      (mapIndex result2 (S "results")).1 = (mapIndex result (S "results")).1 →
      ExtractExecutionErrorFromSendBundleResponse Unmarshal2 bytes2 =
        ExtractExecutionErrorFromSendBundleResponse Unmarshal bytes := by
    intro U2 b2 resp2 result2 hu2 hr2 hres
    rw [hmain, ExtractExecutionError_of_result U2 b2 resp2 result2 hu2 hr2, hres]
  refine ⟨?_, ?_, hsame, ?_, ?_⟩
  · intro U2 b2 hu2
    refine hsame U2 b2 _ result hu2 ?_ rfl
    rw [mapIndex_mapDelete resp (S "error") (S "result") (by decide), hr]
  · rw [mapIndex_mapDelete_self]
  · intro h
    rw [hmain]
    cases hres : (mapIndex result (S "results")).1 with
    | slice entries => exact absurd hres (h entries)
    | _ => rfl
  · intro entries hres hall
    rw [hmain, hres]
    simp only
    rw [executionErrorLoop_objects entries [] (fun e he => ⟨_, (hall e he).choose_spec.1⟩)]
    have hnone : entries.filter hasFailure = [] := by
      rw [List.filter_eq_nil_iff]
      intro e he
      obtain ⟨tx, htx, h1⟩ := hall e he
      subst htx
      simp [h1]
    rw [hnone]
    rfl

theorem ExtractExecutionError_result_precedence_witness :
    constUnmarshal ((S "error", GoVal.string (S "boom")) :: gasResponse) [] =
      ((S "error", GoVal.string (S "boom")) :: gasResponse, none) ∧
    ExtractExecutionErrorFromSendBundleResponse (constUnmarshal gasResponse) [] =
      ExtractExecutionErrorFromSendBundleResponse
        (constUnmarshal ((S "error", GoVal.string (S "boom")) :: gasResponse)) [] :=
  ⟨rfl, (ExtractExecutionError_result_precedence
    (constUnmarshal ((S "error", GoVal.string (S "boom")) :: gasResponse)) []
    ((S "error", GoVal.string (S "boom")) :: gasResponse)
    [(S "bundleHash", .string (S "0x0d1b53154e29")),
      (S "results", .slice [.map [(S "txHash", .string (S "0x0a9e21a9c0dd"))]]),
      (S "totalGasUsed", .float64 ⟨false, S "243051", 6⟩)]
    rfl rfl).1 (constUnmarshal gasResponse) [] rfl⟩

theorem executionErrorLoop_non_object (bad : GoVal) (post : List GoVal)
    (hbad : ∀ tx, bad ≠ GoVal.map tx) :
    ∀ (pre : List GoVal) (errs : Option (List GoError)),
    (∀ entry ∈ pre, ∃ tx, entry = GoVal.map tx) →
    executionErrorLoop (pre ++ bad :: post) errs =
      Outcome.panic (assertionPanic bad (S "map[string]interface \x7b\x7d")) := by
  intro pre
  induction pre with
  | nil =>
    intro errs _
    cases bad with
    | map tx => exact absurd rfl (hbad tx)
    | _ => rfl
  | cons entry pre ih =>
    intro errs hall
    obtain ⟨tx, htx⟩ := hall entry (List.mem_cons_self _ _)
    subst htx
    have hrest : ∀ e ∈ pre, ∃ tx, e = GoVal.map tx :=
      fun e he => hall e (List.mem_cons_of_mem _ he)
    show executionErrorLoop (GoVal.map tx :: (pre ++ bad :: post)) errs = _
    rw [executionErrorLoop]
    simp only
    split
    · exact ih _ hrest
    · exact ih _ hrest

theorem exists_first_non_object : ∀ entries : List GoVal,
    (¬ ∀ entry ∈ entries, ∃ tx, entry = GoVal.map tx) →
    ∃ pre bad post, entries = pre ++ bad :: post ∧
      (∀ entry ∈ pre, ∃ tx, entry = GoVal.map tx) ∧ ∀ tx, bad ≠ GoVal.map tx := by
  intro entries
  induction entries with
  | nil => intro h; exact absurd (by simp) h
  | cons e rest ih =>
    intro h
    by_cases he : ∃ tx, e = GoVal.map tx
    · have hrest : ¬ ∀ entry ∈ rest, ∃ tx, entry = GoVal.map tx := by
        intro hall
        apply h
        intro entry hentry
        rcases List.mem_cons.mp hentry with h1 | h1
        · rw [h1]; exact he
        · exact hall entry h1
      obtain ⟨pre, bad, post, heq, hpre, hbad⟩ := ih hrest
      refine ⟨e :: pre, bad, post, by rw [heq]; rfl, ?_, hbad⟩
      intro entry hentry
      rcases List.mem_cons.mp hentry with h1 | h1
      · rw [h1]; exact he
      · exact hpre entry h1
    · refine ⟨[], e, rest, rfl, by simp, ?_⟩
      intro tx htx
      exact he ⟨tx, htx⟩

/-- C30: on a response whose `result` is an object the call returns normally exactly when
`result.results` is not an array or every element of the array is an object; if some
element is not an object the call panics on the assertion for the first such element,
also when earlier entries already gave errors. -/
theorem ExtractExecutionError_returns_iff (Unmarshal : List Byte → GoMap × Option GoError)
    (bytes : List Byte) (resp result : GoMap)
    (hu : Unmarshal bytes = (resp, none))
    (hr : (mapIndex resp (S "result")).1 = GoVal.map result) :
    ((∃ errs, ExtractExecutionErrorFromSendBundleResponse Unmarshal bytes = Outcome.ret errs) ↔
      ((∀ entries, (mapIndex result (S "results")).1 ≠ GoVal.slice entries) ∨
        ∃ entries, (mapIndex result (S "results")).1 = GoVal.slice entries ∧
          ∀ entry ∈ entries, ∃ tx, entry = GoVal.map tx)) ∧
    (∀ pre bad post, (mapIndex result (S "results")).1 = GoVal.slice (pre ++ bad :: post) →
      (∀ entry ∈ pre, ∃ tx, entry = GoVal.map tx) → (∀ tx, bad ≠ GoVal.map tx) →
      ExtractExecutionErrorFromSendBundleResponse Unmarshal bytes =
        Outcome.panic (assertionPanic bad (S "map[string]interface \x7b\x7d"))) ∧
    (∀ other : List Byte,
      ExtractExecutionErrorFromSendBundleResponse
          (constUnmarshal [(S "result", GoVal.map [(S "results", GoVal.slice
            [GoVal.map [(S "error", GoVal.string (S "execution reverted"))],
              GoVal.string (S "oops")])])]) other =
        Outcome.panic (assertionPanic (GoVal.string (S "oops"))
          (S "map[string]interface \x7b\x7d"))) := by
  have hmain := ExtractExecutionError_of_result Unmarshal bytes resp result hu hr
  have hpanic : ∀ pre bad post,
      (mapIndex result (S "results")).1 = GoVal.slice (pre ++ bad :: post) →
      (∀ entry ∈ pre, ∃ tx, entry = GoVal.map tx) → (∀ tx, bad ≠ GoVal.map tx) →
      ExtractExecutionErrorFromSendBundleResponse Unmarshal bytes =
        Outcome.panic (assertionPanic bad (S "map[string]interface \x7b\x7d")) := by
    intro pre bad post hres hpre hbad
    rw [hmain, hres]
    exact executionErrorLoop_non_object bad post hbad pre _ hpre
  refine ⟨⟨?_, ?_⟩, hpanic, fun _ => rfl⟩
  · rintro ⟨errs, herrs⟩
    by_contra hcon
    push_neg at hcon
    obtain ⟨hex, hall⟩ := hcon
    obtain ⟨entries, hentries⟩ := hex
    obtain ⟨pre, bad, post, heq, hpre, hbad⟩ :=
      exists_first_non_object entries (by
        intro h
        obtain ⟨entry, hmem, hno⟩ := hall entries hentries
        exact hno _ (h entry hmem).choose_spec)
    rw [hpanic pre bad post (by rw [hentries, heq]) hpre hbad] at herrs
    cases herrs
  · rintro (h | ⟨entries, hentries, hall⟩)
    · refine ⟨some [], ?_⟩
      rw [hmain]
      cases hres : (mapIndex result (S "results")).1 with
      | slice entries => exact absurd hres (h entries)
      | _ => rfl
    · refine ⟨some ([] ++ (entries.filter hasFailure).map entryError), ?_⟩
      rw [hmain, hentries]
      exact executionErrorLoop_objects entries [] hall

theorem ExtractExecutionError_returns_iff_witness :
    constUnmarshal [(S "result", GoVal.map [(S "results", GoVal.slice
        [GoVal.map [(S "error", GoVal.string (S "execution reverted"))],
          GoVal.float64 ⟨false, S "1", 1⟩])])] [] =
      ([(S "result", GoVal.map [(S "results", GoVal.slice
        [GoVal.map [(S "error", GoVal.string (S "execution reverted"))],
          GoVal.float64 ⟨false, S "1", 1⟩])])], none) ∧
    ExtractExecutionErrorFromSendBundleResponse
        (constUnmarshal [(S "result", GoVal.map [(S "results", GoVal.slice
          [GoVal.map [(S "error", GoVal.string (S "execution reverted"))],
            GoVal.float64 ⟨false, S "1", 1⟩])])]) [] =
      Outcome.panic (assertionPanic (GoVal.float64 ⟨false, S "1", 1⟩)
        (S "map[string]interface \x7b\x7d")) :=
  ⟨rfl, (ExtractExecutionError_returns_iff
    (constUnmarshal [(S "result", GoVal.map [(S "results", GoVal.slice
      [GoVal.map [(S "error", GoVal.string (S "execution reverted"))],
        GoVal.float64 ⟨false, S "1", 1⟩])])]) []
    [(S "result", GoVal.map [(S "results", GoVal.slice
      [GoVal.map [(S "error", GoVal.string (S "execution reverted"))],
        GoVal.float64 ⟨false, S "1", 1⟩])])]
    [(S "results", GoVal.slice
      [GoVal.map [(S "error", GoVal.string (S "execution reverted"))],
        GoVal.float64 ⟨false, S "1", 1⟩])] rfl rfl).2.1
    [GoVal.map [(S "error", GoVal.string (S "execution reverted"))]]
    (GoVal.float64 ⟨false, S "1", 1⟩) [] rfl
    (fun _ h => ⟨_, List.mem_singleton.mp h⟩) (fun tx h => by cases h)⟩

/-! ## Claims on the request primitive and on the signature header -/

/-- C24, as amended: in `fbRequest` every failure returns a non-nil error; a signing
error and a failure to build the request return it with a zero duration and nil
response bytes and hand nothing to the transport; a transport error returns nil response
bytes with the elapsed time measured around the exchange; and every exchange that was
started, whether it failed or completed, returns that elapsed time whatever the body
is. -/
theorem fbRequest_results {Key : Type} (keccak : List Byte → Hash)
    (Sign : List Byte → Key → List Byte × Option GoError) (net : Transport)
    (r : RelayClient Key) (endpoint : GoString) (payload : List Byte) (sent : List Request) :
    (∀ text err, signPayload keccak Sign r payload = (text, some err) →
      fbRequest keccak Sign net r endpoint payload sent = ((none, 0, some err), sent)) ∧
    (∀ signature err, signPayload keccak Sign r payload = (signature, none) →
      net.NewRequest endpoint = some err →
      fbRequest keccak Sign net r endpoint payload sent = ((none, 0, some err), sent)) ∧
    (∀ signature req, signPayload keccak Sign r payload = (signature, none) →
      net.NewRequest endpoint = none →
      req = { method := S "POST", url := endpoint,
              header := [(S "X-Flashbots-Signature",
                  r.signingPublicAddress.Hex keccak ++ S ":" ++ signature),
                (S "Content-Type", S "application/json")],
              body := payload } →
      (fbRequest keccak Sign net r endpoint payload sent).2 = sent ++ [req] ∧
      (fbRequest keccak Sign net r endpoint payload sent).1.2.1 = (net.Do sent req).elapsed ∧
      (∀ err, (net.Do sent req).doErr = some err →
        (fbRequest keccak Sign net r endpoint payload sent).1 =
          (none, (net.Do sent req).elapsed, some err)) ∧
      ((net.Do sent req).doErr = none → ∀ err, (net.Do sent req).readErr = some err →
        (fbRequest keccak Sign net r endpoint payload sent).1 =
          (some (net.Do sent req).body, (net.Do sent req).elapsed, some err)) ∧
      ((net.Do sent req).doErr = none → (net.Do sent req).readErr = none →
        (fbRequest keccak Sign net r endpoint payload sent).1 =
          (some (net.Do sent req).body, (net.Do sent req).elapsed, none))) := by
  refine ⟨?_, ?_, ?_⟩
  · intro text err hs
    unfold fbRequest
    simp only [hs]
  · intro signature err hs hn
    unfold fbRequest
    simp only [hs, hn]
  · intro signature req hs hn hreq
    subst hreq
    unfold fbRequest
    simp only [hs, hn]
    generalize net.Do sent _ = x
    rcases x with ⟨elapsed, doErr, body, readErr⟩
    cases doErr with
    | some e1 =>
      refine ⟨rfl, rfl, ?_, ?_, ?_⟩
      · intro err h
        cases h
        rfl
      · intro h; cases h
      · intro h; cases h
    | none =>
      cases readErr with
      | some e2 =>
        refine ⟨rfl, rfl, ?_, ?_, ?_⟩
        · intro err h; cases h
        · intro _ err h
          cases h
          rfl
        · intro _ h; cases h
      | none =>
        refine ⟨rfl, rfl, ?_, ?_, ?_⟩
        · intro err h; cases h
        · intro _ err h; cases h
        · intro _ _; rfl

/-- C24, as stated, fails: on a transport whose exchange fails after seven nanoseconds
`fbRequest` returns the transport's error with the duration 7, not a zero duration. -/
theorem fbRequest_results_counterexample :
    (fbRequest exampleKeccak exampleSign failingTransport exampleClient
        exampleClient.mainEndpoint (S "\x7b\x7d") []).1 =
      (none, 7, some (GoError.new (S "connection refused"))) ∧
    (fbRequest exampleKeccak exampleSign failingTransport exampleClient
        exampleClient.mainEndpoint (S "\x7b\x7d") []).1.2.1 ≠ 0 := by
  refine ⟨rfl, ?_⟩
  show (7 : Int) ≠ 0
  decide

set_option maxRecDepth 4000 in
theorem toLower_hex_digit (c : Byte) (h : c ∈ hextable) :
    toLower c = c ∧ (0x39 < c.val → toLower (Fin.ofNat (c.val - 32)) = c) := by
  have key : ∀ d ∈ hextable,
      toLower d = d ∧ (0x39 < d.val → toLower (Fin.ofNat (d.val - 32)) = d) := by decide
  exact key c h

theorem toLower_checksum (c : Byte) (h : c ∈ hextable) (P : Prop) [Decidable P] :
    toLower (if 0x39 < c.val ∧ P then Fin.ofNat (c.val - 32) else c) = c := by
  by_cases hc : 0x39 < c.val ∧ P
  · rw [if_pos hc]
    exact (toLower_hex_digit c h).2 hc.1
  · rw [if_neg hc]
    exact (toLower_hex_digit c h).1

theorem enumFrom_map_map {α β : Type} (g : Nat × α → β) (f : β → α) :
    ∀ (l : List α) (n : Nat), (∀ j c, c ∈ l → f (g (j, c)) = c) →
    ((l.enumFrom n).map g).map f = l := by
  intro l
  induction l with
  | nil => intro n _; rfl
  | cons a rest ih =>
    intro n h
    simp only [List.enumFrom_cons, List.map_cons]
    rw [h n a (List.mem_cons_self _ _),
      ih (n + 1) (fun j c hc => h j c (List.mem_cons_of_mem _ hc))]

theorem Address_Hex_lower (keccak : List Byte → Hash) (a : Address) :
    (a.Hex keccak).map toLower = S "0x" ++ lowerHex a.val ∧ (a.Hex keccak).length = 42 := by
  have hmem : ∀ c ∈ EncodeToString a.val, c ∈ hextable := by
    rw [EncodeToString_eq_lowerHex]
    exact lowerHex_mem_hextable a.val
  refine ⟨?_, ?_⟩
  · unfold Address.Hex
    simp only [List.map_append]
    unfold List.enum
    rw [enumFrom_map_map _ toLower (EncodeToString a.val) 0 (by
      intro j c hc
      exact toLower_checksum c (hmem c hc) _), EncodeToString_eq_lowerHex]
    rfl
  · unfold Address.Hex
    simp only [List.length_append, List.length_map, List.enum_length,
      EncodeToString_eq_lowerHex, lowerHex_length, a.property]
    rfl

set_option maxRecDepth 4000 in
theorem toUpper_hex_digit (c : Byte) (h : c ∈ hextable) :
    (if 0x39 < c.val then Fin.ofNat (c.val - 32) else c) = toUpper c := by
  have key : ∀ d ∈ hextable,
      (if 0x39 < d.val then Fin.ofNat (d.val - 32) else d) = toUpper d := by decide
  exact key c h

theorem nibbles_getD : ∀ (bytes : List Byte) (j : Nat),
    (nibbles bytes).getD j 0 =
      if j % 2 = 0 then (bytes.getD (j / 2) 0).val / 16 else (bytes.getD (j / 2) 0).val % 16 := by
  intro bytes
  induction bytes with
  | nil => intro j; simp [nibbles]
  | cons b rest ih =>
    intro j
    match j with
    | 0 => simp [nibbles]
    | 1 => simp [nibbles]
    | k + 2 =>
      have h1 : (k + 2) % 2 = k % 2 := by omega
      have h2 : (k + 2) / 2 = k / 2 + 1 := by omega
      simp only [nibbles, List.getD_cons_succ, ih k, h1, h2]

theorem nibbles_length (bytes : List Byte) : (nibbles bytes).length = 2 * bytes.length := by
  induction bytes with
  | nil => rfl
  | cons b rest ih => simp only [nibbles, List.length_cons, ih]; omega

theorem enumFrom_map_eq_zipWith {α β γ : Type} (f : Nat × α → γ) (g : α → β → γ) (d : β) :
    ∀ (l : List α) (ns : List β) (n0 : Nat), l.length ≤ ns.length →
    (∀ j c, c ∈ l → f (n0 + j, c) = g c (ns.getD j d)) →
    (l.enumFrom n0).map f = List.zipWith g l ns := by
  intro l
  induction l with
  | nil => intro ns n0 _ _; rfl
  | cons c rest ih =>
    intro ns n0 hlen H
    cases ns with
    | nil => simp at hlen
    | cons n ns =>
      simp only [List.enumFrom_cons, List.map_cons, List.zipWith_cons_cons]
      have h0 := H 0 c (List.mem_cons_self _ _)
      simp only [Nat.add_zero, List.getD_cons_zero] at h0
      rw [h0, ih ns (n0 + 1) (by simpa using hlen)]
      intro j c1 hc1
      have h1 := H (j + 1) c1 (List.mem_cons_of_mem _ hc1)
      simp only [List.getD_cons_succ] at h1
      rw [← h1]
      congr 2
      omega

theorem Address_Hex_checksum (keccak : List Byte → Hash) (a : Address) :
    a.Hex keccak = checksumText keccak a := by
  unfold Address.Hex checksumText
  rw [EncodeToString_eq_lowerHex]
  dsimp only
  congr 1
  unfold List.enum
  apply enumFrom_map_eq_zipWith _ _ 0
  · rw [lowerHex_length, nibbles_length, a.property, (keccak (lowerHex a.val)).property]
    decide
  · intro j c hc
    have hmem := lowerHex_mem_hextable a.val c hc
    rw [nibbles_getD, Nat.zero_add]
    show (if 0x39 < c.val ∧
        7 < (if j % 2 = 0 then ((keccak (lowerHex a.val)).val.getD (j / 2) 0).val / 16
          else ((keccak (lowerHex a.val)).val.getD (j / 2) 0).val % 16)
      then Fin.ofNat (c.val - 32) else c) = _
    generalize (if j % 2 = 0 then ((keccak (lowerHex a.val)).val.getD (j / 2) 0).val / 16
          else ((keccak (lowerHex a.val)).val.getD (j / 2) 0).val % 16) = n
    have hup := toUpper_hex_digit c hmem
    by_cases hn : 8 ≤ n
    · rw [if_pos hn, ← hup]
      by_cases hc9 : 0x39 < c.val
      · rw [if_pos ⟨hc9, by omega⟩, if_pos hc9]
      · rw [if_neg (fun h => hc9 h.1), if_neg hc9]
    · rw [if_neg hn, if_neg (fun h => hn (by omega))]

theorem signPayload_of_personalMessage {Key : Type} (keccak : List Byte → Hash)
    (Sign : List Byte → Key → List Byte × Option GoError)
    (r : RelayClient Key) (payload : List Byte) :
    signPayload keccak Sign r payload =
      (match Sign (keccak (personalMessage (S "0x" ++ lowerHex (keccak payload).val))).val
          r.signingPrivateKey with
        | (_, some err) => ([], some err)
        | (signatureBytes, none) => (S "0x" ++ lowerHex signatureBytes, none)) := by
  have hpre : S "\x19Ethereum Signed Message:\n" ++ Itoa ((keccak payload).Hex.length : Nat)
      ++ (keccak payload).Hex = personalMessage (S "0x" ++ lowerHex (keccak payload).val) := by
    rw [Hash_Hex_length]
    unfold Hash.Hex personalMessage
    rw [hexutilEncode_eq]
    have h1 : S "\x19Ethereum Signed Message:\n" ++ Itoa ((66 : Nat) : Int) =
        [0x19] ++ S "Ethereum Signed Message:" ++ [0x0a] ++ S "66" := by decide
    rw [h1]
  unfold signPayload
  simp only [hpre]
  rcases Sign (keccak (personalMessage (S "0x" ++ lowerHex (keccak payload).val))).val
    r.signingPrivateKey with ⟨sig, e⟩
  cases e with
  | some err => rfl
  | none => simp [hexutilEncode_eq]

theorem fbRequest_header {Key : Type} (keccak : List Byte → Hash)
    (Sign : List Byte → Key → List Byte × Option GoError) (net : Transport)
    (r : RelayClient Key) (endpoint : GoString) (payload : List Byte) (sent : List Request)
    (req : Request)
    (h : (fbRequest keccak Sign net r endpoint payload sent).2 = sent ++ [req]) :
    ∃ signature, signPayload keccak Sign r payload = (signature, none) ∧
      req.header = [(S "X-Flashbots-Signature",
          r.signingPublicAddress.Hex keccak ++ S ":" ++ signature),
        (S "Content-Type", S "application/json")] ∧
      req.body = payload := by
  have hno : sent ≠ sent ++ [req] := by
    intro h1
    have := congrArg List.length h1
    simp at this
  unfold fbRequest at h
  rcases hs : signPayload keccak Sign r payload with ⟨signature, serr⟩
  rw [hs] at h
  cases serr with
  | some e => exact absurd h hno
  | none =>
    simp only at h
    cases hn : net.NewRequest endpoint with
    | some e =>
      rw [hn] at h
      exact absurd h hno
    | none =>
      rw [hn] at h
      simp only at h
      have hreq : sent ++ [Request.mk (S "POST") endpoint
          [(S "X-Flashbots-Signature",
              r.signingPublicAddress.Hex keccak ++ S ":" ++ signature),
            (S "Content-Type", S "application/json")] payload] = sent ++ [req] := by
        rw [← h]
        generalize net.Do sent _ = x
        rcases x with ⟨elapsed, doErr, body, readErr⟩
        cases doErr <;> cases readErr <;> rfl
      have hr := List.append_cancel_left hreq
      have hr2 : req = _ := (List.cons.inj hr).1.symm
      exact ⟨signature, rfl, by rw [hr2], by rw [hr2]⟩

/-- C23: for a client built by `NewRelayClient`, the `X-Flashbots-Signature` header of a
request is the checksummed hex text of the address derived from the signing key, a colon,
and `signPayload(body)`. The address text is the EIP-55 text: "0x" and the forty
lowercase hex digits of the address, a letter printed as a capital exactly when the hex
digit at its position in the hash of the lowercase digits is 8 or more. The header does
not depend on the client's name or endpoints, the transport or the requests sent before:
two requests with the same body have the same header whenever `crypto.Sign`, called at
two moments on the digest of the body with the key, returns the same result, and two
successful signatures of the same body are equal exactly when the signer's bytes are. -/
theorem signature_header {Key : Type} (PubkeyToAddress : Key → Address) (key : Key)
    (name mainEndpoint simulationEndpoint : GoString) (r : RelayClient Key)
    (hr : NewRelayClient PubkeyToAddress (some key) name mainEndpoint simulationEndpoint =
      (some r, none)) :
    (∀ (keccak : List Byte → Hash) (Sign : List Byte → Key → List Byte × Option GoError)
        (net : Transport) (endpoint : GoString) (payload : List Byte) (sent : List Request)
        (signature : GoString),
      signPayload keccak Sign r payload = (signature, none) →
      net.NewRequest endpoint = none →
      ∃ req, (fbRequest keccak Sign net r endpoint payload sent).2 = sent ++ [req] ∧
        req.body = payload ∧
        req.header = [(S "X-Flashbots-Signature",
            (PubkeyToAddress key).Hex keccak ++ S ":" ++ signature),
          (S "Content-Type", S "application/json")]) ∧
    (∀ (keccak : List Byte → Hash) (Sign : List Byte → Key → List Byte × Option GoError)
        (payload : List Byte) (name2 mainEndpoint2 simulationEndpoint2 : GoString)
        (r2 : RelayClient Key),
      NewRelayClient PubkeyToAddress (some key) name2 mainEndpoint2 simulationEndpoint2 =
        (some r2, none) →
      signPayload keccak Sign r2 payload = signPayload keccak Sign r payload ∧
      r2.signingPublicAddress = r.signingPublicAddress) ∧
    (∀ keccak : List Byte → Hash,
      ((PubkeyToAddress key).Hex keccak).map toLower =
        S "0x" ++ lowerHex (PubkeyToAddress key).val ∧
      ((PubkeyToAddress key).Hex keccak).length = 42) ∧
    (∀ keccak : List Byte → Hash,
      (PubkeyToAddress key).Hex keccak = checksumText keccak (PubkeyToAddress key)) ∧
    (∀ (Moment : Type) (keccak : List Byte → Hash)
        (SignAt : Moment → List Byte → Key → List Byte × Option GoError)
        (t1 t2 : Moment) (payload : List Byte),
      SignAt t1 (keccak (personalMessage (S "0x" ++ lowerHex (keccak payload).val))).val key =
        SignAt t2 (keccak (personalMessage (S "0x" ++ lowerHex (keccak payload).val))).val
          key →
      signPayload keccak (SignAt t1) r payload = signPayload keccak (SignAt t2) r payload ∧
      ∀ (net1 net2 : Transport) (endpoint1 endpoint2 : GoString)
          (sent1 sent2 : List Request) (req1 req2 : Request),
        (fbRequest keccak (SignAt t1) net1 r endpoint1 payload sent1).2 = sent1 ++ [req1] →
        (fbRequest keccak (SignAt t2) net2 r endpoint2 payload sent2).2 = sent2 ++ [req2] →
        req1.header = req2.header ∧ req1.body = req2.body) ∧
    (∀ (Moment : Type) (keccak : List Byte → Hash)
        (SignAt : Moment → List Byte → Key → List Byte × Option GoError)
        (t1 t2 : Moment) (payload s1 s2 : List Byte),
      SignAt t1 (keccak (personalMessage (S "0x" ++ lowerHex (keccak payload).val))).val key =
        (s1, none) →
      SignAt t2 (keccak (personalMessage (S "0x" ++ lowerHex (keccak payload).val))).val key =
        (s2, none) →
      (signPayload keccak (SignAt t1) r payload = signPayload keccak (SignAt t2) r payload ↔
        s1 = s2)) := by
  have hrr : r = { name := name, signingPrivateKey := key,
                   signingPublicAddress := PubkeyToAddress key, mainEndpoint := mainEndpoint,
                   simulationEndpoint := simulationEndpoint } := by
    have h := congrArg Prod.fst hr
    simp only [NewRelayClient] at h
    exact (Option.some.inj h).symm
  have hkey : r.signingPrivateKey = key := by rw [hrr]
  have hsame : ∀ (Moment : Type) (keccak : List Byte → Hash)
      (SignAt : Moment → List Byte → Key → List Byte × Option GoError)
      (t1 t2 : Moment) (payload : List Byte),
      SignAt t1 (keccak (personalMessage (S "0x" ++ lowerHex (keccak payload).val))).val key =
        SignAt t2 (keccak (personalMessage (S "0x" ++ lowerHex (keccak payload).val))).val
          key →
      signPayload keccak (SignAt t1) r payload = signPayload keccak (SignAt t2) r payload := by
    intro Moment keccak SignAt t1 t2 payload h
    rw [signPayload_of_personalMessage, signPayload_of_personalMessage, hkey, h]
  refine ⟨?_, ?_, fun keccak => Address_Hex_lower keccak _,
    fun keccak => Address_Hex_checksum keccak _, ?_, ?_⟩
  · intro keccak Sign net endpoint payload sent signature hs hn
    refine ⟨{ method := S "POST", url := endpoint,
              header := [(S "X-Flashbots-Signature",
                  r.signingPublicAddress.Hex keccak ++ S ":" ++ signature),
                (S "Content-Type", S "application/json")],
              body := payload }, ?_, rfl, by rw [hrr]⟩
    unfold fbRequest
    simp only [hs, hn]
    generalize net.Do sent _ = x
    rcases x with ⟨elapsed, doErr, body, readErr⟩
    cases doErr <;> cases readErr <;> rfl
  · intro keccak Sign payload name2 ep2 sim2 r2 hr2
    have hrr2 : r2 = { name := name2, signingPrivateKey := key,
                       signingPublicAddress := PubkeyToAddress key, mainEndpoint := ep2,
                       simulationEndpoint := sim2 } := by
      have h := congrArg Prod.fst hr2
      simp only [NewRelayClient] at h
      exact (Option.some.inj h).symm
    rw [hrr, hrr2]
    exact ⟨rfl, rfl⟩
  · intro Moment keccak SignAt t1 t2 payload h
    have hsig := hsame Moment keccak SignAt t1 t2 payload h
    refine ⟨hsig, ?_⟩
    intro net1 net2 endpoint1 endpoint2 sent1 sent2 req1 req2 h1 h2
    obtain ⟨sig1, hs1, hh1, hb1⟩ := fbRequest_header keccak (SignAt t1) net1 r endpoint1
      payload sent1 req1 h1
    obtain ⟨sig2, hs2, hh2, hb2⟩ := fbRequest_header keccak (SignAt t2) net2 r endpoint2
      payload sent2 req2 h2
    have hsig12 : sig1 = sig2 := by
      have := hs1.symm.trans (hsig.trans hs2)
      exact congrArg Prod.fst this
    rw [hh1, hh2, hb1, hb2, hsig12]
    exact ⟨rfl, rfl⟩
  · intro Moment keccak SignAt t1 t2 payload s1 s2 h1 h2
    rw [signPayload_of_personalMessage, signPayload_of_personalMessage, hkey, h1, h2]
    constructor
    · intro h
      have h3 : S "0x" ++ lowerHex s1 = S "0x" ++ lowerHex s2 := congrArg Prod.fst h
      have h4 := congrArg FromHex h3
      rw [FromHex_hex, FromHex_hex] at h4
      exact h4
    · intro h
      rw [h]

set_option maxRecDepth 8000 in
theorem signature_header_witness :
    NewRelayClient letterAddress (some ()) (S "relay") (S "https://relay.example") [] =
      (some letterClient, none) ∧
    (letterAddress ()).Hex highKeccak = S "0xAbAbAbAbAbAbAbAbAbAbAbAbAbAbAbAbAbAbAbAb" ∧
    (∃ req, (fbRequest highKeccak exampleSign exampleTransport letterClient
          (S "https://relay.example") (S "\x7b\x7d") []).2 = [] ++ [req] ∧
        req.body = S "\x7b\x7d" ∧
        req.header = [(S "X-Flashbots-Signature",
            S "0xAbAbAbAbAbAbAbAbAbAbAbAbAbAbAbAbAbAbAbAb" ++ S ":"
              ++ S "0xf0f0f0f0f0f0f0f0f0f0f0f0f0f0f0f0f0f0f0f0f0f0f0f0f0f0f0f0f0f0f0f0"),
          (S "Content-Type", S "application/json")]) ∧
    signPayload highKeccak (momentSign 1) letterClient (S "\x7b\x7d") ≠
      signPayload highKeccak (momentSign 2) letterClient (S "\x7b\x7d") := by
  have hx : (letterAddress ()).Hex highKeccak =
      S "0xAbAbAbAbAbAbAbAbAbAbAbAbAbAbAbAbAbAbAbAb" := by decide
  have hy : hexutilEncode (highKeccak []).val =
      S "0xf0f0f0f0f0f0f0f0f0f0f0f0f0f0f0f0f0f0f0f0f0f0f0f0f0f0f0f0f0f0f0f0" := by decide
  have h := (signature_header letterAddress () (S "relay") (S "https://relay.example") []
    letterClient rfl).1 highKeccak exampleSign exampleTransport (S "https://relay.example")
    (S "\x7b\x7d") [] (hexutilEncode (highKeccak []).val) rfl rfl
  rw [hx, hy] at h
  have hiff := (signature_header letterAddress () (S "relay") (S "https://relay.example") []
    letterClient rfl).2.2.2.2.2 Byte highKeccak momentSign 1 2 (S "\x7b\x7d")
    (1 :: (highKeccak []).val) (2 :: (highKeccak []).val) rfl rfl
  exact ⟨rfl, hx, h, fun hsame => absurd (hiff.mp hsame) (by decide)⟩

/-! ## Claims on the batch send and on the caller's bundle -/

theorem mapLoad_mapStore {V : Type} (k : GoString) (v : V) (name : GoString) :
    ∀ m : List (GoString × V),
    mapLoad (mapStore m k v) name = if k = name then some v else mapLoad m name := by
  intro m
  induction m with
  | nil => simp [mapStore, mapLoad]
  | cons e rest ih =>
    rcases e with ⟨k0, v0⟩
    by_cases h0 : k0 = k
    · subst h0
      by_cases h1 : k0 = name <;> simp [mapStore, mapLoad, h1]
    · by_cases h1 : k0 = name
      · subst h1
        have h2 : ¬ k = k0 := fun h => h0 h.symm
        simp [mapStore, mapLoad, h0, h2]
      · simp [mapStore, mapLoad, h0, h1, ih]

theorem mapStore_keys {V : Type} (k : GoString) (v : V) :
    ∀ m : List (GoString × V),
    (mapStore m k v).map Prod.fst =
      if k ∈ m.map Prod.fst then m.map Prod.fst else m.map Prod.fst ++ [k] := by
  intro m
  induction m with
  | nil => simp [mapStore]
  | cons e rest ih =>
    rcases e with ⟨k0, v0⟩
    by_cases h0 : k0 = k
    · subst h0
      simp [mapStore]
    · have h2 : ¬ k = k0 := fun h => h0 h.symm
      simp only [mapStore, if_neg h0, List.map_cons, ih, List.mem_cons, h2, false_or]
      by_cases h3 : k ∈ rest.map Prod.fst
      · rw [if_pos h3, if_pos h3]
      · rw [if_neg h3, if_neg h3]
        rfl

theorem mapStore_of_not_mem {V : Type} (k : GoString) (v : V) :
    ∀ m : List (GoString × V), k ∉ m.map Prod.fst → mapStore m k v = m ++ [(k, v)] := by
  intro m
  induction m with
  | nil => intro _; rfl
  | cons e rest ih =>
    rcases e with ⟨k0, v0⟩
    intro h
    simp only [List.map_cons, List.mem_cons, not_or] at h
    have h0 : ¬ k0 = k := fun h1 => h.1 h1.symm
    simp only [mapStore, if_neg h0, ih h.2, List.cons_append]

theorem storeAll_keys_nodup {V : Type} :
    ∀ (outcomes m : List (GoString × V)), (m.map Prod.fst).Nodup →
    ((outcomes.foldl (fun acc e => mapStore acc e.1 e.2) m).map Prod.fst).Nodup := by
  intro outcomes
  induction outcomes with
  | nil => intro m h; exact h
  | cons e rest ih =>
    intro m h
    rw [List.foldl_cons]
    apply ih
    rw [mapStore_keys]
    by_cases h3 : e.1 ∈ m.map Prod.fst
    · rw [if_pos h3]
      exact h
    · rw [if_neg h3]
      rw [List.nodup_append]
      refine ⟨h, List.nodup_singleton _, ?_⟩
      intro a ha hb
      rw [List.mem_singleton] at hb
      subst hb
      exact h3 ha

theorem storeAll_keys_mem {V : Type} (name : GoString) :
    ∀ (outcomes m : List (GoString × V)),
    name ∈ (outcomes.foldl (fun acc e => mapStore acc e.1 e.2) m).map Prod.fst ↔
      name ∈ m.map Prod.fst ∨ name ∈ outcomes.map Prod.fst := by
  intro outcomes
  induction outcomes with
  | nil => intro m; simp
  | cons e rest ih =>
    intro m
    rw [List.foldl_cons, ih, mapStore_keys]
    by_cases h3 : e.1 ∈ m.map Prod.fst
    · rw [if_pos h3]
      simp only [List.map_cons, List.mem_cons]
      constructor
      · rintro (h | h)
        · exact Or.inl h
        · exact Or.inr (Or.inr h)
      · rintro (h | h | h)
        · exact Or.inl h
        · exact Or.inl (h ▸ h3)
        · exact Or.inr h
    · rw [if_neg h3]
      simp only [List.map_cons, List.mem_cons, List.mem_append, List.mem_singleton]
      tauto

theorem storeAll_of_nodup {V : Type} :
    ∀ (outcomes m : List (GoString × V)),
    (m.map Prod.fst ++ outcomes.map Prod.fst).Nodup →
    outcomes.foldl (fun acc e => mapStore acc e.1 e.2) m = m ++ outcomes := by
  intro outcomes
  induction outcomes with
  | nil => intro m _; simp
  | cons e rest ih =>
    intro m h
    have hnot : e.1 ∉ m.map Prod.fst := by
      intro hmem
      rw [List.nodup_append] at h
      exact h.2.2 hmem (by simp)
    rw [List.foldl_cons, mapStore_of_not_mem _ _ _ hnot, ih]
    · simp
    · simpa using h

theorem lastOutcome_cons {V : Type} (e : GoString × V) (rest : List (GoString × V))
    (name : GoString) :
    lastOutcome (e :: rest) name =
      match lastOutcome rest name with
      | some v => some v
      | none => if e.1 = name then some e.2 else none := by
  unfold lastOutcome
  rw [List.reverse_cons, List.find?_append]
  cases h : rest.reverse.find? fun e => e.1 == name with
  | some x => simp
  | none =>
    by_cases h1 : e.1 = name
    · have h2 : (e.1 == name) = true := by simpa using h1
      simp [List.find?, h1, h2]
    · have h2 : (e.1 == name) = false := by simpa using h1
      simp [List.find?, h1, h2]

theorem mapLoad_storeAll {V : Type} (name : GoString) :
    ∀ (outcomes m : List (GoString × V)),
    mapLoad (outcomes.foldl (fun acc e => mapStore acc e.1 e.2) m) name =
      match lastOutcome outcomes name with
      | some v => some v
      | none => mapLoad m name := by
  intro outcomes
  induction outcomes with
  | nil => intro m; simp [lastOutcome]
  | cons e rest ih =>
    intro m
    rw [List.foldl_cons, ih, lastOutcome_cons, mapLoad_mapStore]
    cases lastOutcome rest name with
    | some v => rfl
    | none =>
      by_cases h1 : e.1 = name <;> simp [h1]

theorem lastOutcome_mem {V : Type} (outcomes : List (GoString × V)) (name : GoString) (v : V)
    (h : lastOutcome outcomes name = some v) : (name, v) ∈ outcomes := by
  unfold lastOutcome at h
  cases hf : outcomes.reverse.find? fun e => e.1 == name with
  | none => rw [hf] at h; cases h
  | some x =>
    rw [hf] at h
    have hv : x.2 = v := Option.some.inj h
    have hp := List.find?_some hf
    have hm := List.mem_of_find?_eq_some hf
    have hk : x.1 = name := by simpa using hp
    rw [List.mem_reverse] at hm
    rw [← hv, ← hk]
    exact hm

theorem sendOutcomes_keys {Key Tx : Type} (keccak : List Byte → Hash)
    (Sign : List Byte → Key → List Byte × Option GoError) (net : Transport) (b : Bundle Tx) :
    ∀ (clients : List (RelayClient Key)) (sent : List Request),
    (sendOutcomes keccak Sign net b clients sent).1.map Prod.fst =
      clients.map RelayClient.Name := by
  intro clients
  induction clients with
  | nil => intro sent; rfl
  | cons c rest ih =>
    intro sent
    simp only [sendOutcomes, List.map_cons, ih]
    rfl

theorem sendOutcomes_mem {Key Tx : Type} (keccak : List Byte → Hash)
    (Sign : List Byte → Key → List Byte × Option GoError) (net : Transport) (b : Bundle Tx) :
    ∀ (clients : List (RelayClient Key)) (sent : List Request) (e : GoString × SendBundleResponse),
    e ∈ (sendOutcomes keccak Sign net b clients sent).1 →
    ∃ client ∈ clients, ∃ before : List Request,
      e = (client.Name, (SendBundle keccak Sign net client b before).1) := by
  intro clients
  induction clients with
  | nil => intro sent e h; simp [sendOutcomes] at h
  | cons c rest ih =>
    intro sent e h
    simp only [sendOutcomes, List.mem_cons] at h
    rcases h with h | h
    · exact ⟨c, List.mem_cons_self _ _, sent, h⟩
    · obtain ⟨client, hc, before, he⟩ := ih _ e h
      exact ⟨client, List.mem_cons_of_mem _ hc, before, he⟩

theorem batchSendLoop_eq {Key Tx : Type} (keccak : List Byte → Hash)
    (Sign : List Byte → Key → List Byte × Option GoError) (net : Transport) (b : Bundle Tx) :
    ∀ (clients : List (RelayClient Key)) (resps : List (GoString × SendBundleResponse))
      (sent : List Request),
    batchSendLoop keccak Sign net b (clients.map some) resps sent =
      .ret ((sendOutcomes keccak Sign net b clients sent).1.foldl
          (fun acc e => mapStore acc e.1 e.2) resps,
        (sendOutcomes keccak Sign net b clients sent).2) := by
  intro clients
  induction clients with
  | nil => intro resps sent; rfl
  | cons c rest ih =>
    intro resps sent
    simp only [List.map_cons, batchSendLoop, ih, sendOutcomes, List.foldl_cons]
    rfl

theorem batchLoop_members {Key : Type} (PubkeyToAddress : Key → Address)
    (names mainEndpoints : List GoString) (batch : BatchRelayClient Key) :
    ∀ (keys : List (Option Key)) (idx : Nat) (r : List (Option (RelayClient Key))),
    (∀ c ∈ r, c ≠ none) →
    batchLoop PubkeyToAddress names mainEndpoints keys idx r = (some batch, none) →
    ∀ c ∈ batch.relayClients, c ≠ none := by
  intro keys
  induction keys with
  | nil =>
    intro idx r hr h
    simp only [batchLoop, Prod.mk.injEq, Option.some.injEq, and_true] at h
    rw [← h]
    exact hr
  | cons key rest ih =>
    intro idx r hr h
    cases key with
    | none =>
      simp only [batchLoop, NewRelayClient] at h
      cases h
    | some k =>
      simp only [batchLoop, NewRelayClient] at h
      refine ih (idx + 1) _ ?_ h
      intro c hc
      rw [List.mem_append, List.mem_singleton] at hc
      rcases hc with hc | hc
      · exact hr c hc
      · rw [hc]
        exact Option.some_ne_none _

theorem eq_map_some_of_ne_none {α : Type} :
    ∀ l : List (Option α), (∀ c ∈ l, c ≠ none) → ∃ cs : List α, l = cs.map some := by
  intro l
  induction l with
  | nil => intro _; exact ⟨[], rfl⟩
  | cons a rest ih =>
    intro h
    obtain ⟨cs, hcs⟩ := ih (fun c hc => h c (List.mem_cons_of_mem _ hc))
    cases a with
    | none => exact absurd rfl (h none (List.mem_cons_self _ _))
    | some x => exact ⟨x :: cs, by rw [hcs]; rfl⟩

/-- C21: for a batch relay client whose relay clients are all present (as in every batch
that `NewBatchRelayClient` returns), `BatchSendBundle` returns a map whose value under a
name is the response of `SendBundle` on the last configured client of that name, called
with the same bundle; its keys are exactly the names of the clients, each once, so with
pairwise distinct names it has one entry per client, in one-to-one correspondence with
the clients. -/
theorem BatchSendBundle_map {Key Tx : Type} (keccak : List Byte → Hash)
    (Sign : List Byte → Key → List Byte × Option GoError) (net : Transport)
    (r : BatchRelayClient Key) (b : Bundle Tx) (sent : List Request)
    (clients : List (RelayClient Key)) (hclients : r.relayClients = clients.map some) :
    ∃ resps : List (GoString × SendBundleResponse),
      BatchSendBundle keccak Sign net r b sent =
        .ret (resps, (sendOutcomes keccak Sign net b clients sent).2) ∧
      (∀ name, mapLoad resps name =
        lastOutcome (sendOutcomes keccak Sign net b clients sent).1 name) ∧
      (∀ name resp, mapLoad resps name = some resp →
        ∃ client ∈ clients, client.Name = name ∧ ∃ before : List Request,
          resp = (SendBundle keccak Sign net client b before).1) ∧
      (resps.map Prod.fst).Nodup ∧
      (∀ name, name ∈ resps.map Prod.fst ↔ name ∈ clients.map RelayClient.Name) ∧
      ((clients.map RelayClient.Name).Nodup →
        resps = (sendOutcomes keccak Sign net b clients sent).1 ∧
        resps.length = clients.length ∧
        resps.map Prod.fst = clients.map RelayClient.Name) ∧
      (∀ (PubkeyToAddress : Key → Address) (signingKeys : List (Option Key))
          (names mainEndpoints : List GoString) (batch : BatchRelayClient Key),
        NewBatchRelayClient PubkeyToAddress signingKeys names mainEndpoints =
          (some batch, none) →
        ∃ members : List (RelayClient Key), batch.relayClients = members.map some) := by
  have hkeys := sendOutcomes_keys keccak Sign net b clients sent
  refine ⟨(sendOutcomes keccak Sign net b clients sent).1.foldl
    (fun acc e => mapStore acc e.1 e.2) [], ?_, ?_, ?_, ?_, ?_, ?_, ?_⟩
  · unfold BatchSendBundle
    rw [hclients, batchSendLoop_eq]
  · intro name
    rw [mapLoad_storeAll]
    cases lastOutcome (sendOutcomes keccak Sign net b clients sent).1 name <;> rfl
  · intro name resp h
    rw [mapLoad_storeAll] at h
    cases hl : lastOutcome (sendOutcomes keccak Sign net b clients sent).1 name with
    | none =>
      rw [hl] at h
      cases h
    | some v =>
      rw [hl] at h
      have hv : v = resp := Option.some.inj h
      subst hv
      obtain ⟨client, hc, before, he⟩ :=
        sendOutcomes_mem keccak Sign net b clients sent _ (lastOutcome_mem _ _ _ hl)
      have h1 := congrArg Prod.fst he
      have h2 := congrArg Prod.snd he
      exact ⟨client, hc, h1.symm, before, h2⟩
  · exact storeAll_keys_nodup _ [] List.nodup_nil
  · intro name
    rw [storeAll_keys_mem, hkeys]
    simp
  · intro hnodup
    have h := storeAll_of_nodup (sendOutcomes keccak Sign net b clients sent).1 []
      (by simpa [hkeys] using hnodup)
    rw [h, List.nil_append]
    refine ⟨rfl, ?_, hkeys⟩
    have hlen := congrArg List.length hkeys
    simpa using hlen
  · intro PubkeyToAddress signingKeys names mainEndpoints batch h
    apply eq_map_some_of_ne_none
    unfold NewBatchRelayClient at h
    split at h
    · cases h
    · exact batchLoop_members PubkeyToAddress names mainEndpoints batch signingKeys 0 []
        (by intro c hc; cases hc) h

theorem BatchSendBundle_map_witness :
    (BatchRelayClient.mk [some exampleClient, some simClient]).relayClients =
      [exampleClient, simClient].map some ∧
    ∃ resps : List (GoString × SendBundleResponse),
      BatchSendBundle exampleKeccak exampleSign exampleTransport
          (BatchRelayClient.mk [some exampleClient, some simClient])
          (Bundle.zero (List Byte)) [] =
        .ret (resps, (sendOutcomes exampleKeccak exampleSign exampleTransport
          (Bundle.zero (List Byte)) [exampleClient, simClient] []).2) ∧
      (∀ name, mapLoad resps name =
        lastOutcome (sendOutcomes exampleKeccak exampleSign exampleTransport
          (Bundle.zero (List Byte)) [exampleClient, simClient] []).1 name) := by
  refine ⟨rfl, ?_⟩
  obtain ⟨resps, h1, h2, _⟩ := BatchSendBundle_map exampleKeccak exampleSign exampleTransport
    (BatchRelayClient.mk [some exampleClient, some simClient]) (Bundle.zero (List Byte)) []
    [exampleClient, simClient] rfl
  exact ⟨resps, h1, h2⟩

theorem Memory.keeps_refl {Tx : Type} (mem : Memory Tx) : mem.keeps mem :=
  ⟨List.prefix_refl _, rfl, rfl, rfl⟩

theorem Memory.keeps_trans {Tx : Type} {m1 m2 m3 : Memory Tx} (h12 : m1.keeps m2)
    (h23 : m2.keeps m3) : m1.keeps m3 :=
  ⟨h12.1.trans h23.1, h23.2.1.trans h12.2.1, h23.2.2.1.trans h12.2.2.1,
    h23.2.2.2.trans h12.2.2.2⟩

theorem Memory.read_of_keeps {Tx : Type} {before after : Memory Tx}
    (h : before.keeps after) (a : Nat) (ha : a < before.cells.length) :
    after.read a = before.read a := by
  obtain ⟨t, ht⟩ := h.1
  unfold Memory.read
  rw [← ht, List.getD_append _ _ _ _ ha]

theorem Memory.bundle_congr {Tx : Type} (m1 m2 : Memory Tx) (a1 a2 : Nat)
    (hread : m2.read a2 = m1.read a1) (htx : m2.txArrays = m1.txArrays)
    (hstr : m2.stringArrays = m1.stringArrays) (hint : m2.ints = m1.ints) :
    m2.bundle a2 = m1.bundle a1 := by
  unfold Memory.bundle
  rw [hread]
  have h1 : ∀ h, m2.transactions h = m1.transactions h := by
    intro h
    cases h <;> simp [Memory.transactions, htx]
  have h2 : ∀ h, m2.strings h = m1.strings h := by
    intro h
    cases h <;> simp [Memory.strings, hstr]
  have h3 : ∀ p, m2.int p = m1.int p := by
    intro p
    cases p <;> simp [Memory.int, hint]
  rw [h1, h2, h2, h3, h3]

theorem Memory.bundle_of_keeps {Tx : Type} {before after : Memory Tx}
    (h : before.keeps after) (a : Nat) (ha : a < before.cells.length) :
    after.bundle a = before.bundle a :=
  Memory.bundle_congr before after a a (Memory.read_of_keeps h a ha) h.2.1 h.2.2.1 h.2.2.2

theorem Memory.declare_keeps {Tx : Type} (mem : Memory Tx) (v : BundleCell) :
    mem.keeps (mem.declare v).2 ∧ (mem.declare v).1 = mem.cells.length ∧
    (mem.declare v).2.read mem.cells.length = v ∧
    (mem.declare v).2.cells.length = mem.cells.length + 1 := by
  refine ⟨⟨⟨[v], rfl⟩, rfl, rfl, rfl⟩, rfl, ?_, ?_⟩
  · simp [Memory.declare, Memory.read, List.getD_eq_getElem?_getD]
  · simp [Memory.declare]

theorem Memory.assign_keeps {Tx : Type} (before mem : Memory Tx) (s : GoString)
    (h : before.keeps mem) :
    before.keeps (mem.assignStateBlockNumber before.cells.length s) := by
  obtain ⟨⟨t, ht⟩, h2, h3, h4⟩ := h
  refine ⟨?_, h2, h3, h4⟩
  unfold Memory.assignStateBlockNumber
  simp only
  rw [← ht]
  cases t with
  | nil => exact ⟨[], by simp [List.set_eq_of_length_le]⟩
  | cons c t =>
    refine ⟨{ mem.read before.cells.length with StateBlockNumber := s } :: t, ?_⟩
    rw [List.set_append_right _ _ (Nat.le_refl _)]
    simp

theorem Memory.assign_read {Tx : Type} (mem : Memory Tx) (a : Nat) (s : GoString)
    (ha : a < mem.cells.length) :
    (mem.assignStateBlockNumber a s).read a = { mem.read a with StateBlockNumber := s } := by
  simp [Memory.assignStateBlockNumber, Memory.read, List.getD_eq_getElem?_getD, ha]

theorem Memory.assign_bundle {Tx : Type} (mem : Memory Tx) (a : Nat) (s : GoString)
    (ha : a < mem.cells.length) :
    (mem.assignStateBlockNumber a s).bundle a = { mem.bundle a with StateBlockNumber := s } := by
  have hr := Memory.assign_read mem a s ha
  unfold Memory.bundle
  rw [hr]
  have h1 : ∀ h, (mem.assignStateBlockNumber a s).transactions h = mem.transactions h := by
    intro h
    cases h <;> rfl
  have h2 : ∀ h, (mem.assignStateBlockNumber a s).strings h = mem.strings h := by
    intro h
    cases h <;> rfl
  have h3 : ∀ p, (mem.assignStateBlockNumber a s).int p = mem.int p := by
    intro p
    cases p <;> rfl
  simp only [h1, h2, h3]

theorem SendBundleAt_eq {Key Tx : Type} (keccak : List Byte → Hash)
    (Sign : List Byte → Key → List Byte × Option GoError) (net : Transport)
    (r : RelayClient Key) (arg : Nat) (mem : Memory Tx) (sent : List Request) :
    SendBundleAt keccak Sign net r arg mem sent =
      ((SendBundle keccak Sign net r (mem.bundle arg) sent).1, (mem.declare (mem.read arg)).2,
        (SendBundle keccak Sign net r (mem.bundle arg) sent).2) := by
  have hb : (mem.declare (mem.read arg)).2.bundle (mem.declare (mem.read arg)).1 =
      mem.bundle arg := by
    obtain ⟨hk, h1, h2, _⟩ := Memory.declare_keeps mem (mem.read arg)
    rw [h1]
    exact Memory.bundle_congr mem _ arg _ h2 hk.2.1 hk.2.2.1 hk.2.2.2
  unfold SendBundleAt SendBundle
  simp only [hb]
  rfl

theorem SimulateBundleAt_eq {Key Tx : Type} (keccak : List Byte → Hash)
    (Sign : List Byte → Key → List Byte × Option GoError) (net : Transport)
    (r : RelayClient Key) (arg : Nat) (mem : Memory Tx) (sent : List Request) :
    (SimulateBundleAt keccak Sign net r arg mem sent).1 =
      (SimulateBundle keccak Sign net r (mem.bundle arg) sent).1 ∧
    (SimulateBundleAt keccak Sign net r arg mem sent).2.2 =
      (SimulateBundle keccak Sign net r (mem.bundle arg) sent).2 ∧
    (SimulateBundleAt keccak Sign net r arg mem sent).2.1 =
      if r.simulationEndpoint ≠ [] ∧
          ((mem.read arg).StateBlockNumber = [] ∨ (mem.read arg).StateBlockNumber = S "0x0") then
        (mem.declare (mem.read arg)).2.assignStateBlockNumber mem.cells.length (S "latest")
      else (mem.declare (mem.read arg)).2 := by
  obtain ⟨hk, h1, h2, h3⟩ := Memory.declare_keeps mem (mem.read arg)
  have hb : (mem.declare (mem.read arg)).2.bundle mem.cells.length = mem.bundle arg :=
    Memory.bundle_congr mem _ arg _ h2 hk.2.1 hk.2.2.1 hk.2.2.2
  have hS : (mem.bundle arg).StateBlockNumber = (mem.read arg).StateBlockNumber := rfl
  unfold SimulateBundleAt SimulateBundle
  have hd : mem.declare (mem.read arg) = (mem.cells.length, (mem.declare (mem.read arg)).2) :=
    rfl
  rw [hd]
  simp only
  by_cases hep : r.simulationEndpoint = []
  · rw [if_pos hep, if_pos hep, if_neg (fun h => h.1 hep)]
    exact ⟨rfl, rfl, rfl⟩
  · rw [if_neg hep, if_neg hep, h2, hS]
    by_cases hs : (mem.read arg).StateBlockNumber = [] ∨
        (mem.read arg).StateBlockNumber = S "0x0"
    · rw [if_pos hs, if_pos hs, if_pos ⟨hep, hs⟩,
        Memory.assign_bundle _ _ _ (by rw [h3]; omega), hb]
      exact ⟨rfl, rfl, rfl⟩
    · rw [if_neg hs, if_neg hs, if_neg (fun h => hs h.2), hb]
      exact ⟨rfl, rfl, rfl⟩

theorem SimulateBundleAt_keeps {Key Tx : Type} (keccak : List Byte → Hash)
    (Sign : List Byte → Key → List Byte × Option GoError) (net : Transport)
    (r : RelayClient Key) (arg : Nat) (mem : Memory Tx) (sent : List Request) :
    mem.keeps (SimulateBundleAt keccak Sign net r arg mem sent).2.1 := by
  rw [(SimulateBundleAt_eq keccak Sign net r arg mem sent).2.2]
  have hk := (Memory.declare_keeps mem (mem.read arg)).1
  split
  · exact Memory.assign_keeps mem _ _ hk
  · exact hk

theorem batchSendLoopAt_eq {Key Tx : Type} (keccak : List Byte → Hash)
    (Sign : List Byte → Key → List Byte × Option GoError) (net : Transport) (b : Nat)
    (value : Bundle Tx) :
    ∀ (clients : List (Option (RelayClient Key))) (resps : List (GoString × SendBundleResponse))
      (mem : Memory Tx) (sent : List Request),
    b < mem.cells.length → mem.bundle b = value →
    match batchSendLoopAt keccak Sign net b clients resps mem sent with
    | .ret (out, after, log) =>
      mem.keeps after ∧ batchSendLoop keccak Sign net value clients resps sent = .ret (out, log)
    | .panic e => batchSendLoop keccak Sign net value clients resps sent = .panic e := by
  intro clients
  induction clients with
  | nil =>
    intro resps mem sent _ _
    exact ⟨Memory.keeps_refl mem, rfl⟩
  | cons c rest ih =>
    intro resps mem sent hb hv
    cases c with
    | none => rfl
    | some client =>
      have hk := (Memory.declare_keeps mem (mem.read b)).1
      have hlen := (Memory.declare_keeps mem (mem.read b)).2.2.2
      have hstep := ih (mapStore resps client.Name
          (SendBundle keccak Sign net client value sent).1) (mem.declare (mem.read b)).2
        (SendBundle keccak Sign net client value sent).2 (by rw [hlen]; omega)
        ((Memory.bundle_of_keeps hk b hb).trans hv)
      simp only [batchSendLoopAt, batchSendLoop, SendBundleAt_eq, hv]
      revert hstep
      cases batchSendLoopAt keccak Sign net b rest
          (mapStore resps client.Name (SendBundle keccak Sign net client value sent).1)
          (mem.declare (mem.read b)).2 (SendBundle keccak Sign net client value sent).2 with
      | ret o =>
        rcases o with ⟨out, after, log⟩
        intro hstep
        exact ⟨Memory.keeps_trans hk hstep.1, hstep.2⟩
      | panic e =>
        intro hstep
        exact hstep

/-- C27: no relay call changes the caller's bundle. Run in a memory, with the caller's
variable as the argument, `SendBundle`, `SimulateBundle` and `BatchSendBundle` leave every
variable that was there before the call with its value, and leave the backing arrays of
the slices and the integers behind the pointers as they were: the caller's variable holds
the same slice headers, strings and pointers, and the bundle read through them has the
same `Transactions`, `TxsByteString`, `BlockNumber`, `StateBlockNumber`, `MinTimestamp`,
`MaxTimestamp` and `RevertingTxHashes`. When `SimulateBundle` rewrites an empty or "0x0"
`StateBlockNumber` the text "latest" is in the method's own variable and the caller's
text is as it was. The calls return what they return on the bundle as a value. -/
theorem relay_calls_keep_bundle {Key Tx : Type} (keccak : List Byte → Hash)
    (Sign : List Byte → Key → List Byte × Option GoError) (net : Transport)
    (r : RelayClient Key) (batch : BatchRelayClient Key) (mem : Memory Tx) (arg : Nat)
    (sent : List Request) (harg : arg < mem.cells.length) :
    (mem.keeps (SendBundleAt keccak Sign net r arg mem sent).2.1 ∧
      (SendBundleAt keccak Sign net r arg mem sent).2.1.read arg = mem.read arg ∧
      (SendBundleAt keccak Sign net r arg mem sent).2.1.bundle arg = mem.bundle arg ∧
      (SendBundleAt keccak Sign net r arg mem sent).1 =
        (SendBundle keccak Sign net r (mem.bundle arg) sent).1 ∧
      (SendBundleAt keccak Sign net r arg mem sent).2.2 =
        (SendBundle keccak Sign net r (mem.bundle arg) sent).2) ∧
    (mem.keeps (SimulateBundleAt keccak Sign net r arg mem sent).2.1 ∧
      (SimulateBundleAt keccak Sign net r arg mem sent).2.1.read arg = mem.read arg ∧
      (SimulateBundleAt keccak Sign net r arg mem sent).2.1.bundle arg = mem.bundle arg ∧
      (SimulateBundleAt keccak Sign net r arg mem sent).1 =
        (SimulateBundle keccak Sign net r (mem.bundle arg) sent).1 ∧
      (SimulateBundleAt keccak Sign net r arg mem sent).2.2 =
        (SimulateBundle keccak Sign net r (mem.bundle arg) sent).2) ∧
    (r.simulationEndpoint ≠ [] →
      (mem.read arg).StateBlockNumber = [] ∨ (mem.read arg).StateBlockNumber = S "0x0" →
      ((SimulateBundleAt keccak Sign net r arg mem sent).2.1.read
        mem.cells.length).StateBlockNumber = S "latest" ∧
      ((SimulateBundleAt keccak Sign net r arg mem sent).2.1.bundle arg).StateBlockNumber =
        (mem.read arg).StateBlockNumber) ∧
    (match BatchSendBundleAt keccak Sign net batch arg mem sent with
      | .ret (resps, after, log) =>
        mem.keeps after ∧ after.read arg = mem.read arg ∧ after.bundle arg = mem.bundle arg ∧
        BatchSendBundle keccak Sign net batch (mem.bundle arg) sent = .ret (resps, log)
      | .panic e => BatchSendBundle keccak Sign net batch (mem.bundle arg) sent = .panic e) := by
  obtain ⟨hk, h1, h2, h3⟩ := Memory.declare_keeps mem (mem.read arg)
  have hsim := SimulateBundleAt_keeps keccak Sign net r arg mem sent
  have hsimeq := SimulateBundleAt_eq keccak Sign net r arg mem sent
  refine ⟨?_, ?_, ?_, ?_⟩
  · rw [SendBundleAt_eq]
    exact ⟨hk, Memory.read_of_keeps hk arg harg, Memory.bundle_of_keeps hk arg harg, rfl, rfl⟩
  · exact ⟨hsim, Memory.read_of_keeps hsim arg harg, Memory.bundle_of_keeps hsim arg harg,
      hsimeq.1, hsimeq.2.1⟩
  · intro hep hs
    refine ⟨?_, ?_⟩
    · rw [hsimeq.2.2, if_pos ⟨hep, hs⟩, Memory.assign_read _ _ _ (by rw [h3]; omega)]
    · rw [Memory.bundle_of_keeps hsim arg harg]
      rfl
  · have hloop := batchSendLoopAt_eq keccak Sign net mem.cells.length (mem.bundle arg)
      batch.relayClients [] (mem.declare (mem.read arg)).2 sent (by rw [h3]; omega)
      (Memory.bundle_congr mem _ arg _ h2 hk.2.1 hk.2.2.1 hk.2.2.2)
    have hB : BatchSendBundleAt keccak Sign net batch arg mem sent =
        batchSendLoopAt keccak Sign net mem.cells.length batch.relayClients []
          (mem.declare (mem.read arg)).2 sent := rfl
    rw [hB]
    unfold BatchSendBundle
    revert hloop
    cases batchSendLoopAt keccak Sign net mem.cells.length batch.relayClients []
        (mem.declare (mem.read arg)).2 sent with
    | ret o =>
      rcases o with ⟨out, after, log⟩
      intro hloop
      have hka := Memory.keeps_trans hk hloop.1
      exact ⟨hka, Memory.read_of_keeps hka arg harg, Memory.bundle_of_keeps hka arg harg,
        hloop.2⟩
    | panic e =>
      intro hloop
      exact hloop

theorem relay_calls_keep_bundle_witness :
    0 < exampleMemory.cells.length ∧
    (exampleMemory.bundle 0).StateBlockNumber = S "0x0" ∧
    ((SimulateBundleAt exampleKeccak exampleSign exampleTransport simClient 0 exampleMemory
      []).2.1.read 1).StateBlockNumber = S "latest" ∧
    ((SimulateBundleAt exampleKeccak exampleSign exampleTransport simClient 0 exampleMemory
      []).2.1.bundle 0).StateBlockNumber = S "0x0" ∧
    (SimulateBundleAt exampleKeccak exampleSign exampleTransport simClient 0 exampleMemory
      []).2.1.bundle 0 = exampleMemory.bundle 0 ∧
    (SendBundleAt exampleKeccak exampleSign exampleTransport simClient 0 exampleMemory
      []).2.1.bundle 0 = exampleMemory.bundle 0 :=
  have h := relay_calls_keep_bundle exampleKeccak exampleSign exampleTransport simClient
    (BatchRelayClient.mk [some simClient]) exampleMemory 0 [] (by decide)
  have hs := h.2.2.1 (by decide) (Or.inr rfl)
  ⟨by decide, rfl, hs.1, hs.2, h.2.1.2.2.1, h.1.2.2.1⟩

/-- The memory tells a copy from the original: an assignment through a slice header of
the parameter would change the caller's bundle, which holds the same header. This is what
the relay calls never do. -/
theorem storeString_seen_by_caller :
    (exampleMemory.bundle 0).TxsByteString = some [S "0xf903"] ∧
    (((exampleMemory.declare (exampleMemory.read 0)).2.storeString ⟨0, 0, 1⟩ 0
      (S "0x00")).bundle 0).TxsByteString = some [S "0x00"] := by
  decide

/-! ## Worked examples for the claims without a hypothesis -/

theorem fbRequest_results_witness :
    signPayload exampleKeccak exampleSign exampleClient (S "\x7b\x7d") =
      (hexutilEncode zeroHash.val, none) ∧
    (fbRequest exampleKeccak exampleSign failingTransport exampleClient
        (S "https://relay.example") (S "\x7b\x7d") []).1.2.1 = 7 ∧
    (fbRequest exampleKeccak exampleSign failingTransport exampleClient
        (S "https://relay.example") (S "\x7b\x7d") []).1 =
      (none, 7, some (GoError.new (S "connection refused"))) :=
  have h := (fbRequest_results exampleKeccak exampleSign failingTransport exampleClient
    (S "https://relay.example") (S "\x7b\x7d") []).2.2 (hexutilEncode zeroHash.val) _ rfl rfl rfl
  ⟨rfl, h.2.1, h.2.2.1 _ rfl⟩

theorem NewRelayClient_result_witness :
    ∃ r, NewRelayClient unitAddress (some ()) (S "relay") (S "https://relay.example") [] =
        (some r, none) ∧
      r.Name = S "relay" ∧ r.MainEndpoint = S "https://relay.example" ∧
      r.SimulationEndpoint = [] ∧ r.SigningAddress = unitAddress () ∧
      r.signingPrivateKey = () :=
  (NewRelayClient_result unitAddress (some ()) (S "relay") (S "https://relay.example")
    []).2.2.1 () rfl

end Flashbots
